import Mathlib

/-!
# dune-gdt: numerical fluxes, local operators and assemblers

A shallow embedding of

* `dune/gdt/local/operators/advection-fv.hh`: the numerical fluxes
  (`NumericalUpwindFlux`, `NumericalLaxFriedrichsFlux`, `NumericalEngquistOsherFlux`,
  `NumericalVijayasundaramFlux`), the class that stands for an unavailable dimension and
  `LocalAdvectionFvCouplingOperator`,
* `dune/gdt/assembler/system.hh`: the `add` overloads of `SystemAssembler`,
* `dune/gdt/localoperator/codim1.hh`: `Codim1BoundaryIntegral` and `Codim1CouplingIntegral`,
* `dune/fem/solver/femassembler.hh`: `FEMAssembler`,
* `dune/gdt/spaces/mapper/continuous.hh`: `ContinuousMapper`,
* `dune/gdt/test/linear-transport/base.hh`: the exact solution of `LinearTransportProblem` and
  the loop of `LinearTransportTest::compute_reference_solution`.

Conventions of the embedding.

* The field `R = double` is modelled by exact rational arithmetic `ℚ`.  The one place where the
  code divides by a quantity that can be zero (`1. / std::max(..)` in the Lax-Friedrichs flux) is
  modelled with an explicit value for the infinite quotient, see `Quot1`.
* A `FieldVector<R, k>` is a function `Fin k → ℚ`; for `m = 1` a state is a single number.
* A C++ function that can throw returns `Except Exc _`; `DUNE_THROW` is `throw`.
* `assert(c)` is an active check: a violated assertion ends the call with
  `Exc.assertion_failed` (the behaviour of a build without `NDEBUG`).
* The flux (`XT::Functions::FunctionInterface`), the quadrature rule and the eigen solver are
  objects of other libraries; they enter as parameters.
* Reading or writing a `DynamicMatrix` or a `std::vector` outside its bounds, undefined in C++,
  ends the call with `Exc.index_out_of_range`.
* A `size_t` has 64 bits and an `int` 32 bits; `boost::numeric_cast` throws
  `Exc.bad_numeric_cast` when the value does not fit.
* A `while` loop that need not end takes a bound on the number of its iterations and has the
  value `none` when the bound is used up.
* `std::fmod` is the remainder of the division rounded towards zero, in exact arithmetic.
* Where the rounding of `double` decides a property, the method has a second form, `.._rounded`,
  with a function `fl` applied to the result of each arithmetic operation: `fl = id` is exact
  arithmetic, `fl = Double.round_to_nearest` is IEEE 754 binary64 without overflow, subnormal
  numbers, infinity and NaN.
-/

namespace Dune.GDT

/-- Exceptions raised by the modelled code. -/
inductive Exc where
  | NotImplemented
  | operator_error
  | assertion_failed
  | eigen_solver_failed
  | index_out_of_range
  | bad_numeric_cast
  | wrong_input_given
  | mapper_error
  | internal_error
  deriving DecidableEq, Repr

/-- A `FieldVector<R, k>`. -/
abbrev Vec (k : Nat) := Fin k → ℚ

/-- Product `a * b` of two `FieldVector`s of the same length (the scalar product). -/
def dot {k : Nat} (a b : Vec k) : ℚ := ∑ s, a s * b s

/-- The flux `f : R → R^d` of a scalar conservation law (`FluxType` for `m = 1`):
`evaluate u` is `f(u)`, `jacobian u` is `f'(u)` and `order` the polynomial order the flux
reports. -/
structure ScalarFluxType (d : Nat) where
  evaluate : ℚ → Vec d
  jacobian : ℚ → Vec d
  order : Nat

/-- The flux `f : R^m → R^{d × m}` of a system (`FluxType` for general `m`): `evaluate u s` is
`f_s(u)` and `jacobian u s` the `m × m` Jacobian of `f_s` at `u`. -/
structure FluxType (d m : Nat) where
  evaluate : Vec m → Fin d → Vec m
  jacobian : Vec m → Fin d → Matrix (Fin m) (Fin m) ℚ
  order : Nat

/-- The physical flux projected on the normal, `f(u) * n`, for a system. -/
def FluxType.evaluate_times {d m : Nat} (flux : FluxType d m) (u : Vec m) (n : Vec d) : Vec m :=
  fun i => ∑ s, flux.evaluate u s i * n s

/-- The matrix `P = df * n` of `NumericalVijayasundaramFlux`: the Jacobian at `w` projected on
the normal. -/
def FluxType.jacobian_times {d m : Nat} (flux : FluxType d m) (w : Vec m) (n : Vec d) :
    Matrix (Fin m) (Fin m) ℚ :=
  ∑ s, n s • flux.jacobian w s

/-! ## NumericalUpwindFlux (m = 1) -/

/-- The method `NumericalUpwindFlux<d, 1, R>::apply`. -/
def NumericalUpwindFlux.apply {d : Nat} (flux : ScalarFluxType d) (u v : ℚ) (n : Vec d) :
    Except Exc ℚ :=
  let df := flux.jacobian ((u + v) / 2)
  if dot n df > 0 then
    pure (dot (flux.evaluate u) n)
  else
    pure (dot (flux.evaluate v) n)

/-! ## NumericalLaxFriedrichsFlux (m = 1) -/

/-- The `infinity_norm()` of the Jacobian of a scalar flux, a `d × 1` matrix: the largest absolute
row sum, computed as in dune-common by `norm = max(a, norm)` over the rows starting from 0. -/
def infinity_norm {d : Nat} (df : Vec d) : ℚ :=
  (List.ofFn fun s => |df s|).foldl (fun norm a => max a norm) 0

/-- The value of the quotient `1. / x` in `double` arithmetic: a number, or `+inf` when the
divisor is zero. -/
inductive Quot1 where
  | finite (q : ℚ)
  | infinite
  deriving DecidableEq, Repr

/-- The quotient `1. / x`: dividing by zero raises no exception, the result is `+inf`. -/
def Quot1.one_over (x : ℚ) : Quot1 :=
  if x = 0 then Quot1.infinite else Quot1.finite (1 / x)

/-- The quotient `x / lambda` of a number by the value of `1. / ..`: a number divided by
`+inf` is zero. -/
def Quot1.divide (x : ℚ) : Quot1 → ℚ
  | Quot1.finite l => x / l
  | Quot1.infinite => 0

/-- The method `NumericalLaxFriedrichsFlux<d, 1, R>::apply`. -/
def NumericalLaxFriedrichsFlux.apply {d : Nat} (flux : ScalarFluxType d) (u v : ℚ) (n : Vec d) :
    Except Exc ℚ :=
  let lambda := Quot1.one_over
    (max (infinity_norm (flux.jacobian u)) (infinity_norm (flux.jacobian v)))
  pure (0.5 * (dot (flux.evaluate u + flux.evaluate v) n) + 0.5 * (Quot1.divide (u - v) lambda))

/-! ## NumericalEngquistOsherFlux (m = 1) -/

/-- A quadrature rule of the reference interval `[0, 1]`: the list of its points, each a
position and a weight. -/
abbrev QuadratureRule := List (ℚ × ℚ)

/-- The lambda `integrate_f` of `NumericalEngquistOsherFlux<d, 1, R>::apply`.  The state grid
is the single interval `[0, s]`, so that `geometry().global(x) = s * x` and
`geometry().integrationElement(x) = s`; `rule` stands for `QuadratureRules<R, 1>::rule`, asked
for the order of the flux. -/
def NumericalEngquistOsherFlux.integrate_f {d : Nat} (flux : ScalarFluxType d)
    (rule : Nat → QuadratureRule) (n : Vec d) (s : ℚ) (min_max : ℚ → ℚ → ℚ) : ℚ :=
  if ¬ (s > 0) then
    0
  else
    (rule flux.order).foldl
      (fun ret quadrature_point =>
        let local_uu := quadrature_point.1
        let uu := s * local_uu
        let df := flux.jacobian uu
        ret + s * quadrature_point.2 * min_max (dot n df) 0)
      0

/-- The method `NumericalEngquistOsherFlux<d, 1, R>::apply`. -/
def NumericalEngquistOsherFlux.apply {d : Nat} (flux : ScalarFluxType d)
    (rule : Nat → QuadratureRule) (u v : ℚ) (n : Vec d) : Except Exc ℚ :=
  pure (dot (flux.evaluate 0) n
    + NumericalEngquistOsherFlux.integrate_f flux rule n u (fun a b => max a b)
    + NumericalEngquistOsherFlux.integrate_f flux rule n v (fun a b => min a b))

/-! ## NumericalVijayasundaramFlux -/

/-- A `FieldMatrix<R, m, m>`. -/
abbrev Mat (m : Nat) := Matrix (Fin m) (Fin m) ℚ

/-- The type `FluxEigenDecompositionLambdaType`: from the mean state and the normal to the
eigenvalues, the eigenvectors `T` and their inverse; the computation can fail. -/
abbrev FluxEigenDecompositionLambdaType (d m : Nat) :=
  Vec m → Vec d → Except Exc (Vec m × Mat m × Mat m)

/-- The lambda installed by the constructor `NumericalVijayasundaramFlux(flx)`: the eigen solver
of dune-xt, a parameter here, applied to `P = df * n`. -/
def NumericalVijayasundaramFlux.default_eigen_decomposition {d m : Nat} (flux : FluxType d m)
    (eigen_solver : Mat m → Except Exc (Vec m × Mat m × Mat m)) :
    FluxEigenDecompositionLambdaType d m :=
  fun w n =>
    let P := flux.jacobian_times w n
    eigen_solver P

/-- The helper `XT::Common::set_matrix_entry`. -/
def set_matrix_entry {m : Nat} (M : Mat m) (ii jj : Fin m) (value : ℚ) : Mat m :=
  Matrix.of fun a b => if a = ii ∧ b = jj then value else M a b

/-- The loop of `NumericalVijayasundaramFlux::apply` that fills `lambda_plus` and
`lambda_minus`, both zero at the start, for `ii = 0, ..., m - 1`. -/
def NumericalVijayasundaramFlux.lambda_plus_minus {m : Nat} (evs : Vec m) : Mat m × Mat m :=
  (List.finRange m).foldl
    (fun acc ii =>
      let real_ev := evs ii
      (set_matrix_entry acc.1 ii ii (max real_ev 0), set_matrix_entry acc.2 ii ii (min real_ev 0)))
    (0, 0)

/-- The method `NumericalVijayasundaramFlux::apply`. -/
def NumericalVijayasundaramFlux.apply {d m : Nat}
    (flux_eigen_decomposition_lambda_ : FluxEigenDecompositionLambdaType d m)
    (u v : Vec m) (n : Vec d) : Except Exc (Vec m) := do
  let eigendecomposition ← flux_eigen_decomposition_lambda_ ((0.5 : ℚ) • (u + v)) n
  let evs := eigendecomposition.1
  let T := eigendecomposition.2.1
  let T_inv := eigendecomposition.2.2
  let lambdas := NumericalVijayasundaramFlux.lambda_plus_minus evs
  let P_plus := T * lambdas.1 * T_inv
  let P_minus := T * lambdas.2 * T_inv
  pure (P_plus.mulVec u + P_minus.mulVec v)

/-! ## Fluxes that are not available for the given dimensions -/

/-- An object of class `internal::ThisNumericalFluxIsNotAvailableForTheseDimensions<d, m, R>`:
its only state is the flux held by the base class `NumericalFluxInterface`. -/
structure ThisNumericalFluxIsNotAvailableForTheseDimensions (d m : Nat) where
  flux_ : FluxType d m

/-- The function `XT::Functions::ConstantFunction<m, d, m, R>(0.)` handed to the base class. -/
def ConstantFunction_zero (d m : Nat) : FluxType d m :=
  { evaluate := fun _ _ _ => 0, jacobian := fun _ _ => 0, order := 0 }

namespace ThisNumericalFluxIsNotAvailableForTheseDimensions

/-- The constructor: it initialises the base class and then throws, whatever the arguments. -/
def ctor {α : Type} (d m : Nat) (_args : α) :
    Except Exc (ThisNumericalFluxIsNotAvailableForTheseDimensions d m) := do
  let self : ThisNumericalFluxIsNotAvailableForTheseDimensions d m :=
    { flux_ := ConstantFunction_zero d m }
  throw Exc.NotImplemented
  pure self

/-- The method `copy`. -/
def copy {d m : Nat} (_self : ThisNumericalFluxIsNotAvailableForTheseDimensions d m) :
    Except Exc (ThisNumericalFluxIsNotAvailableForTheseDimensions d m) :=
  throw Exc.NotImplemented

/-- The method `linear`. -/
def linear {d m : Nat} (_self : ThisNumericalFluxIsNotAvailableForTheseDimensions d m) :
    Except Exc Bool :=
  throw Exc.NotImplemented

/-- The method `apply`. -/
def apply {d m : Nat} (_self : ThisNumericalFluxIsNotAvailableForTheseDimensions d m)
    (_u _v : Vec m) (_n : Vec d) : Except Exc (Vec m) :=
  throw Exc.NotImplemented

end ThisNumericalFluxIsNotAvailableForTheseDimensions

/-- The constructor of the primary template `NumericalUpwindFlux<d, m, R>`, the one instantiated
for `m ≠ 1`: it forwards to the constructor of its base class.  The class adds no member, an
object of it is an object of the base class with the base class' `copy`, `linear`, `apply`. -/
def NumericalUpwindFlux.ctor {α : Type} (d m : Nat) (_hm : m ≠ 1) (_args : α) :
    Except Exc (ThisNumericalFluxIsNotAvailableForTheseDimensions d m) :=
  ThisNumericalFluxIsNotAvailableForTheseDimensions.ctor d m ()

/-- The constructor of the primary template `NumericalLaxFriedrichsFlux<d, m, R>` (`m ≠ 1`). -/
def NumericalLaxFriedrichsFlux.ctor {α : Type} (d m : Nat) (_hm : m ≠ 1) (_args : α) :
    Except Exc (ThisNumericalFluxIsNotAvailableForTheseDimensions d m) :=
  ThisNumericalFluxIsNotAvailableForTheseDimensions.ctor d m ()

/-- The constructor of the primary template `NumericalEngquistOsherFlux<d, m, R>` (`m ≠ 1`). -/
def NumericalEngquistOsherFlux.ctor {α : Type} (d m : Nat) (_hm : m ≠ 1) (_args : α) :
    Except Exc (ThisNumericalFluxIsNotAvailableForTheseDimensions d m) :=
  ThisNumericalFluxIsNotAvailableForTheseDimensions.ctor d m ()

/-! ## SystemAssembler -/

/-- A matrix handed to `add` as `Dune::Stuff::LA::MatrixInterface<M>&`: the identity of the
container and its dimensions `rows()`, `cols()`. -/
structure MatrixInterface where
  id : Nat
  rows : Nat
  cols : Nat
  deriving DecidableEq, Repr

/-- A vector handed to `add` as `Dune::Stuff::LA::VectorInterface<V>&`: the identity of the
container and its `size()`. -/
structure VectorInterface where
  id : Nat
  size : Nat
  deriving DecidableEq, Repr

/-- The local assembler given to `add` or `add_codim0_assembler`, by its class and the identity
of the object; `Codim0Assembler` is the unconstrained template argument of
`add_codim0_assembler`. -/
inductive LocalAssembler where
  | Codim0Matrix (L : Nat)
  | Codim0Vector (L : Nat)
  | Codim1CouplingMatrix (L : Nat)
  | Codim1BoundaryMatrix (L : Nat)
  | Codim1Vector (L : Nat)
  | Codim0Assembler (L : Nat)
  deriving DecidableEq, Repr

/-- The wrappers stored in `codim0_functors_`; `where_` is the predicate object (`ApplyOn::
WhichEntity`), `constraints` the constraints object, both by identity. -/
inductive Codim0Functor where
  | LocalMatrixConstraintsWrapper (where_ : Nat) (constraints : Nat) (matrix : MatrixInterface)
  | LocalVectorConstraintsWrapper (where_ : Nat) (constraints : Nat) (vector : VectorInterface)
  | LocalVolumeMatrixAssemblerWrapper (where_ : Nat) (local_assembler : LocalAssembler)
      (matrix : MatrixInterface)
  | LocalVolumeVectorAssemblerWrapper (where_ : Nat) (local_assembler : LocalAssembler)
      (vector : VectorInterface)
  deriving DecidableEq, Repr

/-- The wrappers stored in `codim1_functors_`; `where_` is the predicate object (`ApplyOn::
WhichIntersection`). -/
inductive Codim1Functor where
  | LocalFaceMatrixAssemblerWrapper (where_ : Nat) (local_assembler : LocalAssembler)
      (matrix : MatrixInterface)
  | LocalFaceVectorAssemblerWrapper (where_ : Nat) (local_assembler : LocalAssembler)
      (vector : VectorInterface)
  deriving DecidableEq, Repr

/-- The state of a `SystemAssembler` that `add` reads and writes: the sizes
`test_space_.mapper().size()` and `ansatz_space_.mapper().size()` and the two functor lists of
the base class `GridWalker`. -/
structure SystemAssembler where
  test_space_mapper_size : Nat
  ansatz_space_mapper_size : Nat
  codim0_functors_ : List Codim0Functor
  codim1_functors_ : List Codim1Functor
  deriving DecidableEq, Repr

/-- Member functions of `SystemAssembler`: they change the object and can fail; the object
keeps the state it had when the failure occurred. -/
abbrev SystemAssemblerM := ExceptT Exc (StateM SystemAssembler)

/-- The macro `assert`. -/
def assert (c : Prop) [Decidable c] : SystemAssemblerM Unit :=
  if c then pure () else throw Exc.assertion_failed

/-- The call `this->codim0_functors_.emplace_back(..)`. -/
def codim0_functors_emplace_back (f : Codim0Functor) : SystemAssemblerM Unit :=
  modify fun self => { self with codim0_functors_ := self.codim0_functors_ ++ [f] }

/-- The call `this->codim1_functors_.emplace_back(..)`. -/
def codim1_functors_emplace_back (f : Codim1Functor) : SystemAssemblerM Unit :=
  modify fun self => { self with codim1_functors_ := self.codim1_functors_ ++ [f] }

namespace SystemAssembler

/-- The overload `add(ConstraintsType&, MatrixInterface<M>&, where)`. -/
def add_constraints_matrix (constraints : Nat) (matrix : MatrixInterface) (where_ : Nat) :
    SystemAssemblerM Unit := do
  let self ← get
  assert (matrix.rows = self.test_space_mapper_size)
  assert (matrix.cols = self.ansatz_space_mapper_size)
  codim0_functors_emplace_back (Codim0Functor.LocalMatrixConstraintsWrapper where_ constraints matrix)

/-- The overload `add(ConstraintsType&, VectorInterface<V>&, where)`. -/
def add_constraints_vector (constraints : Nat) (vector : VectorInterface) (where_ : Nat) :
    SystemAssemblerM Unit := do
  let self ← get
  assert (vector.size = self.test_space_mapper_size)
  codim0_functors_emplace_back (Codim0Functor.LocalVectorConstraintsWrapper where_ constraints vector)

/-- The overload `add(const LocalAssembler::Codim0Matrix<L>&, MatrixInterface<M>&, where)`. -/
def add_Codim0Matrix (L : Nat) (matrix : MatrixInterface) (where_ : Nat) :
    SystemAssemblerM Unit := do
  let self ← get
  assert (matrix.rows = self.test_space_mapper_size)
  assert (matrix.cols = self.ansatz_space_mapper_size)
  codim0_functors_emplace_back
    (Codim0Functor.LocalVolumeMatrixAssemblerWrapper where_ (LocalAssembler.Codim0Matrix L) matrix)

/-- The overload `add_codim0_assembler(const Codim0Assembler&, MatrixInterface<M>&, where)`. -/
def add_codim0_assembler_matrix (L : Nat) (matrix : MatrixInterface) (where_ : Nat) :
    SystemAssemblerM Unit := do
  let self ← get
  assert (matrix.rows = self.test_space_mapper_size)
  assert (matrix.cols = self.ansatz_space_mapper_size)
  codim0_functors_emplace_back
    (Codim0Functor.LocalVolumeMatrixAssemblerWrapper where_ (LocalAssembler.Codim0Assembler L) matrix)

/-- The overload `add_codim0_assembler(const Codim0Assembler&, VectorInterface<V>&, where)`. -/
def add_codim0_assembler_vector (L : Nat) (vector : VectorInterface) (where_ : Nat) :
    SystemAssemblerM Unit := do
  let self ← get
  assert (vector.size = self.test_space_mapper_size)
  codim0_functors_emplace_back
    (Codim0Functor.LocalVolumeVectorAssemblerWrapper where_ (LocalAssembler.Codim0Assembler L) vector)

/-- The overload `add(const LocalAssembler::Codim1CouplingMatrix<L>&, MatrixInterface<M>&,
where)`. -/
def add_Codim1CouplingMatrix (L : Nat) (matrix : MatrixInterface) (where_ : Nat) :
    SystemAssemblerM Unit := do
  let self ← get
  assert (matrix.rows = self.test_space_mapper_size)
  assert (matrix.cols = self.ansatz_space_mapper_size)
  codim1_functors_emplace_back
    (Codim1Functor.LocalFaceMatrixAssemblerWrapper where_ (LocalAssembler.Codim1CouplingMatrix L)
      matrix)

/-- The overload `add(const LocalAssembler::Codim1BoundaryMatrix<L>&, MatrixInterface<M>&,
where)`. -/
def add_Codim1BoundaryMatrix (L : Nat) (matrix : MatrixInterface) (where_ : Nat) :
    SystemAssemblerM Unit := do
  let self ← get
  assert (matrix.rows = self.test_space_mapper_size)
  assert (matrix.cols = self.ansatz_space_mapper_size)
  codim1_functors_emplace_back
    (Codim1Functor.LocalFaceMatrixAssemblerWrapper where_ (LocalAssembler.Codim1BoundaryMatrix L)
      matrix)

/-- The overload `add(const LocalAssembler::Codim0Vector<L>&, VectorInterface<V>&, where)`. -/
def add_Codim0Vector (L : Nat) (vector : VectorInterface) (where_ : Nat) :
    SystemAssemblerM Unit := do
  let self ← get
  assert (vector.size = self.test_space_mapper_size)
  codim0_functors_emplace_back
    (Codim0Functor.LocalVolumeVectorAssemblerWrapper where_ (LocalAssembler.Codim0Vector L) vector)

/-- The overload `add(const LocalAssembler::Codim1Vector<L>&, VectorInterface<V>&, where)`. -/
def add_Codim1Vector (L : Nat) (vector : VectorInterface) (where_ : Nat) :
    SystemAssemblerM Unit := do
  let self ← get
  assert (vector.size = self.test_space_mapper_size)
  codim1_functors_emplace_back
    (Codim1Functor.LocalFaceVectorAssemblerWrapper where_ (LocalAssembler.Codim1Vector L) vector)

/-- A call of `add` or `add_codim0_assembler` with a matrix, by the overload that C++ selects
for the first argument. -/
inductive MatrixCall where
  | constraints (constraints : Nat)
  | Codim0Matrix (L : Nat)
  | codim0_assembler (L : Nat)
  | Codim1CouplingMatrix (L : Nat)
  | Codim1BoundaryMatrix (L : Nat)
  deriving DecidableEq, Repr

/-- A call of `add` or `add_codim0_assembler` with a vector, by the overload that C++ selects
for the first argument. -/
inductive VectorCall where
  | constraints (constraints : Nat)
  | codim0_assembler (L : Nat)
  | Codim0Vector (L : Nat)
  | Codim1Vector (L : Nat)
  deriving DecidableEq, Repr

/-- Overload resolution for a call with a matrix. -/
def add_matrix (call : MatrixCall) (matrix : MatrixInterface) (where_ : Nat) :
    SystemAssemblerM Unit :=
  match call with
  | MatrixCall.constraints c => add_constraints_matrix c matrix where_
  | MatrixCall.Codim0Matrix L => add_Codim0Matrix L matrix where_
  | MatrixCall.codim0_assembler L => add_codim0_assembler_matrix L matrix where_
  | MatrixCall.Codim1CouplingMatrix L => add_Codim1CouplingMatrix L matrix where_
  | MatrixCall.Codim1BoundaryMatrix L => add_Codim1BoundaryMatrix L matrix where_

/-- Overload resolution for a call with a vector. -/
def add_vector (call : VectorCall) (vector : VectorInterface) (where_ : Nat) :
    SystemAssemblerM Unit :=
  match call with
  | VectorCall.constraints c => add_constraints_vector c vector where_
  | VectorCall.codim0_assembler L => add_codim0_assembler_vector L vector where_
  | VectorCall.Codim0Vector L => add_Codim0Vector L vector where_
  | VectorCall.Codim1Vector L => add_Codim1Vector L vector where_

/-- Running a member function on the object `self`: what the call reports and the object
afterwards. -/
def call {α : Type} (self : SystemAssembler) (f : SystemAssemblerM α) :
    Except Exc α × SystemAssembler :=
  (ExceptT.run f).run self

end SystemAssembler

/-! ## LocalAdvectionFvCouplingOperator -/

/-- The values of the enum `SpaceType`.  The enum is declared outside the modelled sources; the
operator only compares with `finite_volume`, every other value is `other`. -/
inductive SpaceType where
  | finite_volume
  | other (tag : Nat)
  deriving DecidableEq, Repr

/-- The virtual method `NumericalFluxInterface<d, m, R>::apply`, as an operator sees the flux it
holds. -/
abbrev NumericalFluxType (d m : Nat) := Vec m → Vec m → Vec d → Except Exc (Vec m)

/-- The class `NumericalUpwindFlux<d, 1, R>` behind its interface: states are vectors of
length one. -/
def NumericalUpwindFlux.as_interface {d : Nat} (flux : ScalarFluxType d) :
    NumericalFluxType d 1 :=
  fun u v n => do
    let g ← NumericalUpwindFlux.apply flux (u 0) (v 0) n
    pure (fun _ => g)

/-- The method `LocalAdvectionFvCouplingOperator::apply`.  The arguments are what the method
reads from `source`, `intersection` and the two local ranges: the types of the three spaces,
the local degrees of freedom `u`, `v` of the source on the inside and the outside element, the
unit outer normal at the centre, the volumes of the intersection and of the two elements, and
the degrees of freedom of the two local ranges, which are returned as they are after the
call. -/
def LocalAdvectionFvCouplingOperator.apply {d m : Nat} (numerical_flux_ : NumericalFluxType d m)
    (source_space_type inside_space_type outside_space_type : SpaceType)
    (u v : Vec m) (normal : Vec d) (h_intersection h_inside_element h_outside_element : ℚ)
    (local_range_inside local_range_outside : Vec m) : Except Exc (Vec m × Vec m) := do
  if source_space_type ≠ SpaceType.finite_volume
      ∨ inside_space_type ≠ SpaceType.finite_volume
      ∨ outside_space_type ≠ SpaceType.finite_volume then
    throw Exc.operator_error
  let g ← numerical_flux_ u v normal
  pure ((List.finRange m).foldl
    (fun dofs ii =>
      (Function.update dofs.1 ii (dofs.1 ii + (g ii * h_intersection) / h_inside_element),
        Function.update dofs.2 ii (dofs.2 ii - (g ii * h_intersection) / h_outside_element)))
    (local_range_inside, local_range_outside))

/-- The method `LocalAdvectionFvCouplingOperator::apply` with its two reference arguments as
explicit state: the state holds the degrees of freedom of `local_range_inside` and of
`local_range_outside`, which the method updates in place, so that the state after an exception
is visible.  The other arguments are as for `LocalAdvectionFvCouplingOperator.apply`. -/
def LocalAdvectionFvCouplingOperator.apply_in_place {d m : Nat}
    (numerical_flux_ : NumericalFluxType d m)
    (source_space_type inside_space_type outside_space_type : SpaceType)
    (u v : Vec m) (normal : Vec d) (h_intersection h_inside_element h_outside_element : ℚ) :
    ExceptT Exc (StateM (Vec m × Vec m)) Unit := do
  if source_space_type ≠ SpaceType.finite_volume
      ∨ inside_space_type ≠ SpaceType.finite_volume
      ∨ outside_space_type ≠ SpaceType.finite_volume then
    throw Exc.operator_error
  let g ← MonadExcept.ofExcept (numerical_flux_ u v normal)
  modify fun dofs => (List.finRange m).foldl
    (fun dofs ii =>
      (Function.update dofs.1 ii (dofs.1 ii + (g ii * h_intersection) / h_inside_element),
        Function.update dofs.2 ii (dofs.2 ii - (g ii * h_intersection) / h_outside_element)))
    dofs

/-! ## LocalOperator::Codim1BoundaryIntegral and LocalOperator::Codim1CouplingIntegral -/

namespace LocalOperator

/-- The number of values of a `size_t`. -/
def size_t_modulus : Nat := 2 ^ 64

/-- The largest `int`. -/
def INT_MAX : Nat := 2147483647

/-- The cast `boost::numeric_cast< int >(x)` of a `size_t`. -/
def numeric_cast_int (x : Nat) : Except Exc Nat :=
  if x ≤ INT_MAX then pure x else throw Exc.bad_numeric_cast

/-- The macro `assert` in a function that returns or throws. -/
def assert (c : Prop) [Decidable c] : Except Exc Unit :=
  if c then pure () else throw Exc.assertion_failed

/-- A `Dune::DynamicMatrix< R >`: `rows()`, `cols()` and the entries. -/
@[ext]
structure DynamicMatrix where
  rows : Nat
  cols : Nat
  entry : Nat → Nat → ℚ

namespace DynamicMatrix

/-- The statement `M *= x`. -/
def times_assign (M : DynamicMatrix) (x : ℚ) : DynamicMatrix :=
  { M with entry := fun a b => M.entry a b * x }

/-- Taking the row `M[ii]`. -/
def row (M : DynamicMatrix) (ii : Nat) : Except Exc Unit :=
  if ii < M.rows then pure () else throw Exc.index_out_of_range

/-- Reading `MRow[jj]` in the row `ii`. -/
def read (M : DynamicMatrix) (ii jj : Nat) : Except Exc ℚ :=
  if jj < M.cols then pure (M.entry ii jj) else throw Exc.index_out_of_range

/-- The statement `MRow[jj] += value` in the row `ii`. -/
def add_assign (M : DynamicMatrix) (ii jj : Nat) (value : ℚ) : Except Exc DynamicMatrix :=
  if jj < M.cols then
    pure { M with entry := fun a b => if a = ii ∧ b = jj then M.entry a b + value else M.entry a b }
  else
    throw Exc.index_out_of_range

/-- The matrix `ret` with `vals[a][b] * integrationFactor * quadratureWeight` added to every
entry with `a < rows` and `b < cols`. -/
def add_block (ret vals : DynamicMatrix) (rows cols : Nat) (integrationFactor quadratureWeight : ℚ) :
    DynamicMatrix :=
  { ret with
    entry := fun a b =>
      if a < rows ∧ b < cols then
        ret.entry a b + vals.entry a b * integrationFactor * quadratureWeight
      else
        ret.entry a b }

/-- The matrix `ret` with `S a b` added to every entry with `a < rows` and `b < cols`. -/
def add_sum (ret : DynamicMatrix) (rows cols : Nat) (S : Nat → Nat → ℚ) : DynamicMatrix :=
  { ret with entry := fun a b => ret.entry a b + if a < rows ∧ b < cols then S a b else 0 }

end DynamicMatrix

/-- The element `tmpLocalMatrices[i]` of the vector of scratch matrices. -/
def tmp_at (tmpLocalMatrices : List DynamicMatrix) (i : Nat) : Except Exc DynamicMatrix :=
  match tmpLocalMatrices[i]? with
  | some M => pure M
  | none => throw Exc.index_out_of_range

/-- What the operators read from a `LocalfunctionSetInterface`: `size()` and `order()`. -/
structure LocalfunctionSetInterface where
  size : Nat
  order : Nat

/-- A point of a quadrature rule of the reference face: `position()` and `weight()`. -/
structure QuadraturePoint (k : Nat) where
  position : Vec k
  weight : ℚ

/-- What the operators read from the intersection, a face of dimension `k = d - 1`:
`geometry().integrationElement(x)` and, as `rule o`, the quadrature rule
`QuadratureRules< D, d - 1 >::rule(intersection.type(), o)`. -/
structure Intersection (k : Nat) where
  integrationElement : Vec k → ℚ
  rule : Nat → List (QuadraturePoint k)

/-- The quadrature sum of the entry `(a, b)`: the sum over the points `q` of a rule of
`V_q[a][b] * integrationElement(q) * weight(q)`, where `V_q` is the matrix of values at `q`. -/
def quadrature_sum {k : Nat} (intersection : Intersection k) (qs : List (QuadraturePoint k))
    (V : Vec k → DynamicMatrix) (a b : Nat) : ℚ :=
  (qs.map fun q =>
    (V q.position).entry a b * intersection.integrationElement q.position * q.weight).sum

/-- The inner loop shared by both operators,
`for (jj < n) retRow[jj] += valsRow[jj] * integrationFactor * quadratureWeight`, in the
row `ii`. -/
def add_row (ret vals : DynamicMatrix) (ii n : Nat) (integrationFactor quadratureWeight : ℚ) :
    Except Exc DynamicMatrix :=
  (List.range n).foldlM
    (fun ret jj => do
      let value ← vals.read ii jj
      ret.add_assign ii jj (value * integrationFactor * quadratureWeight))
    ret

/-- A binary evaluation (`LocalEvaluation::Codim1Interface< ..., 2 >`): `order(..)` for the two
bases and `evaluate(.., localPoint, ret)`, which gets the scratch matrix and leaves it with the
values at the point. -/
structure BinaryEvaluation (k : Nat) where
  order : LocalfunctionSetInterface → LocalfunctionSetInterface → Nat
  evaluate : LocalfunctionSetInterface → LocalfunctionSetInterface → Vec k → DynamicMatrix →
    DynamicMatrix

/-- The members of a `Codim1BoundaryIntegral`. -/
structure Codim1BoundaryIntegral (k : Nat) where
  evaluation_ : BinaryEvaluation k
  over_integrate_ : Nat

namespace Codim1BoundaryIntegral

/-- The constant `numTmpObjectsRequired_`. -/
def numTmpObjectsRequired_ : Nat := 1

/-- The constructor `Codim1BoundaryIntegral(Args&& ...args)`. -/
def ctor {k : Nat} (evaluation : BinaryEvaluation k) : Codim1BoundaryIntegral k :=
  { evaluation_ := evaluation, over_integrate_ := 0 }

/-- The constructor `Codim1BoundaryIntegral(const int over_integrate, Args&& ...args)`: the
member is a `size_t`, the `int` is converted modulo `2^64`. -/
def ctor_int {k : Nat} (over_integrate : Int) (evaluation : BinaryEvaluation k) :
    Codim1BoundaryIntegral k :=
  { evaluation_ := evaluation, over_integrate_ := (over_integrate % (size_t_modulus : Int)).toNat }

/-- The constructor `Codim1BoundaryIntegral(const size_t over_integrate, Args&& ...args)`: the
cast of a `size_t` to `size_t` keeps the value. -/
def ctor_size_t {k : Nat} (over_integrate : Nat) (evaluation : BinaryEvaluation k) :
    Codim1BoundaryIntegral k :=
  { evaluation_ := evaluation, over_integrate_ := over_integrate }

/-- The order `boost::numeric_cast< int >(integrand_order)` that `apply` hands to
`FaceQuadratureRules::rule`. -/
def quadrature_order {k : Nat} (self : Codim1BoundaryIntegral k)
    (testBase ansatzBase : LocalfunctionSetInterface) : Except Exc Nat :=
  let integrand_order :=
    (self.evaluation_.order testBase ansatzBase + self.over_integrate_) % size_t_modulus
  numeric_cast_int integrand_order

/-- The loops over the test and the ansatz basis functions at one quadrature point. -/
def add_rows (ret localMatrix : DynamicMatrix) (rows cols : Nat)
    (integrationFactor quadratureWeight : ℚ) : Except Exc DynamicMatrix :=
  (List.range rows).foldlM
    (fun ret ii => do
      ret.row ii
      localMatrix.row ii
      add_row ret localMatrix ii cols integrationFactor quadratureWeight)
    ret

/-- The body of the loop over the quadrature points; the state is `ret` and the scratch matrix
`localMatrix`. -/
def quadrature_step {k : Nat} (self : Codim1BoundaryIntegral k)
    (testBase ansatzBase : LocalfunctionSetInterface) (intersection : Intersection k)
    (rows cols : Nat) (state : DynamicMatrix × DynamicMatrix) (quadPoint : QuadraturePoint k) :
    Except Exc (DynamicMatrix × DynamicMatrix) := do
  let localPoint := quadPoint.position
  let integrationFactor := intersection.integrationElement localPoint
  let quadratureWeight := quadPoint.weight
  let localMatrix := self.evaluation_.evaluate testBase ansatzBase localPoint state.2
  assert (localMatrix.rows ≥ rows)
  assert (localMatrix.cols ≥ cols)
  let ret ← add_rows state.1 localMatrix rows cols integrationFactor quadratureWeight
  pure (ret, localMatrix)

/-- The method `Codim1BoundaryIntegral::apply`; it returns `ret` and `tmpLocalMatrices` as they
are after the call. -/
def apply {k : Nat} (self : Codim1BoundaryIntegral k)
    (testBase ansatzBase : LocalfunctionSetInterface) (intersection : Intersection k)
    (ret : DynamicMatrix) (tmpLocalMatrices : List DynamicMatrix) :
    Except Exc (DynamicMatrix × List DynamicMatrix) := do
  let order ← self.quadrature_order testBase ansatzBase
  let faceQuadrature := intersection.rule order
  let ret := ret.times_assign 0.0
  let rows := testBase.size
  let cols := ansatzBase.size
  assert (ret.rows ≥ rows)
  assert (ret.cols ≥ cols)
  assert (tmpLocalMatrices.length ≥ numTmpObjectsRequired_)
  let localMatrix ← tmp_at tmpLocalMatrices 0
  let state ← faceQuadrature.foldlM
    (quadrature_step self testBase ansatzBase intersection rows cols) (ret, localMatrix)
  pure (state.1, tmpLocalMatrices.set 0 state.2)

end Codim1BoundaryIntegral

/-- The four matrices of a coupling: the four output blocks, or the four scratch matrices. -/
structure FourMatrices where
  entityEntity : DynamicMatrix
  neighborNeighbor : DynamicMatrix
  entityNeighbor : DynamicMatrix
  neighborEntity : DynamicMatrix

namespace FourMatrices

/-- The sizes with which `Codim1CouplingIntegral::apply` passes its assertions and stays within
the bounds: every matrix holds its own block, `rowsEn × colsEn` for entity/entity,
`rowsNe × colsNe` for neighbor/neighbor, `rowsEn × colsNe` for entity/neighbor and
`rowsNe × colsEn` for neighbor/entity, and the neighbor/entity matrix has the `rowsEn` rows
that the assertion asks for. -/
def fits (M : FourMatrices) (rowsEn colsEn rowsNe colsNe : Nat) : Prop :=
  (rowsEn ≤ M.entityEntity.rows ∧ colsEn ≤ M.entityEntity.cols) ∧
  (rowsNe ≤ M.neighborNeighbor.rows ∧ colsNe ≤ M.neighborNeighbor.cols) ∧
  (rowsEn ≤ M.entityNeighbor.rows ∧ colsNe ≤ M.entityNeighbor.cols) ∧
  (rowsNe ≤ M.neighborEntity.rows ∧ colsEn ≤ M.neighborEntity.cols) ∧
  rowsEn ≤ M.neighborEntity.rows

/-- The four blocks with the values at one quadrature point added, each to its own block. -/
def add_block (ret vals : FourMatrices) (rowsEn colsEn rowsNe colsNe : Nat)
    (integrationFactor quadratureWeight : ℚ) : FourMatrices :=
  { entityEntity :=
      ret.entityEntity.add_block vals.entityEntity rowsEn colsEn integrationFactor quadratureWeight
    neighborNeighbor :=
      ret.neighborNeighbor.add_block vals.neighborNeighbor rowsNe colsNe integrationFactor
        quadratureWeight
    entityNeighbor :=
      ret.entityNeighbor.add_block vals.entityNeighbor rowsEn colsNe integrationFactor
        quadratureWeight
    neighborEntity :=
      ret.neighborEntity.add_block vals.neighborEntity rowsNe colsEn integrationFactor
        quadratureWeight }

/-- The four blocks with the quadrature sums added, each block with the sums of its own
values. -/
def add_sum {k : Nat} (ret : FourMatrices) (rowsEn colsEn rowsNe colsNe : Nat)
    (intersection : Intersection k) (qs : List (QuadraturePoint k)) (V : Vec k → FourMatrices) :
    FourMatrices :=
  { entityEntity :=
      ret.entityEntity.add_sum rowsEn colsEn
        (quadrature_sum intersection qs fun p => (V p).entityEntity)
    neighborNeighbor :=
      ret.neighborNeighbor.add_sum rowsNe colsNe
        (quadrature_sum intersection qs fun p => (V p).neighborNeighbor)
    entityNeighbor :=
      ret.entityNeighbor.add_sum rowsEn colsNe
        (quadrature_sum intersection qs fun p => (V p).entityNeighbor)
    neighborEntity :=
      ret.neighborEntity.add_sum rowsNe colsEn
        (quadrature_sum intersection qs fun p => (V p).neighborEntity) }

end FourMatrices

/-- A quaternary evaluation (`LocalEvaluation::Codim1Interface< ..., 4 >`): `order(..)` for the
four bases and `evaluate(.., localPoint, ..)`, which gets the four scratch matrices and leaves
them with the values at the point. -/
structure QuaternaryEvaluation (k : Nat) where
  order : LocalfunctionSetInterface → LocalfunctionSetInterface → LocalfunctionSetInterface →
    LocalfunctionSetInterface → Nat
  evaluate : LocalfunctionSetInterface → LocalfunctionSetInterface → LocalfunctionSetInterface →
    LocalfunctionSetInterface → Vec k → FourMatrices → FourMatrices

/-- The members of a `Codim1CouplingIntegral`. -/
structure Codim1CouplingIntegral (k : Nat) where
  evaluation_ : QuaternaryEvaluation k
  over_integrate_ : Nat

namespace Codim1CouplingIntegral

/-- The constant `numTmpObjectsRequired_`. -/
def numTmpObjectsRequired_ : Nat := 4

/-- The constructor `Codim1CouplingIntegral(Args&& ...args)`. -/
def ctor {k : Nat} (evaluation : QuaternaryEvaluation k) : Codim1CouplingIntegral k :=
  { evaluation_ := evaluation, over_integrate_ := 0 }

/-- The constructor `Codim1CouplingIntegral(const int over_integrate, Args&& ...args)`: the
member is a `size_t`, the `int` is converted modulo `2^64`. -/
def ctor_int {k : Nat} (over_integrate : Int) (evaluation : QuaternaryEvaluation k) :
    Codim1CouplingIntegral k :=
  { evaluation_ := evaluation, over_integrate_ := (over_integrate % (size_t_modulus : Int)).toNat }

/-- The constructor `Codim1CouplingIntegral(const size_t over_integrate, Args&& ...args)`: the
cast of a `size_t` to `size_t` keeps the value. -/
def ctor_size_t {k : Nat} (over_integrate : Nat) (evaluation : QuaternaryEvaluation k) :
    Codim1CouplingIntegral k :=
  { evaluation_ := evaluation, over_integrate_ := over_integrate }

/-- The order `boost::numeric_cast< int >(integrand_order)` that `apply` hands to
`QuadratureRules< D, d - 1 >::rule`. -/
def quadrature_order {k : Nat} (self : Codim1CouplingIntegral k)
    (entityTestBase entityAnsatzBase neighborTestBase neighborAnsatzBase :
      LocalfunctionSetInterface) : Except Exc Nat :=
  let integrand_order :=
    (self.evaluation_.order entityTestBase entityAnsatzBase neighborTestBase neighborAnsatzBase
      + self.over_integrate_) % size_t_modulus
  numeric_cast_int integrand_order

/-- One of the two loops over test basis functions at a quadrature point: in every row `ii` the
rows of two output blocks and of their scratch matrices are taken, then the first block is
summed over `colsA` columns and the second over `colsB` columns. -/
def add_rows_pair (retA valsA : DynamicMatrix) (colsA : Nat) (retB valsB : DynamicMatrix)
    (colsB : Nat) (rows : Nat) (integrationFactor quadratureWeight : ℚ) :
    Except Exc (DynamicMatrix × DynamicMatrix) :=
  (List.range rows).foldlM
    (fun rets ii => do
      rets.1.row ii
      valsA.row ii
      rets.2.row ii
      valsB.row ii
      let retA ← add_row rets.1 valsA ii colsA integrationFactor quadratureWeight
      let retB ← add_row rets.2 valsB ii colsB integrationFactor quadratureWeight
      pure (retA, retB))
    (retA, retB)

/-- The body of the loop over the quadrature points; the state is the four output blocks and
the four scratch matrices. -/
def quadrature_step {k : Nat} (self : Codim1CouplingIntegral k)
    (entityTestBase entityAnsatzBase neighborTestBase neighborAnsatzBase :
      LocalfunctionSetInterface)
    (intersection : Intersection k) (rowsEn colsEn rowsNe colsNe : Nat)
    (state : FourMatrices × FourMatrices) (quadPoint : QuadraturePoint k) :
    Except Exc (FourMatrices × FourMatrices) := do
  let localPoint := quadPoint.position
  let integrationFactor := intersection.integrationElement localPoint
  let quadratureWeight := quadPoint.weight
  let vals := self.evaluation_.evaluate entityTestBase entityAnsatzBase neighborTestBase
    neighborAnsatzBase localPoint state.2
  assert (vals.entityEntity.rows ≥ rowsEn)
  assert (vals.entityEntity.cols ≥ colsEn)
  assert (vals.neighborNeighbor.rows ≥ rowsNe)
  assert (vals.neighborNeighbor.cols ≥ colsNe)
  assert (vals.entityNeighbor.rows ≥ rowsEn)
  assert (vals.entityNeighbor.cols ≥ colsNe)
  assert (vals.neighborEntity.rows ≥ rowsEn)
  assert (vals.neighborEntity.cols ≥ colsEn)
  let entityRows ← add_rows_pair state.1.entityEntity vals.entityEntity colsEn
    state.1.entityNeighbor vals.entityNeighbor colsNe rowsEn integrationFactor quadratureWeight
  let neighborRows ← add_rows_pair state.1.neighborNeighbor vals.neighborNeighbor colsNe
    state.1.neighborEntity vals.neighborEntity colsEn rowsNe integrationFactor quadratureWeight
  pure
    ({ entityEntity := entityRows.1, neighborNeighbor := neighborRows.1,
       entityNeighbor := entityRows.2, neighborEntity := neighborRows.2 }, vals)

/-- The method `Codim1CouplingIntegral::apply`; it returns the four output blocks and
`tmpLocalMatrices` as they are after the call. -/
def apply {k : Nat} (self : Codim1CouplingIntegral k)
    (entityTestBase entityAnsatzBase neighborTestBase neighborAnsatzBase :
      LocalfunctionSetInterface)
    (intersection : Intersection k) (ret : FourMatrices)
    (tmpLocalMatrices : List DynamicMatrix) : Except Exc (FourMatrices × List DynamicMatrix) := do
  let order ← self.quadrature_order entityTestBase entityAnsatzBase neighborTestBase
    neighborAnsatzBase
  let faceQuadrature := intersection.rule order
  let entityEntityRet := ret.entityEntity.times_assign 0.0
  let neighborNeighborRet := ret.neighborNeighbor.times_assign 0.0
  let entityNeighborRet := ret.entityNeighbor.times_assign 0.0
  let neighborEntityRet := ret.neighborEntity.times_assign 0.0
  let rowsEn := entityTestBase.size
  let colsEn := entityAnsatzBase.size
  let rowsNe := neighborTestBase.size
  let colsNe := neighborAnsatzBase.size
  assert (entityEntityRet.rows ≥ rowsEn)
  assert (entityEntityRet.cols ≥ colsEn)
  assert (neighborNeighborRet.rows ≥ rowsNe)
  assert (neighborNeighborRet.cols ≥ colsNe)
  assert (entityNeighborRet.rows ≥ rowsEn)
  assert (entityNeighborRet.cols ≥ colsNe)
  assert (neighborEntityRet.rows ≥ rowsEn)
  assert (neighborEntityRet.cols ≥ colsEn)
  assert (tmpLocalMatrices.length ≥ numTmpObjectsRequired_)
  let entityEntityVals ← tmp_at tmpLocalMatrices 0
  let neighborNeighborVals ← tmp_at tmpLocalMatrices 1
  let entityNeighborVals ← tmp_at tmpLocalMatrices 2
  let neighborEntityVals ← tmp_at tmpLocalMatrices 3
  let state ← faceQuadrature.foldlM
    (quadrature_step self entityTestBase entityAnsatzBase neighborTestBase neighborAnsatzBase
      intersection rowsEn colsEn rowsNe colsNe)
    ({ entityEntity := entityEntityRet, neighborNeighbor := neighborNeighborRet,
       entityNeighbor := entityNeighborRet, neighborEntity := neighborEntityRet },
     { entityEntity := entityEntityVals, neighborNeighbor := neighborNeighborVals,
       entityNeighbor := entityNeighborVals, neighborEntity := neighborEntityVals })
  pure (state.1,
    (((tmpLocalMatrices.set 0 state.2.entityEntity).set 1 state.2.neighborNeighbor).set 2
      state.2.entityNeighbor).set 3 state.2.neighborEntity)

end Codim1CouplingIntegral

end LocalOperator

/-! ## FEMAssembler (dune/fem/solver/femassembler.hh, namespace Dune::Functionals::Solver) -/

namespace FEMAssembler

/-- The global matrix `MatrixType`, read and written as `m[I][J]`. -/
abbrev MatrixType := Nat → Nat → ℚ

/-- A `LocalMatrixType`: `getN()` rows, `getM()` columns and the entries `localMatrix[i][j]`. -/
structure LocalMatrixType where
  getN : Nat
  getM : Nat
  entry : Nat → Nat → ℚ

/-- The assignment `m[I][J] = value`. -/
def assign (m : MatrixType) (I J : Nat) (value : ℚ) : MatrixType :=
  fun a b => if a = I ∧ b = J then value else m a b

/-- The operator handed to `assembleMatrix`: the entities of `op.space()` in the order of the
iterator, `space.mapToGlobal(en, i)` and `op.applyLocal(en)`. -/
structure Operator (Entity : Type) where
  space : List Entity
  mapToGlobal : Entity → Nat → Nat
  applyLocal : Entity → LocalMatrixType

/-- The private function `addToMatrix`, for one entity `en`. -/
def addToMatrix {Entity : Type} (mapToGlobal : Entity → Nat → Nat)
    (localMatrix : LocalMatrixType) (en : Entity) (m : MatrixType) : MatrixType :=
  (List.range localMatrix.getN).foldl
    (fun m i =>
      (List.range localMatrix.getM).foldl
        (fun m j =>
          let globalI := mapToGlobal en i
          let globalJ := mapToGlobal en j
          assign m globalI globalJ (localMatrix.entry i j))
        m)
    m

/-- The function `assembleMatrix`. -/
def assembleMatrix {Entity : Type} (op : Operator Entity) (m : MatrixType) : MatrixType :=
  op.space.foldl
    (fun m en =>
      let localMatrix := op.applyLocal en
      addToMatrix op.mapToGlobal localMatrix en m)
    m

/-- The `LocalConstraints` of one entity: `rowDofsSize()`, `columnDofsSize()`, `rowDofs(i)`,
`columnDofs(j)` and `localMatrix(i, j)`. -/
structure LocalConstraints where
  rowDofsSize : Nat
  columnDofsSize : Nat
  rowDofs : Nat → Nat
  columnDofs : Nat → Nat
  localMatrix : Nat → Nat → ℚ

/-- The private function `setLocalConstraintsInMatrix`. -/
def setLocalConstraintsInMatrix (localConstraints : LocalConstraints) (m : MatrixType) :
    MatrixType :=
  (List.range localConstraints.rowDofsSize).foldl
    (fun m i =>
      (List.range localConstraints.columnDofsSize).foldl
        (fun m j =>
          assign m (localConstraints.rowDofs i) (localConstraints.columnDofs j)
            (localConstraints.localMatrix i j))
        m)
    m

/-- The function `applyMatrixConstraints`: `space` lists the entities of `cSpace` and `local_`
is `cSpace.constraints().local(en)`. -/
def applyMatrixConstraints {Entity : Type} (space : List Entity)
    (local_ : Entity → LocalConstraints) (m : MatrixType) : MatrixType :=
  space.foldl
    (fun m en =>
      let localConstraints := local_ en
      setLocalConstraintsInMatrix localConstraints m)
    m

end FEMAssembler

/-! ## LinearTransportProblem and LinearTransportTest (test/linear-transport/base.hh) -/

/-- The function `std::fmod(x, y)` in exact arithmetic: `x - n * y`, where `n` is the quotient
`x / y` rounded towards zero.  The code calls it with `y = 1.` only. -/
def fmod (x y : ℚ) : ℚ :=
  x - (if 0 ≤ x / y then (⌊x / y⌋ : ℚ) else (⌈x / y⌉ : ℚ)) * y

namespace LinearTransportProblem

/-- The member `T_end`, set to `1.` by the constructor. -/
def T_end : ℚ := 1

/-- The lambda `indicator` of `make_exact_solution__periodic_boundaries`. -/
def indicator (x : ℚ) : ℚ :=
  if 0.25 ≤ x ∧ x ≤ 0.5 then 1 else 0

/-- The method `make_exact_solution__periodic_boundaries`.  The function `interpolate` of
another header enters as a parameter: it gets the order and the lambda (the space is bound in
it) and gives the discrete function, of a type `DF`. -/
def make_exact_solution__periodic_boundaries {d : Nat} [NeZero d] {DF : Type}
    (interpolate : Nat → (Vec d → ℚ) → DF) (time : ℚ) : Except Exc DF := do
  if time > 1 then
    throw Exc.wrong_input_given
  pure (interpolate 0 fun xx => indicator (fmod (xx 0 - time + 1) 1))

end LinearTransportProblem

namespace LinearTransportTest

/-- The loop `while (time < self.T_end_ + dt)` of `compute_reference_solution`.  The state is
`time` and the vector array `reference_solution_on_reference_grid_`, a list of snapshots, each
with its note `_t`.  The loop need not end (`dt <= 0`), so `fuel` bounds the number of
iterations: the value is `none` when it is used up. -/
def reference_solution_loop {d : Nat} [NeZero d] {DF : Type}
    (interpolate : Nat → (Vec d → ℚ) → DF) (T_end_ dt : ℚ) :
    Nat → ℚ → List (DF × ℚ) → Option (Except Exc (List (DF × ℚ)))
  | 0, time, reference_solution =>
    if time < T_end_ + dt then none else some (Except.ok reference_solution)
  | fuel + 1, time, reference_solution =>
    if time < T_end_ + dt then
      match LinearTransportProblem.make_exact_solution__periodic_boundaries interpolate time with
      | Except.error e => some (Except.error e)
      | Except.ok u_t =>
        reference_solution_loop interpolate T_end_ dt fuel (time + dt)
          (reference_solution ++ [(u_t, time)])
    else
      some (Except.ok reference_solution)

/-- The method `LinearTransportTest::compute_reference_solution`, as far as the vector array is
concerned: nothing happens when the array exists already, otherwise the loop fills an empty
array from `time = 0.`.  The time step `dt = estimate_dt(..).second` enters as a parameter, and
`T_end_` is the `T_end` of the problem, handed to the base class by the constructor. -/
def compute_reference_solution {d : Nat} [NeZero d] {DF : Type}
    (interpolate : Nat → (Vec d → ℚ) → DF)
    (reference_solution_on_reference_grid_ : Option (List (DF × ℚ))) (dt : ℚ) (fuel : Nat) :
    Option (Except Exc (List (DF × ℚ))) :=
  match reference_solution_on_reference_grid_ with
  | some reference_solution => some (Except.ok reference_solution)
  | none => reference_solution_loop interpolate LinearTransportProblem.T_end dt fuel 0 []

end LinearTransportTest

/-! ## ContinuousMapper (dune/gdt/spaces/mapper/continuous.hh) -/

/-- A `Dune::GeometryType`, given by its topology id and its dimension. -/
structure GeometryType where
  topologyId : Nat
  dim : Nat
  deriving DecidableEq, Repr

/-- A `LocalKey`: `subEntity()`, `codim()` and `index()`. -/
structure LocalKey where
  subEntity : Nat
  codim : Nat
  index : Nat
  deriving DecidableEq, Repr

/-- What the mapper reads from a `LocalFiniteElementCoefficientsInterface`: `size()` and
`local_key(ii)`, which the mapper calls for `ii < size()` only. -/
structure LocalFiniteElementCoefficientsInterface where
  size : Nat
  local_key : Nat → LocalKey

/-- What the mapper reads from a local finite element: `size()` and `coefficients()`. -/
structure FiniteElement where
  size : Nat
  coefficients : LocalFiniteElementCoefficientsInterface

/-- The map `std::map<GeometryType, std::shared_ptr<FiniteElement>>` as the list of its entries;
`find` is `List.lookup`. -/
abbrev FiniteElements := List (GeometryType × FiniteElement)

/-- The number `finite_elements_->size()` of keys of the map. -/
def FiniteElements.size (finite_elements : FiniteElements) : Nat :=
  (finite_elements.map Prod.fst).dedup.length

/-- What the mapper reads from its `MultipleCodimMultipleGeomTypeMapper`: `size()` and
`subIndex(element, i, codim)`. -/
structure Implementation (ElementType : Type) where
  size : Nat
  subIndex : ElementType → Nat → Nat → Nat

/-- What the mapper reads from the grid view and from dune-geometry: the dimension `d`, the
geometry types `indexSet().types(0)`, `element.geometry().type()`, the type
`ReferenceElements<D, d>::general(geometry_type).type(sub_entity, codim)` of a subentity, and
the `MultipleCodimMultipleGeomTypeMapper` of the grid view for a layout, the set of geometry
types that carry degrees of freedom. -/
structure GridViewType (ElementType : Type) where
  dimension : Nat
  types0 : List GeometryType
  geometry_type : ElementType → GeometryType
  reference_element_type : GeometryType → Nat → Nat → GeometryType
  make_mapper : List GeometryType → Implementation ElementType

/-- The members of a `ContinuousMapper`. -/
structure ContinuousMapper (ElementType : Type) where
  grid_view_ : GridViewType ElementType
  finite_elements_ : FiniteElements
  max_local_size_ : Nat
  mapper_ : Implementation ElementType

namespace ContinuousMapper

/-- The loop of the constructor over the keys of one finite element; the state is the set
`all_DoF_attached_geometry_types`, a list without repetitions. -/
def collect_keys {ElementType : Type} (grid_view_ : GridViewType ElementType)
    (geometry_type : GeometryType) (coeffs : LocalFiniteElementCoefficientsInterface)
    (all_DoF_attached_geometry_types : List GeometryType) : Except Exc (List GeometryType) :=
  (List.range coeffs.size).foldlM
    (fun types ii => do
      let local_key := coeffs.local_key ii
      if local_key.index ≠ 0 then
        throw Exc.mapper_error
      let sub_entity := local_key.subEntity
      let codim := local_key.codim
      let subentity_geometry_type :=
        grid_view_.reference_element_type geometry_type sub_entity codim
      pure (types.insert subentity_geometry_type))
    all_DoF_attached_geometry_types

/-- The body of the loop of the constructor over the geometry types of the grid view; the state
is `max_local_size_` and the set `all_DoF_attached_geometry_types`. -/
def collect_type {ElementType : Type} (grid_view_ : GridViewType ElementType)
    (finite_elements_ : FiniteElements) (state : Nat × List GeometryType)
    (geometry_type : GeometryType) : Except Exc (Nat × List GeometryType) :=
  match finite_elements_.lookup geometry_type with
  | none => throw Exc.mapper_error
  | some finite_element => do
    let max_local_size_ := max state.1 finite_element.size
    let types ← collect_keys grid_view_ geometry_type finite_element.coefficients state.2
    pure (max_local_size_, types)

/-- The constructor `ContinuousMapper(grd_vw, finite_elements)`. -/
def ctor {ElementType : Type} (grd_vw : GridViewType ElementType)
    (finite_elements : FiniteElements) : Except Exc (ContinuousMapper ElementType) := do
  if grd_vw.dimension = 3 ∧ finite_elements.size ≠ 1 then
    throw Exc.mapper_error
  let state ← grd_vw.types0.foldlM (collect_type grd_vw finite_elements) (0, [])
  if state.2.length = 0 then
    throw Exc.mapper_error
  pure
    { grid_view_ := grd_vw
      finite_elements_ := finite_elements
      max_local_size_ := state.1
      mapper_ := grd_vw.make_mapper state.2 }

/-- The method `local_coefficients`. -/
def local_coefficients {ElementType : Type} (self : ContinuousMapper ElementType)
    (geometry_type : GeometryType) : Except Exc LocalFiniteElementCoefficientsInterface :=
  match self.finite_elements_.lookup geometry_type with
  | none => throw Exc.internal_error
  | some finite_element => pure finite_element.coefficients

/-- The method `size`. -/
def size {ElementType : Type} (self : ContinuousMapper ElementType) : Nat :=
  self.mapper_.size

/-- The method `max_local_size`. -/
def max_local_size {ElementType : Type} (self : ContinuousMapper ElementType) : Nat :=
  self.max_local_size_

/-- The method `local_size`. -/
def local_size {ElementType : Type} (self : ContinuousMapper ElementType)
    (element : ElementType) : Except Exc Nat := do
  let coeffs ← self.local_coefficients (self.grid_view_.geometry_type element)
  pure coeffs.size

/-- The method `global_index`. -/
def global_index {ElementType : Type} (self : ContinuousMapper ElementType)
    (element : ElementType) (local_index : Nat) : Except Exc Nat := do
  let coeffs ← self.local_coefficients (self.grid_view_.geometry_type element)
  if local_index ≥ coeffs.size then
    throw Exc.mapper_error
  let local_key := coeffs.local_key local_index
  pure (self.mapper_.subIndex element local_key.subEntity local_key.codim)

/-- The method `global_indices`; the `DynamicVector<size_t>` is a list, and the value is the
vector `indices` as it is after the call. -/
def global_indices {ElementType : Type} (self : ContinuousMapper ElementType)
    (element : ElementType) (indices : List Nat) : Except Exc (List Nat) := do
  let coeffs ← self.local_coefficients (self.grid_view_.geometry_type element)
  let local_sz := coeffs.size
  let indices :=
    if indices.length < local_sz then
      indices ++ List.replicate (local_sz - indices.length) 0
    else
      indices
  pure ((List.range local_sz).foldl
    (fun indices ii =>
      let local_key := coeffs.local_key ii
      indices.set ii (self.mapper_.subIndex element local_key.subEntity local_key.codim))
    indices)

end ContinuousMapper

/-! ## The arithmetic of `double`, and methods with the rounding of each operation -/

namespace Double

/-- The integer nearest to `m`, the even one of the two when `m` lies half-way between two
integers. -/
def ties_to_even (m : ℚ) : Int :=
  if m - ⌊m⌋ < 1 / 2 then ⌊m⌋
  else if 1 / 2 < m - ⌊m⌋ then ⌊m⌋ + 1
  else if ⌊m⌋ % 2 = 0 then ⌊m⌋ else ⌊m⌋ + 1

/-- The `double` nearest to `q` (IEEE 754 binary64, rounding to nearest, ties to even): with
`2^e <= |q| < 2^(e + 1)` it is the multiple of `2^(e - 52)` nearest to `q`, so it has 53
significant bits.  The range of the exponent is not bounded: overflow and subnormal numbers are
not modelled, and there is no infinity and no NaN. -/
def round_to_nearest (q : ℚ) : ℚ :=
  if q = 0 then 0
  else (ties_to_even (q * 2 ^ (52 - Int.log 2 |q|)) : ℚ) * 2 ^ (Int.log 2 |q| - 52)

end Double

/-- The product `a * b` of two `FieldVector`s when the result of each operation is passed
through `fl`: as in dune-common the result starts at 0 and the products of the entries are
added to it one after the other. -/
def dot_rounded (fl : ℚ → ℚ) {k : Nat} (a b : Vec k) : ℚ :=
  (List.finRange k).foldl (fun result s => fl (result + fl (a s * b s))) 0

/-- The method `NumericalUpwindFlux<d, 1, R>::apply` when the result of each arithmetic
operation is passed through `fl`: with `fl = Double.round_to_nearest` the method in `double`
arithmetic, with `fl = id` the method in exact arithmetic.  The flux computes its values
itself. -/
def NumericalUpwindFlux.apply_rounded (fl : ℚ → ℚ) {d : Nat} (flux : ScalarFluxType d)
    (u v : ℚ) (n : Vec d) : Except Exc ℚ :=
  let df := flux.jacobian (fl (fl (u + v) / 2))
  if dot_rounded fl n df > 0 then
    pure (dot_rounded fl (flux.evaluate u) n)
  else
    pure (dot_rounded fl (flux.evaluate v) n)

/-- The quotient `1. / x` when the result is passed through `fl`. -/
def Quot1.one_over_rounded (fl : ℚ → ℚ) (x : ℚ) : Quot1 :=
  if x = 0 then Quot1.infinite else Quot1.finite (fl (1 / x))

/-- The quotient `x / lambda` when the result is passed through `fl`. -/
def Quot1.divide_rounded (fl : ℚ → ℚ) (x : ℚ) : Quot1 → ℚ
  | Quot1.finite l => fl (x / l)
  | Quot1.infinite => 0

/-- The method `NumericalLaxFriedrichsFlux<d, 1, R>::apply` when the result of each arithmetic
operation is passed through `fl`; taking the absolute value and the maximum does not round. -/
def NumericalLaxFriedrichsFlux.apply_rounded (fl : ℚ → ℚ) {d : Nat} (flux : ScalarFluxType d)
    (u v : ℚ) (n : Vec d) : Except Exc ℚ :=
  let lambda := Quot1.one_over_rounded fl
    (max (infinity_norm (flux.jacobian u)) (infinity_norm (flux.jacobian v)))
  pure (fl (fl (0.5 * dot_rounded fl (fun s => fl (flux.evaluate u s + flux.evaluate v s)) n)
    + fl (0.5 * Quot1.divide_rounded fl (fl (u - v)) lambda)))

/-- The method `LocalAdvectionFvCouplingOperator::apply` when the result of each arithmetic
operation of the method is passed through `fl`; the arguments are as for
`LocalAdvectionFvCouplingOperator.apply`. -/
def LocalAdvectionFvCouplingOperator.apply_rounded (fl : ℚ → ℚ) {d m : Nat}
    (numerical_flux_ : NumericalFluxType d m)
    (source_space_type inside_space_type outside_space_type : SpaceType)
    (u v : Vec m) (normal : Vec d) (h_intersection h_inside_element h_outside_element : ℚ)
    (local_range_inside local_range_outside : Vec m) : Except Exc (Vec m × Vec m) := do
  if source_space_type ≠ SpaceType.finite_volume
      ∨ inside_space_type ≠ SpaceType.finite_volume
      ∨ outside_space_type ≠ SpaceType.finite_volume then
    throw Exc.operator_error
  let g ← numerical_flux_ u v normal
  pure ((List.finRange m).foldl
    (fun dofs ii =>
      (Function.update dofs.1 ii
          (fl (dofs.1 ii + fl (fl (g ii * h_intersection) / h_inside_element))),
        Function.update dofs.2 ii
          (fl (dofs.2 ii - fl (fl (g ii * h_intersection) / h_outside_element)))))
    (local_range_inside, local_range_outside))

/-- The method `LinearTransportProblem::make_exact_solution__periodic_boundaries` when the
result of each arithmetic operation of the lambda is passed through `fl`; `std::fmod` and the
comparisons do not round. -/
def LinearTransportProblem.make_exact_solution__periodic_boundaries_rounded (fl : ℚ → ℚ)
    {d : Nat} [NeZero d] {DF : Type} (interpolate : Nat → (Vec d → ℚ) → DF) (time : ℚ) :
    Except Exc DF := do
  if time > 1 then
    throw Exc.wrong_input_given
  pure (interpolate 0 fun xx =>
    LinearTransportProblem.indicator (fmod (fl (fl (xx 0 - time) + 1)) 1))

/-! ## Concrete fluxes, rules and decompositions used as inputs -/

/-- The member `direction` of `LinearTransportProblem`: `[1 0 0]` cut to `d` entries. -/
def LinearTransportProblem.direction (d : Nat) : Vec d :=
  fun s => if s.val = 0 then 1 else 0

/-- The member `flux` of `LinearTransportProblem` (test/linear-transport/base.hh): order 1,
`f(u) = direction * u`, `f'(u) = direction`. -/
def LinearTransportProblem.flux (d : Nat) : ScalarFluxType d :=
  { order := 1
    evaluate := fun u => fun s => LinearTransportProblem.direction d s * u
    jacobian := fun _ => LinearTransportProblem.direction d }

/-- A constant flux in one space dimension, `f(u) = c`, `f'(u) = 0`. -/
def constant_flux (c : ℚ) : ScalarFluxType 1 :=
  { order := 0
    evaluate := fun _ => fun _ => c
    jacobian := fun _ => fun _ => 0 }

/-- The cubic flux in one space dimension, `f(u) = u^3`, `f'(u) = 3 u^2`. -/
def cubic_flux : ScalarFluxType 1 :=
  { order := 3
    evaluate := fun u => fun _ => u ^ 3
    jacobian := fun u => fun _ => 3 * u ^ 2 }

/-- The midpoint rule of the reference interval. -/
def midpoint_rule : Nat → QuadratureRule :=
  fun _ => [(1 / 2, 1)]

/-- The quadratic flux `f(u) = u^2`, `f'(u) = 2 u`, as a system of one equation in one space
dimension. -/
def quadratic_flux : FluxType 1 1 :=
  { order := 2
    evaluate := fun u => fun _ => fun _ => u 0 * u 0
    jacobian := fun u => fun _ => Matrix.of fun _ _ => 2 * u 0 }

/-- The exact eigen-decomposition of a `1 × 1` system: the eigenvalue is the entry of
`P = df * n`, and `T = T_inv = 1`. -/
def scalar_eigen_decomposition (flux : FluxType 1 1) : FluxEigenDecompositionLambdaType 1 1 :=
  fun w n => pure (fun _ => flux.jacobian_times w n 0 0, 1, 1)

/-- The matrix of the linear system `f(u) = A u` with `A = [[0, 1], [1, 0]]` (the wave equation
as a first order system in one space dimension). -/
def wave_matrix : Mat 2 := !![0, 1; 1, 0]

/-- The linear flux `f(u) = A u` of two equations in one space dimension, `f'(u) = A`. -/
def wave_flux : FluxType 1 2 :=
  { order := 1
    evaluate := fun u => fun _ => wave_matrix.mulVec u
    jacobian := fun _ => fun _ => wave_matrix }

/-- The exact eigen-decomposition of `A * n` for the wave system: eigenvalues `n` and `-n`,
eigenvectors `(1, 1)` and `(1, -1)`. -/
def wave_eigen_decomposition : FluxEigenDecompositionLambdaType 1 2 :=
  fun _ n => pure (![n 0, -n 0], !![1, 1; 1, -1], !![1 / 2, 1 / 2; 1 / 2, -1 / 2])

/-- Two entities that share their only degree of freedom: both map the local index 0 to the
global index 0; their local matrices are `(2)` and `(3)`. -/
def FEMAssembler.shared_dof_operator : FEMAssembler.Operator (Fin 2) :=
  { space := [0, 1]
    mapToGlobal := fun _ _ => 0
    applyLocal := fun en =>
      { getN := 1, getM := 1, entry := fun _ _ => if en = 0 then 2 else 3 } }

/-- Local constraints with the rows `4, 7` and the columns `1, 2`, and the values
`10 i + j + 1`. -/
def FEMAssembler.example_constraints : FEMAssembler.LocalConstraints :=
  { rowDofsSize := 2
    columnDofsSize := 2
    rowDofs := fun i => if i = 0 then 4 else 7
    columnDofs := fun j => if j = 0 then 1 else 2
    localMatrix := fun i j => 10 * i + j + 1 }

/-- A face of dimension one with the integration element 2 and, for every order, the rule with
the points `1/4` and `3/4` and the weights `1/2`. -/
def LocalOperator.example_intersection : LocalOperator.Intersection 1 :=
  { integrationElement := fun _ => 2
    rule := fun _ => [{ position := ![1 / 4], weight := 1 / 2 },
      { position := ![3 / 4], weight := 1 / 2 }] }

/-- A `2 × 2` matrix of values at the point `p`, with the entries `(a + 1) p + b`. -/
def LocalOperator.example_values (p : Vec 1) : LocalOperator.DynamicMatrix :=
  { rows := 2, cols := 2, entry := fun a b => (a + 1) * p 0 + b }

/-- A binary evaluation of order `order(test) + order(ansatz)` that writes `example_values`. -/
def LocalOperator.example_binary_evaluation : LocalOperator.BinaryEvaluation 1 :=
  { order := fun testBase ansatzBase => testBase.order + ansatzBase.order
    evaluate := fun _ _ p _ => LocalOperator.example_values p }

/-- A binary evaluation for the inducing function zero: it fills the scratch matrix with
zeros. -/
def LocalOperator.zero_binary_evaluation : LocalOperator.BinaryEvaluation 1 :=
  { order := fun testBase ansatzBase => testBase.order + ansatzBase.order
    evaluate := fun _ _ _ tmp => { tmp with entry := fun _ _ => 0 } }

/-- Four `2 × 2` matrices of values at the point `p`: the entries are `p`, `2 p`, `3 p` and
`4 p`. -/
def LocalOperator.example_four_values (p : Vec 1) : LocalOperator.FourMatrices :=
  { entityEntity := { rows := 2, cols := 2, entry := fun _ _ => p 0 }
    neighborNeighbor := { rows := 2, cols := 2, entry := fun _ _ => 2 * p 0 }
    entityNeighbor := { rows := 2, cols := 2, entry := fun _ _ => 3 * p 0 }
    neighborEntity := { rows := 2, cols := 2, entry := fun _ _ => 4 * p 0 } }

/-- A quaternary evaluation of order 2 that writes `example_four_values`. -/
def LocalOperator.example_quaternary_evaluation : LocalOperator.QuaternaryEvaluation 1 :=
  { order := fun _ _ _ _ => 2
    evaluate := fun _ _ _ _ p _ => LocalOperator.example_four_values p }

/-- A quaternary evaluation for the inducing function zero: it fills the four scratch matrices
with zeros. -/
def LocalOperator.zero_quaternary_evaluation : LocalOperator.QuaternaryEvaluation 1 :=
  { order := fun _ _ _ _ => 2
    evaluate := fun _ _ _ _ _ tmp =>
      { entityEntity := { tmp.entityEntity with entry := fun _ _ => 0 }
        neighborNeighbor := { tmp.neighborNeighbor with entry := fun _ _ => 0 }
        entityNeighbor := { tmp.entityNeighbor with entry := fun _ _ => 0 }
        neighborEntity := { tmp.neighborEntity with entry := fun _ _ => 0 } } }

/-- A quaternary evaluation of order 2 that fills the four scratch matrices, whatever their
sizes, with ones. -/
def LocalOperator.unit_quaternary_evaluation : LocalOperator.QuaternaryEvaluation 1 :=
  { order := fun _ _ _ _ => 2
    evaluate := fun _ _ _ _ _ tmp =>
      { entityEntity := { tmp.entityEntity with entry := fun _ _ => 1 }
        neighborNeighbor := { tmp.neighborNeighbor with entry := fun _ _ => 1 }
        entityNeighbor := { tmp.entityNeighbor with entry := fun _ _ => 1 }
        neighborEntity := { tmp.neighborEntity with entry := fun _ _ => 1 } } }

/-- The zero matrix with `rows` rows and `cols` columns. -/
def LocalOperator.zero_matrix (rows cols : Nat) : LocalOperator.DynamicMatrix :=
  { rows := rows, cols := cols, entry := fun _ _ => 0 }

/-- Output blocks for an entity with one and a neighbor with two test functions, each side with
one ansatz function: `1 × 1`, `2 × 1`, `1 × 1`, and a neighbor/entity block with the one row
that the assertion asks for. -/
def LocalOperator.small_neighborEntity_blocks : LocalOperator.FourMatrices :=
  { entityEntity := LocalOperator.zero_matrix 1 1
    neighborNeighbor := LocalOperator.zero_matrix 2 1
    entityNeighbor := LocalOperator.zero_matrix 1 1
    neighborEntity := LocalOperator.zero_matrix 1 1 }

/-- A linear flux in one space dimension, `f(u) = a u`, `f'(u) = a`. -/
def linear_flux (a : ℚ) : ScalarFluxType 1 :=
  { order := 1
    evaluate := fun u => fun _ => a * u
    jacobian := fun _ => fun _ => a }

/-- A numerical flux that always fails with `eigen_solver_failed`. -/
def failing_numerical_flux : NumericalFluxType 1 1 :=
  fun _ _ _ => Except.error Exc.eigen_solver_failed

/-- The geometry type of a line. -/
def ContinuousMapper.line : GeometryType := { topologyId := 0, dim := 1 }

/-- The geometry type of a vertex. -/
def ContinuousMapper.vertex : GeometryType := { topologyId := 0, dim := 0 }

/-- A grid view of a one-dimensional grid whose elements are numbered lines: the element `e`
has the vertices `e` and `e + 1`, and the mapper for a layout numbers the vertices. -/
def ContinuousMapper.line_grid_view : GridViewType Nat :=
  { dimension := 1
    types0 := [ContinuousMapper.line]
    geometry_type := fun _ => ContinuousMapper.line
    reference_element_type := fun geometry_type _ codim =>
      { topologyId := 0, dim := geometry_type.dim - codim }
    make_mapper := fun _ => { size := 5, subIndex := fun e i _ => e + i } }

/-- The coefficients of the linear Lagrange element of a line: one degree of freedom at each of
the two vertices. -/
def ContinuousMapper.p1_coefficients : LocalFiniteElementCoefficientsInterface :=
  { size := 2
    local_key := fun ii => { subEntity := ii, codim := 1, index := 0 } }

/-- The finite elements of the linear Lagrange space on lines. -/
def ContinuousMapper.p1_finite_elements : FiniteElements :=
  [(ContinuousMapper.line, { size := 2, coefficients := ContinuousMapper.p1_coefficients })]

/-- The mapper of the linear Lagrange space on `ContinuousMapper.line_grid_view`. -/
def ContinuousMapper.p1_mapper : ContinuousMapper Nat :=
  { grid_view_ := ContinuousMapper.line_grid_view
    finite_elements_ := ContinuousMapper.p1_finite_elements
    max_local_size_ := 2
    mapper_ := ContinuousMapper.line_grid_view.make_mapper [ContinuousMapper.vertex] }

/-- The `double` nearest to `0.1`. -/
def Double.one_tenth : ℚ := 3602879701896397 / 36028797018963968

/-- The `double` nearest to `0.2`, twice the one nearest to `0.1`. -/
def Double.two_tenths : ℚ := 3602879701896397 / 18014398509481984

/-- A numerical flux with the same value `g` in every component, whatever the states. -/
def constant_numerical_flux (g : ℚ) : NumericalFluxType 1 1 :=
  fun _ _ _ => Except.ok fun _ => g

/-- A numerical flux that fails with `operator_error` itself. -/
def operator_error_numerical_flux : NumericalFluxType 1 1 :=
  fun _ _ _ => Except.error Exc.operator_error

/-! # Theorems -/

/-! ## The arithmetic of `double` -/

namespace Double

/-- The exponent of a positive number is fixed by the two powers of two that enclose it. -/
theorem log_eq (r : ℚ) (e : ℤ) (h1 : (2 : ℚ) ^ e ≤ r) (h2 : r < (2 : ℚ) ^ (e + 1)) :
    Int.log 2 r = e := by
  have hr : 0 < r := lt_of_lt_of_le (zpow_pos (by norm_num) e) h1
  have ha : e ≤ Int.log 2 r :=
    (Int.zpow_le_iff_le_log (by norm_num) hr).mp (by exact_mod_cast h1)
  have hb : Int.log 2 r < e + 1 :=
    (Int.lt_zpow_iff_log_lt (by norm_num) hr).mp (by exact_mod_cast h2)
  omega

/-- Rounding down: the fractional part is below one half. -/
theorem ties_to_even_of_lt (m : ℚ) (f : ℤ) (h1 : (f : ℚ) ≤ m) (h2 : m - f < 1 / 2) :
    ties_to_even m = f := by
  have hf : ⌊m⌋ = f := by
    rw [Int.floor_eq_iff]
    constructor
    · exact h1
    · linarith
  simp only [ties_to_even, hf, if_pos h2]

/-- Rounding up: the fractional part is above one half. -/
theorem ties_to_even_of_gt (m : ℚ) (f : ℤ) (h1 : 1 / 2 < m - f) (h2 : m < f + 1) :
    ties_to_even m = f + 1 := by
  have hf : ⌊m⌋ = f := by
    rw [Int.floor_eq_iff]
    constructor
    · linarith
    · exact h2
  simp only [ties_to_even, hf, if_neg (not_lt.mpr (le_of_lt h1)), if_pos h1]

/-- A tie goes to the even neighbour. -/
theorem ties_to_even_of_half (m : ℚ) (f : ℤ) (h : m = f + 1 / 2) :
    ties_to_even m = if f % 2 = 0 then f else f + 1 := by
  have hf : ⌊m⌋ = f := by
    rw [Int.floor_eq_iff]
    constructor
    · linarith
    · linarith
  have h0 : m - (f : ℚ) = 1 / 2 := by linarith
  simp only [ties_to_even, hf, h0, lt_irrefl, if_false]

/-- The `double` nearest to `q`, from the exponent of `q` and the rounded significand. -/
theorem round_to_nearest_eq (q : ℚ) (e r : ℤ) (h1 : (2 : ℚ) ^ e ≤ |q|)
    (h2 : |q| < (2 : ℚ) ^ (e + 1)) (hr : ties_to_even (q * 2 ^ (52 - e)) = r) :
    round_to_nearest q = r * 2 ^ (e - 52) := by
  have hq : q ≠ 0 := by
    intro h0
    rw [h0, abs_zero] at h1
    exact absurd h1 (not_le.mpr (zpow_pos (by norm_num) e))
  simp only [round_to_nearest, if_neg hq, log_eq |q| e h1 h2, hr]

/-- A number with at most 53 significant bits is a `double`: rounding keeps it. -/
theorem round_to_nearest_of_int_mul (n e : ℤ) (hn : |n| < 2 ^ 53) :
    round_to_nearest ((n : ℚ) * 2 ^ e) = (n : ℚ) * 2 ^ e := by
  by_cases h0 : n = 0
  · simp [h0, round_to_nearest]
  have h2 : (0 : ℚ) < 2 := by norm_num
  have hpow : (0 : ℚ) < 2 ^ e := zpow_pos h2 e
  have hnq : (n : ℚ) ≠ 0 := by exact_mod_cast h0
  have hq : (n : ℚ) * 2 ^ e ≠ 0 := mul_ne_zero hnq (ne_of_gt hpow)
  have habs : |(n : ℚ) * 2 ^ e| = |(n : ℚ)| * 2 ^ e := by
    rw [abs_mul, abs_of_pos hpow]
  have hpos : 0 < |(n : ℚ) * 2 ^ e| := abs_pos.mpr hq
  have hlow := Int.zpow_log_le_self (b := 2) (by norm_num) hpos
  have hnlt : |(n : ℚ)| < 2 ^ (53 : ℤ) := by
    have : ((|n| : ℤ) : ℚ) < ((2 ^ 53 : ℤ) : ℚ) := by exact_mod_cast hn
    rw [Int.cast_abs] at this
    norm_num at this ⊢
    exact this
  have hlt : (2 : ℚ) ^ Int.log 2 |(n : ℚ) * 2 ^ e| < 2 ^ (53 + e) := by
    have h3 : |(n : ℚ) * 2 ^ e| < 2 ^ (53 + e) := by
      rw [habs, zpow_add₀ (ne_of_gt h2)]
      exact mul_lt_mul_of_pos_right hnlt hpow
    exact lt_of_le_of_lt (by exact_mod_cast hlow) h3
  have hE : Int.log 2 |(n : ℚ) * 2 ^ e| < 53 + e :=
    (zpow_lt_zpow_iff_right₀ (by norm_num : (1 : ℚ) < 2)).mp hlt
  obtain ⟨j, hj⟩ : ∃ j : ℕ, (j : ℤ) = e + 52 - Int.log 2 |(n : ℚ) * 2 ^ e| :=
    ⟨(e + 52 - Int.log 2 |(n : ℚ) * 2 ^ e|).toNat, Int.toNat_of_nonneg (by omega)⟩
  have hm : (n : ℚ) * 2 ^ e * 2 ^ (52 - Int.log 2 |(n : ℚ) * 2 ^ e|)
      = ((n * 2 ^ j : ℤ) : ℚ) := by
    rw [mul_assoc, ← zpow_add₀ (ne_of_gt h2)]
    have : e + (52 - Int.log 2 |(n : ℚ) * 2 ^ e|) = (j : ℤ) := by omega
    rw [this, zpow_natCast]
    push_cast
    ring
  have hr : ties_to_even ((n : ℚ) * 2 ^ e * 2 ^ (52 - Int.log 2 |(n : ℚ) * 2 ^ e|))
      = n * 2 ^ j := by
    rw [hm]
    apply ties_to_even_of_lt
    · exact le_refl _
    · norm_num
  simp only [round_to_nearest, if_neg hq, hr]
  push_cast
  rw [mul_assoc, ← zpow_natCast, ← zpow_add₀ (ne_of_gt h2)]
  congr 2
  omega

end Double

/-- With one entry the rounded product of two vectors is the rounded product of the entries,
added to the zero the result starts with. -/
theorem dot_rounded_one (fl : ℚ → ℚ) (a b : Vec 1) :
    dot_rounded fl a b = fl (0 + fl (a 0 * b 0)) := by
  simp [dot_rounded, List.finRange_succ]

/-- Without rounding the rounded product of two vectors is their scalar product. -/
theorem dot_rounded_id {k : Nat} (a b : Vec k) : dot_rounded id a b = dot a b := by
  simp only [dot_rounded, dot, id]
  rw [Fin.sum_univ_def, List.sum_eq_foldl, List.foldl_map]

/-- Without rounding the rounded upwind flux is the upwind flux. -/
theorem NumericalUpwindFlux.upwind_apply_rounded_id {d : Nat} (flux : ScalarFluxType d) (u v : ℚ)
    (n : Vec d) :
    NumericalUpwindFlux.apply_rounded id flux u v n = NumericalUpwindFlux.apply flux u v n := by
  simp only [NumericalUpwindFlux.apply_rounded, NumericalUpwindFlux.apply, dot_rounded_id, id]

/-- Without rounding the rounded Lax-Friedrichs flux is the Lax-Friedrichs flux. -/
theorem NumericalLaxFriedrichsFlux.lax_friedrichs_apply_rounded_id {d : Nat} (flux : ScalarFluxType d)
    (u v : ℚ) (n : Vec d) :
    NumericalLaxFriedrichsFlux.apply_rounded id flux u v n
      = NumericalLaxFriedrichsFlux.apply flux u v n := by
  have hq : ∀ x, Quot1.one_over_rounded id x = Quot1.one_over x := fun x => rfl
  have hd : ∀ x l, Quot1.divide_rounded id x l = Quot1.divide x l := by
    intro x l
    cases l <;> rfl
  simp only [NumericalLaxFriedrichsFlux.apply_rounded, NumericalLaxFriedrichsFlux.apply,
    dot_rounded_id, id, hq, hd]
  rfl

/-- Without rounding the rounded operator is the operator. -/
theorem LocalAdvectionFvCouplingOperator.coupling_apply_rounded_id {d m : Nat}
    (numerical_flux_ : NumericalFluxType d m)
    (source_space_type inside_space_type outside_space_type : SpaceType)
    (u v : Vec m) (normal : Vec d) (h_intersection h_inside_element h_outside_element : ℚ)
    (local_range_inside local_range_outside : Vec m) :
    LocalAdvectionFvCouplingOperator.apply_rounded id numerical_flux_ source_space_type
        inside_space_type outside_space_type u v normal h_intersection h_inside_element
        h_outside_element local_range_inside local_range_outside
      = LocalAdvectionFvCouplingOperator.apply numerical_flux_ source_space_type
        inside_space_type outside_space_type u v normal h_intersection h_inside_element
        h_outside_element local_range_inside local_range_outside := rfl

/-- Without rounding the rounded exact solution is the exact solution. -/
theorem LinearTransportProblem.make_exact_solution_rounded_id {d : Nat} [NeZero d] {DF : Type}
    (interpolate : Nat → (Vec d → ℚ) → DF) (time : ℚ) :
    LinearTransportProblem.make_exact_solution__periodic_boundaries_rounded id interpolate time
      = LinearTransportProblem.make_exact_solution__periodic_boundaries interpolate time := rfl

/-- A number that is written with at most 53 significant bits is a `double`. -/
theorem Double.round_to_nearest_of_eq (q : ℚ) (n e : ℤ) (hn : |n| < 2 ^ 53)
    (h : q = (n : ℚ) * 2 ^ e) : Double.round_to_nearest q = q := by
  rw [h]
  exact Double.round_to_nearest_of_int_mul n e hn


/-! ## NumericalUpwindFlux -/

/-- C1. The upwind flux depends on the upwind state only: where the Jacobian at the mean state,
projected on the normal, is positive, `apply(u, v, n)` is `f(u) * n`, so two outside states `v`,
`v1` with positive projections give the same value; where it is negative, `apply(u, v, n)` is
`f(v) * n`, so two inside states `u`, `u1` with negative projections give the same value. -/
theorem NumericalUpwindFlux.apply_depends_on_upwind_state_only {d : Nat}
    (flux : ScalarFluxType d) (u u1 v v1 : ℚ) (n : Vec d) :
    (0 < dot n (flux.jacobian ((u + v) / 2)) →
        NumericalUpwindFlux.apply flux u v n = Except.ok (dot (flux.evaluate u) n)) ∧
    (0 < dot n (flux.jacobian ((u + v) / 2)) → 0 < dot n (flux.jacobian ((u + v1) / 2)) →
        NumericalUpwindFlux.apply flux u v n = NumericalUpwindFlux.apply flux u v1 n) ∧
    (dot n (flux.jacobian ((u + v) / 2)) < 0 →
        NumericalUpwindFlux.apply flux u v n = Except.ok (dot (flux.evaluate v) n)) ∧
    (dot n (flux.jacobian ((u + v) / 2)) < 0 → dot n (flux.jacobian ((u1 + v) / 2)) < 0 →
        NumericalUpwindFlux.apply flux u v n = NumericalUpwindFlux.apply flux u1 v n) := by
  refine ⟨?_, ?_, ?_, ?_⟩
  · intro h
    simp only [NumericalUpwindFlux.apply, gt_iff_lt, if_pos h]
    rfl
  · intro h h1
    simp only [NumericalUpwindFlux.apply, gt_iff_lt, if_pos h, if_pos h1]
  · intro h
    simp only [NumericalUpwindFlux.apply, gt_iff_lt, if_neg (not_lt.mpr h.le)]
    rfl
  · intro h h1
    simp only [NumericalUpwindFlux.apply, gt_iff_lt, if_neg (not_lt.mpr h.le),
      if_neg (not_lt.mpr h1.le)]

/-- C1 at the linear transport flux in one dimension: with normal `1` the projection is
positive and the value `1 = f(1)` is the same for the outside states `2` and `5`; with normal
`-1` the projection is negative and the value `-2 = -f(2)` is the same for the inside states `1`
and `7`. -/
theorem NumericalUpwindFlux.apply_depends_on_upwind_state_only_witness :
    (0 < dot ![1] ((LinearTransportProblem.flux 1).jacobian ((1 + 2) / 2)) ∧
      0 < dot ![1] ((LinearTransportProblem.flux 1).jacobian ((1 + 5) / 2)) ∧
      NumericalUpwindFlux.apply (LinearTransportProblem.flux 1) 1 2 ![1] = Except.ok 1 ∧
      NumericalUpwindFlux.apply (LinearTransportProblem.flux 1) 1 2 ![1]
        = NumericalUpwindFlux.apply (LinearTransportProblem.flux 1) 1 5 ![1]) ∧
    (dot ![-1] ((LinearTransportProblem.flux 1).jacobian ((1 + 2) / 2)) < 0 ∧
      dot ![-1] ((LinearTransportProblem.flux 1).jacobian ((7 + 2) / 2)) < 0 ∧
      NumericalUpwindFlux.apply (LinearTransportProblem.flux 1) 1 2 ![-1] = Except.ok (-2) ∧
      NumericalUpwindFlux.apply (LinearTransportProblem.flux 1) 1 2 ![-1]
        = NumericalUpwindFlux.apply (LinearTransportProblem.flux 1) 7 2 ![-1]) := by
  have hp : ∀ w : ℚ, 0 < dot ![1] ((LinearTransportProblem.flux 1).jacobian w) := by
    intro w
    norm_num [dot, LinearTransportProblem.flux, LinearTransportProblem.direction]
  have hn : ∀ w : ℚ, dot ![-1] ((LinearTransportProblem.flux 1).jacobian w) < 0 := by
    intro w
    norm_num [dot, LinearTransportProblem.flux, LinearTransportProblem.direction]
  have hpos := NumericalUpwindFlux.apply_depends_on_upwind_state_only
    (LinearTransportProblem.flux 1) 1 7 2 5 ![1]
  have hneg := NumericalUpwindFlux.apply_depends_on_upwind_state_only
    (LinearTransportProblem.flux 1) 1 7 2 5 ![-1]
  refine ⟨⟨hp _, hp _, ?_, hpos.2.1 (hp _) (hp _)⟩, ⟨hn _, hn _, ?_, hneg.2.2.2 (hn _) (hn _)⟩⟩
  · rw [hpos.1 (hp _)]
    norm_num [dot, LinearTransportProblem.flux, LinearTransportProblem.direction]
  · rw [hneg.2.2.1 (hn _)]
    norm_num [dot, LinearTransportProblem.flux, LinearTransportProblem.direction]

/-- C5. When the Jacobian at the mean state, projected on the normal, is exactly zero, the
upwind flux takes the outside branch and returns `f(v) * n`. -/
theorem NumericalUpwindFlux.apply_zero_projection {d : Nat} (flux : ScalarFluxType d)
    (u v : ℚ) (n : Vec d) (h : dot n (flux.jacobian ((u + v) / 2)) = 0) :
    NumericalUpwindFlux.apply flux u v n = Except.ok (dot (flux.evaluate v) n) := by
  simp only [NumericalUpwindFlux.apply, gt_iff_lt, h, lt_irrefl, if_false]
  rfl

/-- C5 at the cubic flux with the states `-1` and `1` and the normal `1`: the mean state is `0`,
the projection `f'(0) * 1` is zero, and the value is `f(1) = 1`, not `f(-1) = -1`. -/
theorem NumericalUpwindFlux.apply_zero_projection_witness :
    dot ![1] (cubic_flux.jacobian ((-1 + 1) / 2)) = 0 ∧
    NumericalUpwindFlux.apply cubic_flux (-1) 1 ![1] = Except.ok 1 ∧
    dot (cubic_flux.evaluate (-1)) ![1] = -1 := by
  have h : dot ![1] (cubic_flux.jacobian ((-1 + 1) / 2)) = 0 := by
    norm_num [dot, cubic_flux]
  refine ⟨h, ?_, ?_⟩
  · rw [NumericalUpwindFlux.apply_zero_projection cubic_flux (-1) 1 ![1] h]
    norm_num [dot, cubic_flux]
  · norm_num [dot, cubic_flux]

/-! ## NumericalLaxFriedrichsFlux -/

/-- The scalar product is additive in its first argument. -/
theorem dot_add_left {k : Nat} (a b n : Vec k) : dot (a + b) n = dot a n + dot b n := by
  simp [dot, add_mul, Finset.sum_add_distrib]

/-- Zero divided by the value of `1. / x` is zero, whether that value is finite or not. -/
theorem Quot1.divide_zero (l : Quot1) : Quot1.divide 0 l = 0 := by
  cases l <;> simp [Quot1.divide]

/-- With a non-zero divisor `x`, dividing by the value of `1. / x` is dividing by `1 / x`. -/
theorem Quot1.divide_one_over {x : ℚ} (hx : x ≠ 0) (y : ℚ) :
    Quot1.divide y (Quot1.one_over x) = y / (1 / x) := by
  simp [Quot1.one_over, Quot1.divide, hx]

/-- Dividing by the value of `1. / 0`, which is `+inf`, gives zero. -/
theorem Quot1.divide_one_over_zero (y : ℚ) : Quot1.divide y (Quot1.one_over 0) = 0 := by
  simp [Quot1.one_over, Quot1.divide]

/-- The loop of `infinity_norm` never falls below its start value. -/
theorem le_foldl_max (l : List ℚ) (init : ℚ) :
    init ≤ l.foldl (fun norm a => max a norm) init := by
  induction l generalizing init with
  | nil => exact le_refl init
  | cons a l ih => exact le_trans (le_max_right a init) (ih (max a init))

/-- The infinity norm is not negative. -/
theorem infinity_norm_nonneg {d : Nat} (df : Vec d) : 0 ≤ infinity_norm df :=
  le_foldl_max _ 0

/-- The larger of two Jacobian norms is non-zero as soon as one of them is. -/
theorem max_infinity_norm_ne_zero {d : Nat} (a b : Vec d)
    (h : infinity_norm a ≠ 0 ∨ infinity_norm b ≠ 0) :
    max (infinity_norm a) (infinity_norm b) ≠ 0 := by
  have ha := infinity_norm_nonneg a
  have hb := infinity_norm_nonneg b
  rcases h with h | h
  · exact ne_of_gt (lt_of_lt_of_le (lt_of_le_of_ne ha (Ne.symm h)) (le_max_left _ _))
  · exact ne_of_gt (lt_of_lt_of_le (lt_of_le_of_ne hb (Ne.symm h)) (le_max_right _ _))

/-- C2. The Lax-Friedrichs flux is consistent: `apply(u, u, n)` is the physical flux projected on
the normal, `f(u) * n`, for every flux, state and normal. -/
theorem NumericalLaxFriedrichsFlux.apply_same_state {d : Nat} (flux : ScalarFluxType d)
    (u : ℚ) (n : Vec d) :
    NumericalLaxFriedrichsFlux.apply flux u u n = Except.ok (dot (flux.evaluate u) n) := by
  have h : (0.5 : ℚ) * (dot (flux.evaluate u) n + dot (flux.evaluate u) n)
      = dot (flux.evaluate u) n := by
    norm_num
    ring
  simp only [NumericalLaxFriedrichsFlux.apply, sub_self, Quot1.divide_zero, mul_zero, add_zero,
    dot_add_left, h]
  rfl

/-- C3, refuted as stated. For the linear transport flux, states `1` and `0` and normal `1` the
Jacobian norms are `1`, yet `apply` is not the average of the fluxes plus `(u - v) / lambda`
with `lambda = 1 / max(..)`: the code returns `1`, the formula gives `3 / 2`. -/
theorem NumericalLaxFriedrichsFlux.apply_full_dissipation_counterexample :
    (infinity_norm ((LinearTransportProblem.flux 1).jacobian 1) ≠ 0 ∨
      infinity_norm ((LinearTransportProblem.flux 1).jacobian 0) ≠ 0) ∧
    NumericalLaxFriedrichsFlux.apply (LinearTransportProblem.flux 1) 1 0 ![1] = Except.ok 1 ∧
    NumericalLaxFriedrichsFlux.apply (LinearTransportProblem.flux 1) 1 0 ![1] ≠
      Except.ok
        (dot ((LinearTransportProblem.flux 1).evaluate 1 + (LinearTransportProblem.flux 1).evaluate 0)
            ![1] / 2
          + (1 - 0) / (1 / max (infinity_norm ((LinearTransportProblem.flux 1).jacobian 1))
              (infinity_norm ((LinearTransportProblem.flux 1).jacobian 0)))) := by
  have hn : ∀ w : ℚ, infinity_norm ((LinearTransportProblem.flux 1).jacobian w) = 1 := by
    intro w
    simp [infinity_norm, LinearTransportProblem.flux, LinearTransportProblem.direction]
  have hv : NumericalLaxFriedrichsFlux.apply (LinearTransportProblem.flux 1) 1 0 ![1]
      = Except.ok 1 := by
    simp only [NumericalLaxFriedrichsFlux.apply, hn, max_self,
      Quot1.divide_one_over one_ne_zero, dot_add_left]
    norm_num [dot, LinearTransportProblem.flux, LinearTransportProblem.direction]
    rfl
  refine ⟨Or.inl (by rw [hn]; norm_num), hv, ?_⟩
  rw [hv, hn, hn, dot_add_left]
  norm_num [dot, LinearTransportProblem.flux, LinearTransportProblem.direction]

/-- C3, amended. With at least one non-zero Jacobian norm, `apply(u, v, n)` is the average of the
two physical fluxes projected on the normal, `(f(u) + f(v)) * n / 2`, plus half of the term
`(u - v) / lambda`, where `lambda = 1 / max(|f'(u)|_inf, |f'(v)|_inf)`. -/
theorem NumericalLaxFriedrichsFlux.apply_half_dissipation {d : Nat} (flux : ScalarFluxType d)
    (u v : ℚ) (n : Vec d)
    (h : infinity_norm (flux.jacobian u) ≠ 0 ∨ infinity_norm (flux.jacobian v) ≠ 0) :
    NumericalLaxFriedrichsFlux.apply flux u v n =
      Except.ok (dot (flux.evaluate u + flux.evaluate v) n / 2
        + (u - v) / (1 / max (infinity_norm (flux.jacobian u)) (infinity_norm (flux.jacobian v)))
          / 2) := by
  simp only [NumericalLaxFriedrichsFlux.apply,
    Quot1.divide_one_over (max_infinity_norm_ne_zero _ _ h)]
  have e : ∀ a b : ℚ, 0.5 * a + 0.5 * b = a / 2 + b / 2 := by
    intro a b
    norm_num
    ring
  rw [e]
  rfl

/-- C3, amended, at the linear transport flux, states `1` and `0`, normal `1`: the norms are `1`
and the value is `1 / 2 + 1 / 2`. -/
theorem NumericalLaxFriedrichsFlux.apply_half_dissipation_witness :
    (infinity_norm ((LinearTransportProblem.flux 1).jacobian 1) ≠ 0 ∨
      infinity_norm ((LinearTransportProblem.flux 1).jacobian 0) ≠ 0) ∧
    NumericalLaxFriedrichsFlux.apply (LinearTransportProblem.flux 1) 1 0 ![1] =
      Except.ok
        (dot ((LinearTransportProblem.flux 1).evaluate 1 + (LinearTransportProblem.flux 1).evaluate 0)
            ![1] / 2
          + (1 - 0) / (1 / max (infinity_norm ((LinearTransportProblem.flux 1).jacobian 1))
              (infinity_norm ((LinearTransportProblem.flux 1).jacobian 0))) / 2) :=
  have h : infinity_norm ((LinearTransportProblem.flux 1).jacobian 1) ≠ 0 ∨
      infinity_norm ((LinearTransportProblem.flux 1).jacobian 0) ≠ 0 := by
    simp [infinity_norm, LinearTransportProblem.flux, LinearTransportProblem.direction]
  ⟨h, NumericalLaxFriedrichsFlux.apply_half_dissipation (LinearTransportProblem.flux 1) 1 0 ![1] h⟩

/-- C4, refuted as stated. For the constant flux `f = 3` both Jacobian norms are zero, and
`apply(1, 2, 1)` reports no error: it returns the value `3`. -/
theorem NumericalLaxFriedrichsFlux.apply_zero_norms_counterexample :
    infinity_norm ((constant_flux 3).jacobian 1) = 0 ∧
    infinity_norm ((constant_flux 3).jacobian 2) = 0 ∧
    NumericalLaxFriedrichsFlux.apply (constant_flux 3) 1 2 ![1] = Except.ok 3 ∧
    ¬ ∃ e, NumericalLaxFriedrichsFlux.apply (constant_flux 3) 1 2 ![1] = Except.error e := by
  have hn : ∀ w : ℚ, infinity_norm ((constant_flux 3).jacobian w) = 0 := by
    intro w
    simp [infinity_norm, constant_flux]
  have hv : NumericalLaxFriedrichsFlux.apply (constant_flux 3) 1 2 ![1] = Except.ok 3 := by
    simp only [NumericalLaxFriedrichsFlux.apply, hn, max_self, Quot1.divide_one_over_zero,
      dot_add_left]
    norm_num [dot, constant_flux]
    rfl
  refine ⟨hn 1, hn 2, hv, ?_⟩
  rintro ⟨e, he⟩
  rw [hv] at he
  cases he

/-- C4, amended. The Lax-Friedrichs flux has no failure path: when both Jacobian norms are zero,
`lambda = 1. / 0` is `+inf`, the term `(u - v) / lambda` vanishes, and `apply` returns the
average of the two fluxes projected on the normal; it reports no error. -/
theorem NumericalLaxFriedrichsFlux.apply_zero_norms {d : Nat} (flux : ScalarFluxType d)
    (u v : ℚ) (n : Vec d)
    (hu : infinity_norm (flux.jacobian u) = 0) (hv : infinity_norm (flux.jacobian v) = 0) :
    NumericalLaxFriedrichsFlux.apply flux u v n =
      Except.ok (dot (flux.evaluate u + flux.evaluate v) n / 2) ∧
    ∀ e, NumericalLaxFriedrichsFlux.apply flux u v n ≠ Except.error e := by
  have hval : NumericalLaxFriedrichsFlux.apply flux u v n =
      Except.ok (dot (flux.evaluate u + flux.evaluate v) n / 2) := by
    simp only [NumericalLaxFriedrichsFlux.apply, hu, hv, max_self, Quot1.divide_one_over_zero]
    have e : ∀ a : ℚ, 0.5 * a + 0.5 * 0 = a / 2 := by
      intro a
      norm_num
      ring
    rw [e]
    rfl
  refine ⟨hval, ?_⟩
  intro e he
  rw [hval] at he
  cases he

/-- C4, amended, at the constant flux `3`, states `1` and `2`, normal `1`. -/
theorem NumericalLaxFriedrichsFlux.apply_zero_norms_witness :
    infinity_norm ((constant_flux 3).jacobian 1) = 0 ∧
    infinity_norm ((constant_flux 3).jacobian 2) = 0 ∧
    NumericalLaxFriedrichsFlux.apply (constant_flux 3) 1 2 ![1] =
      Except.ok (dot ((constant_flux 3).evaluate 1 + (constant_flux 3).evaluate 2) ![1] / 2) :=
  have h1 : infinity_norm ((constant_flux 3).jacobian 1) = 0 := by
    simp [infinity_norm, constant_flux]
  have h2 : infinity_norm ((constant_flux 3).jacobian 2) = 0 := by
    simp [infinity_norm, constant_flux]
  ⟨h1, h2, (NumericalLaxFriedrichsFlux.apply_zero_norms (constant_flux 3) 1 2 ![1] h1 h2).1⟩

/-! ## NumericalVijayasundaramFlux -/

/-- The loop over any list of indices sets the diagonal entries at the listed indices and leaves
the other entries of both matrices as they were. -/
theorem NumericalVijayasundaramFlux.foldl_set_matrix_entry {m : Nat} (evs : Vec m)
    (l : List (Fin m)) (acc : Mat m × Mat m) (a b : Fin m) :
    (l.foldl
        (fun acc ii =>
          (set_matrix_entry acc.1 ii ii (max (evs ii) 0),
            set_matrix_entry acc.2 ii ii (min (evs ii) 0)))
        acc).1 a b = (if a = b ∧ a ∈ l then max (evs a) 0 else acc.1 a b) ∧
    (l.foldl
        (fun acc ii =>
          (set_matrix_entry acc.1 ii ii (max (evs ii) 0),
            set_matrix_entry acc.2 ii ii (min (evs ii) 0)))
        acc).2 a b = (if a = b ∧ a ∈ l then min (evs a) 0 else acc.2 a b) := by
  induction l generalizing acc with
  | nil => simp
  | cons x l ih =>
    rw [List.foldl_cons]
    obtain ⟨h1, h2⟩ := ih (set_matrix_entry acc.1 x x (max (evs x) 0),
      set_matrix_entry acc.2 x x (min (evs x) 0))
    rw [h1, h2]
    simp only [set_matrix_entry, Matrix.of_apply, List.mem_cons]
    constructor
    · by_cases hab : a = b
      · subst hab
        by_cases hl : a ∈ l
        · simp [hl]
        · by_cases hx : a = x
          · simp [hx]
          · simp [hl, hx]
      · have hne : ¬ (a = x ∧ b = x) := fun h => hab (h.1.trans h.2.symm)
        simp [hab, hne]
    · by_cases hab : a = b
      · subst hab
        by_cases hl : a ∈ l
        · simp [hl]
        · by_cases hx : a = x
          · simp [hx]
          · simp [hl, hx]
      · have hne : ¬ (a = x ∧ b = x) := fun h => hab (h.1.trans h.2.symm)
        simp [hab, hne]

/-- The loop of `apply` builds the diagonal matrices of the positive and of the negative parts
of the eigenvalues. -/
theorem NumericalVijayasundaramFlux.lambda_plus_minus_eq {m : Nat} (evs : Vec m) :
    NumericalVijayasundaramFlux.lambda_plus_minus evs =
      (Matrix.diagonal (fun i => max (evs i) 0), Matrix.diagonal (fun i => min (evs i) 0)) := by
  apply Prod.ext
  · ext a b
    rw [NumericalVijayasundaramFlux.lambda_plus_minus,
      (NumericalVijayasundaramFlux.foldl_set_matrix_entry evs (List.finRange m) (0, 0) a b).1]
    by_cases hab : a = b
    · simp [hab, List.mem_finRange]
    · simp [hab, Matrix.diagonal_apply_ne]
  · ext a b
    rw [NumericalVijayasundaramFlux.lambda_plus_minus,
      (NumericalVijayasundaramFlux.foldl_set_matrix_entry evs (List.finRange m) (0, 0) a b).2]
    by_cases hab : a = b
    · simp [hab, List.mem_finRange]
    · simp [hab, Matrix.diagonal_apply_ne]

/-- The mean state `0.5 * (u + v)` is the state with the components `(u_i + v_i) / 2`. -/
theorem mean_state_eq {m : Nat} (u v : Vec m) :
    (0.5 : ℚ) • (u + v) = fun i => (u i + v i) / 2 := by
  funext i
  simp only [Pi.smul_apply, Pi.add_apply, smul_eq_mul]
  norm_num
  ring

/-- The value of `apply` once the eigen-decomposition at the mean state is known. -/
theorem NumericalVijayasundaramFlux.apply_of_decomposition {d m : Nat}
    (lam : FluxEigenDecompositionLambdaType d m) (u v : Vec m) (n : Vec d)
    (evs : Vec m) (T T_inv : Mat m)
    (h : lam (fun i => (u i + v i) / 2) n = Except.ok (evs, T, T_inv)) :
    NumericalVijayasundaramFlux.apply lam u v n =
      Except.ok ((T * Matrix.diagonal (fun i => max (evs i) 0) * T_inv).mulVec u
        + (T * Matrix.diagonal (fun i => min (evs i) 0) * T_inv).mulVec v) := by
  unfold NumericalVijayasundaramFlux.apply
  rw [mean_state_eq, h]
  simp only [NumericalVijayasundaramFlux.lambda_plus_minus_eq]
  rfl

/-- C6. If the eigen-decomposition at the mean state `(u + v) / 2` and the normal `n` returns the
eigenvalues `evs` and the matrices `T`, `T_inv`, then `apply(u, v, n) = P_plus * u + P_minus * v`
with `P_plus = T * diag(max(evs_i, 0)) * T_inv` and `P_minus = T * diag(min(evs_i, 0)) * T_inv`. -/
theorem NumericalVijayasundaramFlux.apply_eq_projections {d m : Nat}
    (lam : FluxEigenDecompositionLambdaType d m) (u v : Vec m) (n : Vec d)
    (evs : Vec m) (T T_inv : Mat m)
    (h : lam (fun i => (u i + v i) / 2) n = Except.ok (evs, T, T_inv)) :
    NumericalVijayasundaramFlux.apply lam u v n =
      Except.ok ((T * Matrix.diagonal (fun i => max (evs i) 0) * T_inv).mulVec u
        + (T * Matrix.diagonal (fun i => min (evs i) 0) * T_inv).mulVec v) :=
  NumericalVijayasundaramFlux.apply_of_decomposition lam u v n evs T T_inv h

/-- C6 at the wave system with the states `(3, 1)` and `(1, 5)` and the normal `1`: the
decomposition is returned and the value is `(2, 2) + (2, -2) = (4, 0)`. -/
theorem NumericalVijayasundaramFlux.apply_eq_projections_witness :
    wave_eigen_decomposition (fun i => ((![3, 1] : Vec 2) i + (![1, 5] : Vec 2) i) / 2) ![1]
      = Except.ok (![1, -1], !![1, 1; 1, -1], !![1 / 2, 1 / 2; 1 / 2, -1 / 2]) ∧
    NumericalVijayasundaramFlux.apply wave_eigen_decomposition ![3, 1] ![1, 5] ![1]
      = Except.ok ![4, 0] := by
  have h : wave_eigen_decomposition (fun i => ((![3, 1] : Vec 2) i + (![1, 5] : Vec 2) i) / 2)
      ![1] = Except.ok (![1, -1], !![1, 1; 1, -1], !![1 / 2, 1 / 2; 1 / 2, -1 / 2]) := by
    simp [wave_eigen_decomposition, pure, Except.pure]
  have hp : Matrix.diagonal (fun i => max ((![1, -1] : Vec 2) i) 0) = !![1, 0; 0, 0] := by
    ext i j
    fin_cases i <;> fin_cases j <;> simp
  have hm : Matrix.diagonal (fun i => min ((![1, -1] : Vec 2) i) 0) = !![0, 0; 0, -1] := by
    ext i j
    fin_cases i <;> fin_cases j <;> simp
  refine ⟨h, ?_⟩
  rw [NumericalVijayasundaramFlux.apply_eq_projections wave_eigen_decomposition ![3, 1] ![1, 5]
    ![1] _ _ _ h, hp, hm]
  congr 1
  funext i
  fin_cases i <;>
    simp [Matrix.mulVec, Matrix.dotProduct, Matrix.mul_apply, Fin.sum_univ_two] <;> norm_num

/-- The positive and the negative part of the eigenvalues add up to the eigenvalues. -/
theorem diagonal_max_add_diagonal_min {m : Nat} (evs : Vec m) :
    Matrix.diagonal (fun i => max (evs i) 0) + Matrix.diagonal (fun i => min (evs i) 0)
      = (Matrix.diagonal evs : Mat m) := by
  rw [Matrix.diagonal_add]
  exact congrArg Matrix.diagonal (funext fun i => (max_add_min (evs i) 0).trans (add_zero _))

/-- C8, refuted as stated. The decomposition `scalar_eigen_decomposition` of the quadratic flux
`f(u) = u^2` is exact at every state and normal (`T * diag(ev) * T_inv = f'(w) * n` and
`T * T_inv = 1`), yet `apply(1, 1, 1) = 2` while `f(1) * 1 = 1`. -/
theorem NumericalVijayasundaramFlux.apply_same_state_counterexample :
    (∀ (w : Vec 1) (n : Vec 1), ∃ evs T T_inv,
      scalar_eigen_decomposition quadratic_flux w n = Except.ok (evs, T, T_inv) ∧
      T * Matrix.diagonal evs * T_inv = quadratic_flux.jacobian_times w n ∧ T * T_inv = 1) ∧
    NumericalVijayasundaramFlux.apply (scalar_eigen_decomposition quadratic_flux) ![1] ![1] ![1]
      = Except.ok ![2] ∧
    quadratic_flux.evaluate_times ![1] ![1] = ![1] ∧
    NumericalVijayasundaramFlux.apply (scalar_eigen_decomposition quadratic_flux) ![1] ![1] ![1]
      ≠ Except.ok (quadratic_flux.evaluate_times ![1] ![1]) := by
  have hexact : ∀ (w : Vec 1) (n : Vec 1), ∃ evs T T_inv,
      scalar_eigen_decomposition quadratic_flux w n = Except.ok (evs, T, T_inv) ∧
      T * Matrix.diagonal evs * T_inv = quadratic_flux.jacobian_times w n ∧ T * T_inv = 1 := by
    intro w n
    refine ⟨fun _ => quadratic_flux.jacobian_times w n 0 0, 1, 1, rfl, ?_, one_mul 1⟩
    ext i j
    have hi : i = 0 := Subsingleton.elim i 0
    have hj : j = 0 := Subsingleton.elim j 0
    subst hi hj
    simp
  have hval : NumericalVijayasundaramFlux.apply (scalar_eigen_decomposition quadratic_flux)
      ![1] ![1] ![1] = Except.ok ![2] := by
    have h : scalar_eigen_decomposition quadratic_flux
        (fun i => ((![1] : Vec 1) i + (![1] : Vec 1) i) / 2) ![1]
        = Except.ok (![2], 1, 1) := by
      simp only [scalar_eigen_decomposition, pure, Except.pure]
      congr 2
      funext i
      simp [FluxType.jacobian_times, quadratic_flux]
    rw [NumericalVijayasundaramFlux.apply_of_decomposition _ _ _ _ _ _ _ h]
    congr 1
    funext i
    have hi : i = 0 := Subsingleton.elim i 0
    subst hi
    simp [Matrix.mulVec, Matrix.dotProduct]
  have hflux : quadratic_flux.evaluate_times ![1] ![1] = ![1] := by
    funext i
    simp [FluxType.evaluate_times, quadratic_flux]
  refine ⟨hexact, hval, hflux, ?_⟩
  rw [hval, hflux]
  intro h
  have h0 := congrFun (Except.ok.inj h) 0
  norm_num at h0

/-- C8, amended. With an exact eigen-decomposition at the mean state `u` (`T * diag(ev) * T_inv =
f'(u) * n`) and a flux that is homogeneous of degree one at `u` (`(f'(u) * n) u = f(u) * n`, as
for a linear flux), the Vijayasundaram flux is consistent: `apply(u, u, n) = f(u) * n`. -/
theorem NumericalVijayasundaramFlux.apply_same_state_of_homogeneous {d m : Nat}
    (flux : FluxType d m) (lam : FluxEigenDecompositionLambdaType d m) (u : Vec m) (n : Vec d)
    (evs : Vec m) (T T_inv : Mat m)
    (h : lam u n = Except.ok (evs, T, T_inv))
    (hdec : T * Matrix.diagonal evs * T_inv = flux.jacobian_times u n)
    (hhom : (flux.jacobian_times u n).mulVec u = flux.evaluate_times u n) :
    NumericalVijayasundaramFlux.apply lam u u n = Except.ok (flux.evaluate_times u n) := by
  have hmean : (fun i => (u i + u i) / 2) = u := by
    funext i
    ring
  rw [NumericalVijayasundaramFlux.apply_of_decomposition lam u u n evs T T_inv (by rw [hmean, h]),
    ← Matrix.add_mulVec, ← Matrix.add_mul, ← Matrix.mul_add, diagonal_max_add_diagonal_min, hdec,
    hhom]

/-- C8, amended, at the wave system `f(u) = A u` with the state `(3, 1)` and the normal `1`: the
decomposition is exact, the flux is linear, and `apply(u, u, n) = A u`. -/
theorem NumericalVijayasundaramFlux.apply_same_state_of_homogeneous_witness :
    wave_eigen_decomposition ![3, 1] ![1]
      = Except.ok (![1, -1], !![1, 1; 1, -1], !![1 / 2, 1 / 2; 1 / 2, -1 / 2]) ∧
    (!![1, 1; 1, -1] : Mat 2) * Matrix.diagonal ![1, -1] * !![1 / 2, 1 / 2; 1 / 2, -1 / 2]
      = wave_flux.jacobian_times ![3, 1] ![1] ∧
    (wave_flux.jacobian_times ![3, 1] ![1]).mulVec ![3, 1] = wave_flux.evaluate_times ![3, 1] ![1] ∧
    NumericalVijayasundaramFlux.apply wave_eigen_decomposition ![3, 1] ![3, 1] ![1]
      = Except.ok (wave_flux.evaluate_times ![3, 1] ![1]) := by
  have h : wave_eigen_decomposition ![3, 1] ![1]
      = Except.ok (![1, -1], !![1, 1; 1, -1], !![1 / 2, 1 / 2; 1 / 2, -1 / 2]) := by
    simp [wave_eigen_decomposition, pure, Except.pure]
  have hdec : (!![1, 1; 1, -1] : Mat 2) * Matrix.diagonal ![1, -1]
      * !![1 / 2, 1 / 2; 1 / 2, -1 / 2] = wave_flux.jacobian_times ![3, 1] ![1] := by
    have hd : (Matrix.diagonal ![1, -1] : Mat 2) = !![1, 0; 0, -1] := by
      ext i j
      fin_cases i <;> fin_cases j <;> simp
    rw [hd]
    ext i j
    fin_cases i <;> fin_cases j <;>
      simp [FluxType.jacobian_times, wave_flux, wave_matrix, Matrix.mul_apply, Fin.sum_univ_two]
        <;> norm_num
  have hhom : (wave_flux.jacobian_times ![3, 1] ![1]).mulVec ![3, 1]
      = wave_flux.evaluate_times ![3, 1] ![1] := by
    funext i
    fin_cases i <;>
      simp [FluxType.jacobian_times, FluxType.evaluate_times, wave_flux, wave_matrix,
        Matrix.mulVec, Matrix.dotProduct]
  exact ⟨h, hdec, hhom,
    NumericalVijayasundaramFlux.apply_same_state_of_homogeneous wave_flux wave_eigen_decomposition
      ![3, 1] ![1] _ _ _ h hdec hhom⟩

/-! ## NumericalEngquistOsherFlux -/

/-- For a state that is not positive `integrate_f` returns zero, whatever the flux and the
rule. -/
theorem NumericalEngquistOsherFlux.integrate_f_of_nonpos {d : Nat} (flux : ScalarFluxType d)
    (rule : Nat → QuadratureRule) (n : Vec d) (s : ℚ) (min_max : ℚ → ℚ → ℚ) (hs : s ≤ 0) :
    NumericalEngquistOsherFlux.integrate_f flux rule n s min_max = 0 := by
  simp [NumericalEngquistOsherFlux.integrate_f, not_lt.mpr hs]

/-- C7, the code at a negative state. For the linear transport flux `f(u) = u`, whose constant
Jacobian the midpoint rule integrates exactly, and the normal `1`: at the state `-1` the value of
`apply(u, u, n)` is `0 = f(0) * n` although `f(-1) * n = -1`; at the positive state `2` the value
is `f(2) * n`. -/
theorem NumericalEngquistOsherFlux.apply_negative_state :
    NumericalEngquistOsherFlux.apply (LinearTransportProblem.flux 1) midpoint_rule (-1) (-1) ![1]
      = Except.ok 0 ∧
    dot ((LinearTransportProblem.flux 1).evaluate (-1)) ![1] = -1 ∧
    NumericalEngquistOsherFlux.apply (LinearTransportProblem.flux 1) midpoint_rule 2 2 ![1]
      = Except.ok (dot ((LinearTransportProblem.flux 1).evaluate 2) ![1]) := by
  refine ⟨?_, ?_, ?_⟩
  · simp only [NumericalEngquistOsherFlux.apply]
    rw [NumericalEngquistOsherFlux.integrate_f_of_nonpos _ _ _ _ _ (by norm_num),
      NumericalEngquistOsherFlux.integrate_f_of_nonpos _ _ _ _ _ (by norm_num)]
    norm_num [dot, LinearTransportProblem.flux, LinearTransportProblem.direction]
    rfl
  · norm_num [dot, LinearTransportProblem.flux, LinearTransportProblem.direction]
  · norm_num [NumericalEngquistOsherFlux.apply, NumericalEngquistOsherFlux.integrate_f,
      midpoint_rule, dot, LinearTransportProblem.flux, LinearTransportProblem.direction]
    rfl

/-! ## Fluxes that are not available for the given dimensions -/

/-- The constructor of the class for unavailable dimensions throws `NotImplemented`. -/
theorem ThisNumericalFluxIsNotAvailableForTheseDimensions.ctor_eq {α : Type} (d m : Nat)
    (args : α) :
    ThisNumericalFluxIsNotAvailableForTheseDimensions.ctor d m args
      = Except.error Exc.NotImplemented := rfl

/-- C9. For every range dimension `m ≠ 1` and all constructor arguments, constructing
`NumericalUpwindFlux<d, m>`, `NumericalLaxFriedrichsFlux<d, m>` or
`NumericalEngquistOsherFlux<d, m>` fails with `NotImplemented`; hence a construction followed by
any call on the object (`apply`, `copy`, `linear` among them) fails with `NotImplemented`, and
the three methods of the class throw `NotImplemented` on their own as well. -/
theorem unavailable_dimensions_ctor_fails {α β : Type} (d m : Nat) (hm : m ≠ 1) (args : α)
    (method : ThisNumericalFluxIsNotAvailableForTheseDimensions d m → Except Exc β)
    (self : ThisNumericalFluxIsNotAvailableForTheseDimensions d m) (u v : Vec m) (n : Vec d) :
    (NumericalUpwindFlux.ctor d m hm args = Except.error Exc.NotImplemented ∧
      NumericalLaxFriedrichsFlux.ctor d m hm args = Except.error Exc.NotImplemented ∧
      NumericalEngquistOsherFlux.ctor d m hm args = Except.error Exc.NotImplemented) ∧
    ((NumericalUpwindFlux.ctor d m hm args >>= method) = Except.error Exc.NotImplemented ∧
      (NumericalLaxFriedrichsFlux.ctor d m hm args >>= method) = Except.error Exc.NotImplemented ∧
      (NumericalEngquistOsherFlux.ctor d m hm args >>= method)
        = Except.error Exc.NotImplemented) ∧
    (self.apply u v n = Except.error Exc.NotImplemented ∧
      self.copy = Except.error Exc.NotImplemented ∧
      self.linear = Except.error Exc.NotImplemented) :=
  ⟨⟨rfl, rfl, rfl⟩, ⟨rfl, rfl, rfl⟩, ⟨rfl, rfl, rfl⟩⟩

/-- C9 at `d = 1`, `m = 2`: constructing any of the three fluxes from the constant zero flux
fails, and so does a construction followed by `apply`. -/
theorem unavailable_dimensions_ctor_fails_witness :
    (2 : Nat) ≠ 1 ∧
    NumericalUpwindFlux.ctor 1 2 (by decide) (ConstantFunction_zero 1 2)
      = Except.error Exc.NotImplemented ∧
    NumericalLaxFriedrichsFlux.ctor 1 2 (by decide) (ConstantFunction_zero 1 2)
      = Except.error Exc.NotImplemented ∧
    NumericalEngquistOsherFlux.ctor 1 2 (by decide) (ConstantFunction_zero 1 2)
      = Except.error Exc.NotImplemented ∧
    (NumericalUpwindFlux.ctor 1 2 (by decide) (ConstantFunction_zero 1 2)
        >>= fun self => self.apply ![1, 2] ![3, 4] ![1]) = Except.error Exc.NotImplemented :=
  have h := unavailable_dimensions_ctor_fails 1 2 (by decide) (ConstantFunction_zero 1 2)
    (fun self => self.apply ![1, 2] ![3, 4] ![1]) { flux_ := ConstantFunction_zero 1 2 }
    ![1, 2] ![3, 4] ![1]
  ⟨by decide, h.1.1, h.1.2.1, h.1.2.2, h.2.1.1⟩

/-! ## SystemAssembler -/

namespace SystemAssembler

/-- Reading the object does not change it. -/
theorem call_get_bind {α : Type} (self : SystemAssembler)
    (f : SystemAssembler → SystemAssemblerM α) :
    self.call (get >>= f) = self.call (f self) := by
  simp [call, ExceptT.run, bind, ExceptT.bind, ExceptT.mk, ExceptT.bindCont, StateT.bind,
    StateT.run, get, getThe, MonadStateOf.get, liftM, monadLift, MonadLift.monadLift,
    ExceptT.lift, StateT.get, Functor.map, StateT.map, pure, StateT.pure]

/-- An assertion that holds lets the call go on; one that fails ends it with the object as it
is. -/
theorem call_assert_bind {α : Type} (self : SystemAssembler) (c : Prop) [Decidable c]
    (rest : SystemAssemblerM α) :
    self.call (assert c >>= fun _ => rest)
      = if c then self.call rest else (Except.error Exc.assertion_failed, self) := by
  by_cases h : c
  · simp [h, call, assert, ExceptT.run, bind, ExceptT.bind, ExceptT.mk, ExceptT.bindCont,
      StateT.bind, StateT.run, pure, ExceptT.pure, StateT.pure]
  · simp [h, call, assert, ExceptT.run, bind, ExceptT.bind, ExceptT.mk, ExceptT.bindCont,
      StateT.bind, StateT.run, pure, ExceptT.pure, StateT.pure, throw, throwThe,
      MonadExceptOf.throw]

/-- Appending to `codim0_functors_` succeeds. -/
theorem call_codim0_functors_emplace_back (self : SystemAssembler) (f : Codim0Functor) :
    self.call (codim0_functors_emplace_back f)
      = (Except.ok (), { self with codim0_functors_ := self.codim0_functors_ ++ [f] }) := by
  simp [call, codim0_functors_emplace_back, ExceptT.run, StateT.run, modify, modifyGet,
    MonadStateOf.modifyGet, liftM, monadLift, MonadLift.monadLift, ExceptT.lift, ExceptT.mk,
    StateT.modifyGet, Functor.map, StateT.map, pure, StateT.pure, bind, StateT.bind]

/-- Appending to `codim1_functors_` succeeds. -/
theorem call_codim1_functors_emplace_back (self : SystemAssembler) (f : Codim1Functor) :
    self.call (codim1_functors_emplace_back f)
      = (Except.ok (), { self with codim1_functors_ := self.codim1_functors_ ++ [f] }) := by
  simp [call, codim1_functors_emplace_back, ExceptT.run, StateT.run, modify, modifyGet,
    MonadStateOf.modifyGet, liftM, monadLift, MonadLift.monadLift, ExceptT.lift, ExceptT.mk,
    StateT.modifyGet, Functor.map, StateT.map, pure, StateT.pure, bind, StateT.bind]

/-- The overload `add(constraints, ..)` with a matrix: the outcome of a call. -/
theorem call_add_constraints_matrix (self : SystemAssembler) (a : Nat) (matrix : MatrixInterface)
    (where_ : Nat) :
    self.call (add_constraints_matrix a matrix where_) =
      if matrix.rows = self.test_space_mapper_size
          ∧ matrix.cols = self.ansatz_space_mapper_size then
        (Except.ok (), { self with codim0_functors_ := self.codim0_functors_ ++ [Codim0Functor.LocalMatrixConstraintsWrapper where_ a matrix] })
      else
        (Except.error Exc.assertion_failed, self) := by
  simp only [add_constraints_matrix, call_get_bind, call_assert_bind, bind_assoc,
    call_codim0_functors_emplace_back, call_codim1_functors_emplace_back]
  split_ifs <;> simp_all

/-- The overload `add(constraints, ..)` with a vector: the outcome of a call. -/
theorem call_add_constraints_vector (self : SystemAssembler) (a : Nat) (vector : VectorInterface)
    (where_ : Nat) :
    self.call (add_constraints_vector a vector where_) =
      if vector.size = self.test_space_mapper_size then
        (Except.ok (), { self with codim0_functors_ := self.codim0_functors_ ++ [Codim0Functor.LocalVectorConstraintsWrapper where_ a vector] })
      else
        (Except.error Exc.assertion_failed, self) := by
  simp only [add_constraints_vector, call_get_bind, call_assert_bind, bind_assoc,
    call_codim0_functors_emplace_back, call_codim1_functors_emplace_back]

/-- The overload `add(Codim0Matrix, ..)` with a matrix: the outcome of a call. -/
theorem call_add_Codim0Matrix (self : SystemAssembler) (a : Nat) (matrix : MatrixInterface)
    (where_ : Nat) :
    self.call (add_Codim0Matrix a matrix where_) =
      if matrix.rows = self.test_space_mapper_size
          ∧ matrix.cols = self.ansatz_space_mapper_size then
        (Except.ok (), { self with codim0_functors_ := self.codim0_functors_ ++ [Codim0Functor.LocalVolumeMatrixAssemblerWrapper where_
          (LocalAssembler.Codim0Matrix a) matrix] })
      else
        (Except.error Exc.assertion_failed, self) := by
  simp only [add_Codim0Matrix, call_get_bind, call_assert_bind, bind_assoc,
    call_codim0_functors_emplace_back, call_codim1_functors_emplace_back]
  split_ifs <;> simp_all

/-- The overload `add_codim0_assembler` with a matrix: the outcome of a call. -/
theorem call_add_codim0_assembler_matrix (self : SystemAssembler) (a : Nat) (matrix : MatrixInterface)
    (where_ : Nat) :
    self.call (add_codim0_assembler_matrix a matrix where_) =
      if matrix.rows = self.test_space_mapper_size
          ∧ matrix.cols = self.ansatz_space_mapper_size then
        (Except.ok (), { self with codim0_functors_ := self.codim0_functors_ ++ [Codim0Functor.LocalVolumeMatrixAssemblerWrapper where_
          (LocalAssembler.Codim0Assembler a) matrix] })
      else
        (Except.error Exc.assertion_failed, self) := by
  simp only [add_codim0_assembler_matrix, call_get_bind, call_assert_bind, bind_assoc,
    call_codim0_functors_emplace_back, call_codim1_functors_emplace_back]
  split_ifs <;> simp_all

/-- The overload `add_codim0_assembler` with a vector: the outcome of a call. -/
theorem call_add_codim0_assembler_vector (self : SystemAssembler) (a : Nat) (vector : VectorInterface)
    (where_ : Nat) :
    self.call (add_codim0_assembler_vector a vector where_) =
      if vector.size = self.test_space_mapper_size then
        (Except.ok (), { self with codim0_functors_ := self.codim0_functors_ ++ [Codim0Functor.LocalVolumeVectorAssemblerWrapper where_
          (LocalAssembler.Codim0Assembler a) vector] })
      else
        (Except.error Exc.assertion_failed, self) := by
  simp only [add_codim0_assembler_vector, call_get_bind, call_assert_bind, bind_assoc,
    call_codim0_functors_emplace_back, call_codim1_functors_emplace_back]

/-- The overload `add(Codim1CouplingMatrix, ..)` with a matrix: the outcome of a call. -/
theorem call_add_Codim1CouplingMatrix (self : SystemAssembler) (a : Nat) (matrix : MatrixInterface)
    (where_ : Nat) :
    self.call (add_Codim1CouplingMatrix a matrix where_) =
      if matrix.rows = self.test_space_mapper_size
          ∧ matrix.cols = self.ansatz_space_mapper_size then
        (Except.ok (), { self with codim1_functors_ := self.codim1_functors_ ++ [Codim1Functor.LocalFaceMatrixAssemblerWrapper where_
          (LocalAssembler.Codim1CouplingMatrix a) matrix] })
      else
        (Except.error Exc.assertion_failed, self) := by
  simp only [add_Codim1CouplingMatrix, call_get_bind, call_assert_bind, bind_assoc,
    call_codim0_functors_emplace_back, call_codim1_functors_emplace_back]
  split_ifs <;> simp_all

/-- The overload `add(Codim1BoundaryMatrix, ..)` with a matrix: the outcome of a call. -/
theorem call_add_Codim1BoundaryMatrix (self : SystemAssembler) (a : Nat) (matrix : MatrixInterface)
    (where_ : Nat) :
    self.call (add_Codim1BoundaryMatrix a matrix where_) =
      if matrix.rows = self.test_space_mapper_size
          ∧ matrix.cols = self.ansatz_space_mapper_size then
        (Except.ok (), { self with codim1_functors_ := self.codim1_functors_ ++ [Codim1Functor.LocalFaceMatrixAssemblerWrapper where_
          (LocalAssembler.Codim1BoundaryMatrix a) matrix] })
      else
        (Except.error Exc.assertion_failed, self) := by
  simp only [add_Codim1BoundaryMatrix, call_get_bind, call_assert_bind, bind_assoc,
    call_codim0_functors_emplace_back, call_codim1_functors_emplace_back]
  split_ifs <;> simp_all

/-- The overload `add(Codim0Vector, ..)` with a vector: the outcome of a call. -/
theorem call_add_Codim0Vector (self : SystemAssembler) (a : Nat) (vector : VectorInterface)
    (where_ : Nat) :
    self.call (add_Codim0Vector a vector where_) =
      if vector.size = self.test_space_mapper_size then
        (Except.ok (), { self with codim0_functors_ := self.codim0_functors_ ++ [Codim0Functor.LocalVolumeVectorAssemblerWrapper where_
          (LocalAssembler.Codim0Vector a) vector] })
      else
        (Except.error Exc.assertion_failed, self) := by
  simp only [add_Codim0Vector, call_get_bind, call_assert_bind, bind_assoc,
    call_codim0_functors_emplace_back, call_codim1_functors_emplace_back]

/-- The overload `add(Codim1Vector, ..)` with a vector: the outcome of a call. -/
theorem call_add_Codim1Vector (self : SystemAssembler) (a : Nat) (vector : VectorInterface)
    (where_ : Nat) :
    self.call (add_Codim1Vector a vector where_) =
      if vector.size = self.test_space_mapper_size then
        (Except.ok (), { self with codim1_functors_ := self.codim1_functors_ ++ [Codim1Functor.LocalFaceVectorAssemblerWrapper where_
          (LocalAssembler.Codim1Vector a) vector] })
      else
        (Except.error Exc.assertion_failed, self) := by
  simp only [add_Codim1Vector, call_get_bind, call_assert_bind, bind_assoc,
    call_codim0_functors_emplace_back, call_codim1_functors_emplace_back]

/-- A call with a matrix reports success exactly when both sizes match, and a failed call
reports `assertion_failed` and leaves the object as it was. -/
theorem call_add_matrix (self : SystemAssembler) (mc : MatrixCall) (matrix : MatrixInterface)
    (where_ : Nat) :
    ((self.call (add_matrix mc matrix where_)).1 = Except.ok () ↔
      matrix.rows = self.test_space_mapper_size
        ∧ matrix.cols = self.ansatz_space_mapper_size) ∧
    (¬ (matrix.rows = self.test_space_mapper_size
        ∧ matrix.cols = self.ansatz_space_mapper_size) →
      self.call (add_matrix mc matrix where_) = (Except.error Exc.assertion_failed, self)) := by
  cases mc <;>
    simp only [add_matrix, call_add_constraints_matrix, call_add_Codim0Matrix,
      call_add_codim0_assembler_matrix, call_add_Codim1CouplingMatrix,
      call_add_Codim1BoundaryMatrix] <;>
    split_ifs with h <;> simp [h]

/-- A call with a vector reports success exactly when the size matches, and a failed call
reports `assertion_failed` and leaves the object as it was. -/
theorem call_add_vector (self : SystemAssembler) (vc : VectorCall) (vector : VectorInterface)
    (where_ : Nat) :
    ((self.call (add_vector vc vector where_)).1 = Except.ok () ↔
      vector.size = self.test_space_mapper_size) ∧
    (vector.size ≠ self.test_space_mapper_size →
      self.call (add_vector vc vector where_) = (Except.error Exc.assertion_failed, self)) := by
  cases vc <;>
    simp only [add_vector, call_add_constraints_vector, call_add_codim0_assembler_vector,
      call_add_Codim0Vector, call_add_Codim1Vector] <;>
    split_ifs with h <;> simp [h]

/-- C10. A call of `add` or `add_codim0_assembler` with a matrix succeeds if and only if
`matrix.rows()` is the size of the test mapper and `matrix.cols()` the size of the ansatz
mapper, and with a vector if and only if `vector.size()` is the size of the test mapper; on a
mismatch the call fails at once with a failed assertion and the object, with both functor lists,
is unchanged. -/
theorem add_succeeds_iff_sizes_match (self : SystemAssembler) (mc : MatrixCall)
    (vc : VectorCall) (matrix : MatrixInterface) (vector : VectorInterface) (where_ : Nat) :
    ((self.call (add_matrix mc matrix where_)).1 = Except.ok () ↔
      matrix.rows = self.test_space_mapper_size
        ∧ matrix.cols = self.ansatz_space_mapper_size) ∧
    ((self.call (add_vector vc vector where_)).1 = Except.ok () ↔
      vector.size = self.test_space_mapper_size) ∧
    (¬ (matrix.rows = self.test_space_mapper_size
        ∧ matrix.cols = self.ansatz_space_mapper_size) →
      (self.call (add_matrix mc matrix where_)).1 = Except.error Exc.assertion_failed ∧
      (self.call (add_matrix mc matrix where_)).2.codim0_functors_ = self.codim0_functors_ ∧
      (self.call (add_matrix mc matrix where_)).2.codim1_functors_ = self.codim1_functors_) ∧
    (vector.size ≠ self.test_space_mapper_size →
      (self.call (add_vector vc vector where_)).1 = Except.error Exc.assertion_failed ∧
      (self.call (add_vector vc vector where_)).2.codim0_functors_ = self.codim0_functors_ ∧
      (self.call (add_vector vc vector where_)).2.codim1_functors_ = self.codim1_functors_) := by
  refine ⟨(call_add_matrix self mc matrix where_).1, (call_add_vector self vc vector where_).1,
    ?_, ?_⟩
  · intro h
    rw [(call_add_matrix self mc matrix where_).2 h]
    exact ⟨rfl, rfl, rfl⟩
  · intro h
    rw [(call_add_vector self vc vector where_).2 h]
    exact ⟨rfl, rfl, rfl⟩

/-- C10 at an assembler with a test mapper of size 3, an ansatz mapper of size 4 and one
registered functor: a `3 × 5` matrix and a vector of size 2 are refused and the lists stay as
they are, while a `3 × 4` matrix and a vector of size 3 are accepted. -/
theorem add_succeeds_iff_sizes_match_witness :
    ¬ ((3 : Nat) = 3 ∧ (5 : Nat) = 4) ∧ (2 : Nat) ≠ 3 ∧
    (call
        { test_space_mapper_size := 3, ansatz_space_mapper_size := 4,
          codim0_functors_ := [Codim0Functor.LocalMatrixConstraintsWrapper 0 0 ⟨7, 3, 4⟩],
          codim1_functors_ := [] }
        (add_matrix (MatrixCall.Codim1CouplingMatrix 1) ⟨8, 3, 5⟩ 0)).1
      = Except.error Exc.assertion_failed ∧
    (call
        { test_space_mapper_size := 3, ansatz_space_mapper_size := 4,
          codim0_functors_ := [Codim0Functor.LocalMatrixConstraintsWrapper 0 0 ⟨7, 3, 4⟩],
          codim1_functors_ := [] }
        (add_matrix (MatrixCall.Codim1CouplingMatrix 1) ⟨8, 3, 5⟩ 0)).2.codim1_functors_ = [] ∧
    (call
        { test_space_mapper_size := 3, ansatz_space_mapper_size := 4,
          codim0_functors_ := [Codim0Functor.LocalMatrixConstraintsWrapper 0 0 ⟨7, 3, 4⟩],
          codim1_functors_ := [] }
        (add_vector (VectorCall.Codim0Vector 1) ⟨9, 2⟩ 0)).1
      = Except.error Exc.assertion_failed ∧
    (call
        { test_space_mapper_size := 3, ansatz_space_mapper_size := 4,
          codim0_functors_ := [Codim0Functor.LocalMatrixConstraintsWrapper 0 0 ⟨7, 3, 4⟩],
          codim1_functors_ := [] }
        (add_vector (VectorCall.Codim0Vector 1) ⟨9, 2⟩ 0)).2.codim0_functors_
      = [Codim0Functor.LocalMatrixConstraintsWrapper 0 0 ⟨7, 3, 4⟩] ∧
    (call
        { test_space_mapper_size := 3, ansatz_space_mapper_size := 4,
          codim0_functors_ := [Codim0Functor.LocalMatrixConstraintsWrapper 0 0 ⟨7, 3, 4⟩],
          codim1_functors_ := [] }
        (add_matrix (MatrixCall.Codim1CouplingMatrix 1) ⟨8, 3, 4⟩ 0)).1 = Except.ok () ∧
    (call
        { test_space_mapper_size := 3, ansatz_space_mapper_size := 4,
          codim0_functors_ := [Codim0Functor.LocalMatrixConstraintsWrapper 0 0 ⟨7, 3, 4⟩],
          codim1_functors_ := [] }
        (add_vector (VectorCall.Codim0Vector 1) ⟨9, 3⟩ 0)).1 = Except.ok () := by
  have hbad := add_succeeds_iff_sizes_match
    { test_space_mapper_size := 3, ansatz_space_mapper_size := 4,
      codim0_functors_ := [Codim0Functor.LocalMatrixConstraintsWrapper 0 0 ⟨7, 3, 4⟩],
      codim1_functors_ := [] }
    (MatrixCall.Codim1CouplingMatrix 1) (VectorCall.Codim0Vector 1) ⟨8, 3, 5⟩ ⟨9, 2⟩ 0
  have hgood := add_succeeds_iff_sizes_match
    { test_space_mapper_size := 3, ansatz_space_mapper_size := 4,
      codim0_functors_ := [Codim0Functor.LocalMatrixConstraintsWrapper 0 0 ⟨7, 3, 4⟩],
      codim1_functors_ := [] }
    (MatrixCall.Codim1CouplingMatrix 1) (VectorCall.Codim0Vector 1) ⟨8, 3, 4⟩ ⟨9, 3⟩ 0
  have hm : ¬ ((3 : Nat) = 3 ∧ (5 : Nat) = 4) := by decide
  have hv : (2 : Nat) ≠ 3 := by decide
  exact ⟨hm, hv, (hbad.2.2.1 hm).1, (hbad.2.2.1 hm).2.2, (hbad.2.2.2 hv).1,
    (hbad.2.2.2 hv).2.1, hgood.1.mpr ⟨rfl, rfl⟩, hgood.2.1.mpr rfl⟩


/-- A successful call with a matrix leaves the sizes of the mappers as they are and makes the two
lists together one functor longer, so the same call succeeds again. -/
theorem call_add_matrix_again (self : SystemAssembler) (mc : MatrixCall)
    (matrix : MatrixInterface) (where_ : Nat)
    (h : (self.call (add_matrix mc matrix where_)).1 = Except.ok ()) :
    ((self.call (add_matrix mc matrix where_)).2.call (add_matrix mc matrix where_)).1
      = Except.ok () ∧
    (self.call (add_matrix mc matrix where_)).2.codim0_functors_.length
        + (self.call (add_matrix mc matrix where_)).2.codim1_functors_.length
      = self.codim0_functors_.length + self.codim1_functors_.length + 1 := by
  have hs := (call_add_matrix self mc matrix where_).1.mp h
  cases mc <;>
    simp only [add_matrix, call_add_constraints_matrix, call_add_Codim0Matrix,
      call_add_codim0_assembler_matrix, call_add_Codim1CouplingMatrix,
      call_add_Codim1BoundaryMatrix, hs, and_self, if_true, List.length_append,
      List.length_singleton] <;>
    exact ⟨trivial, by omega⟩

/-- A successful call with a vector leaves the size of the test mapper as it is and makes the two
lists together one functor longer, so the same call succeeds again. -/
theorem call_add_vector_again (self : SystemAssembler) (vc : VectorCall)
    (vector : VectorInterface) (where_ : Nat)
    (h : (self.call (add_vector vc vector where_)).1 = Except.ok ()) :
    ((self.call (add_vector vc vector where_)).2.call (add_vector vc vector where_)).1
      = Except.ok () ∧
    (self.call (add_vector vc vector where_)).2.codim0_functors_.length
        + (self.call (add_vector vc vector where_)).2.codim1_functors_.length
      = self.codim0_functors_.length + self.codim1_functors_.length + 1 := by
  have hs := (call_add_vector self vc vector where_).1.mp h
  cases vc <;>
    simp only [add_vector, call_add_constraints_vector, call_add_codim0_assembler_vector,
      call_add_Codim0Vector, call_add_Codim1Vector, hs, if_true, List.length_append,
      List.length_singleton] <;>
    exact ⟨trivial, by omega⟩

/-- C19. Registrations compose: every successful call of `add` or `add_codim0_assembler` appends
exactly one functor to the end of exactly one list, `codim0_functors_` for constraints,
`Codim0Matrix`, `Codim0Vector` and `add_codim0_assembler`, `codim1_functors_` for
`Codim1CouplingMatrix`, `Codim1BoundaryMatrix` and `Codim1Vector`; the functors registered before
keep their positions and the other list is unchanged.  Registering the same container again
succeeds again and adds one more functor. -/
theorem add_appends_one_functor (self : SystemAssembler) (a : Nat) (matrix : MatrixInterface)
    (vector : VectorInterface) (where_ : Nat) (mc : MatrixCall) (vc : VectorCall) :
    ((self.call (add_constraints_matrix a matrix where_)).1 = Except.ok () →
      (self.call (add_constraints_matrix a matrix where_)).2.codim0_functors_
          = self.codim0_functors_ ++ [Codim0Functor.LocalMatrixConstraintsWrapper where_ a matrix] ∧
        (self.call (add_constraints_matrix a matrix where_)).2.codim1_functors_ = self.codim1_functors_) ∧
    ((self.call (add_constraints_vector a vector where_)).1 = Except.ok () →
      (self.call (add_constraints_vector a vector where_)).2.codim0_functors_
          = self.codim0_functors_ ++ [Codim0Functor.LocalVectorConstraintsWrapper where_ a vector] ∧
        (self.call (add_constraints_vector a vector where_)).2.codim1_functors_ = self.codim1_functors_) ∧
    ((self.call (add_Codim0Matrix a matrix where_)).1 = Except.ok () →
      (self.call (add_Codim0Matrix a matrix where_)).2.codim0_functors_
          = self.codim0_functors_ ++ [Codim0Functor.LocalVolumeMatrixAssemblerWrapper where_
            (LocalAssembler.Codim0Matrix a) matrix] ∧
        (self.call (add_Codim0Matrix a matrix where_)).2.codim1_functors_ = self.codim1_functors_) ∧
    ((self.call (add_codim0_assembler_matrix a matrix where_)).1 = Except.ok () →
      (self.call (add_codim0_assembler_matrix a matrix where_)).2.codim0_functors_
          = self.codim0_functors_ ++ [Codim0Functor.LocalVolumeMatrixAssemblerWrapper where_
            (LocalAssembler.Codim0Assembler a) matrix] ∧
        (self.call (add_codim0_assembler_matrix a matrix where_)).2.codim1_functors_ = self.codim1_functors_) ∧
    ((self.call (add_codim0_assembler_vector a vector where_)).1 = Except.ok () →
      (self.call (add_codim0_assembler_vector a vector where_)).2.codim0_functors_
          = self.codim0_functors_ ++ [Codim0Functor.LocalVolumeVectorAssemblerWrapper where_
            (LocalAssembler.Codim0Assembler a) vector] ∧
        (self.call (add_codim0_assembler_vector a vector where_)).2.codim1_functors_ = self.codim1_functors_) ∧
    ((self.call (add_Codim0Vector a vector where_)).1 = Except.ok () →
      (self.call (add_Codim0Vector a vector where_)).2.codim0_functors_
          = self.codim0_functors_ ++ [Codim0Functor.LocalVolumeVectorAssemblerWrapper where_
            (LocalAssembler.Codim0Vector a) vector] ∧
        (self.call (add_Codim0Vector a vector where_)).2.codim1_functors_ = self.codim1_functors_) ∧
    ((self.call (add_Codim1CouplingMatrix a matrix where_)).1 = Except.ok () →
      (self.call (add_Codim1CouplingMatrix a matrix where_)).2.codim1_functors_
          = self.codim1_functors_ ++ [Codim1Functor.LocalFaceMatrixAssemblerWrapper where_
            (LocalAssembler.Codim1CouplingMatrix a) matrix] ∧
        (self.call (add_Codim1CouplingMatrix a matrix where_)).2.codim0_functors_ = self.codim0_functors_) ∧
    ((self.call (add_Codim1BoundaryMatrix a matrix where_)).1 = Except.ok () →
      (self.call (add_Codim1BoundaryMatrix a matrix where_)).2.codim1_functors_
          = self.codim1_functors_ ++ [Codim1Functor.LocalFaceMatrixAssemblerWrapper where_
            (LocalAssembler.Codim1BoundaryMatrix a) matrix] ∧
        (self.call (add_Codim1BoundaryMatrix a matrix where_)).2.codim0_functors_ = self.codim0_functors_) ∧
    ((self.call (add_Codim1Vector a vector where_)).1 = Except.ok () →
      (self.call (add_Codim1Vector a vector where_)).2.codim1_functors_
          = self.codim1_functors_ ++ [Codim1Functor.LocalFaceVectorAssemblerWrapper where_
            (LocalAssembler.Codim1Vector a) vector] ∧
        (self.call (add_Codim1Vector a vector where_)).2.codim0_functors_ = self.codim0_functors_) ∧
    ((self.call (add_matrix mc matrix where_)).1 = Except.ok () →
      ((self.call (add_matrix mc matrix where_)).2.call (add_matrix mc matrix where_)).1
          = Except.ok () ∧
        (self.call (add_matrix mc matrix where_)).2.codim0_functors_.length
            + (self.call (add_matrix mc matrix where_)).2.codim1_functors_.length
          = self.codim0_functors_.length + self.codim1_functors_.length + 1) ∧
    ((self.call (add_vector vc vector where_)).1 = Except.ok () →
      ((self.call (add_vector vc vector where_)).2.call (add_vector vc vector where_)).1
          = Except.ok () ∧
        (self.call (add_vector vc vector where_)).2.codim0_functors_.length
            + (self.call (add_vector vc vector where_)).2.codim1_functors_.length
          = self.codim0_functors_.length + self.codim1_functors_.length + 1) := by
  refine ⟨?_, ?_, ?_, ?_, ?_, ?_, ?_, ?_, ?_, call_add_matrix_again self mc matrix where_,
    call_add_vector_again self vc vector where_⟩
  all_goals
    simp only [call_add_constraints_matrix, call_add_constraints_vector, call_add_Codim0Matrix,
      call_add_codim0_assembler_matrix, call_add_codim0_assembler_vector, call_add_Codim0Vector,
      call_add_Codim1CouplingMatrix, call_add_Codim1BoundaryMatrix, call_add_Codim1Vector]
    split_ifs with h <;> simp

/-- C19 at an assembler with mappers of size 3 and 4 that holds one functor in each list:
registering a `3 × 4` matrix with a `Codim1CouplingMatrix` succeeds and puts the new functor
behind the one in `codim1_functors_`, leaving `codim0_functors_` alone; registering the same
matrix once more succeeds as well. -/
theorem add_appends_one_functor_witness :
    (call
        { test_space_mapper_size := 3, ansatz_space_mapper_size := 4,
          codim0_functors_ := [Codim0Functor.LocalMatrixConstraintsWrapper 0 0 ⟨7, 3, 4⟩],
          codim1_functors_ := [Codim1Functor.LocalFaceVectorAssemblerWrapper 0
            (LocalAssembler.Codim1Vector 5) ⟨9, 3⟩] }
        (add_Codim1CouplingMatrix 1 ⟨7, 3, 4⟩ 0)).1 = Except.ok () ∧
    (call
        { test_space_mapper_size := 3, ansatz_space_mapper_size := 4,
          codim0_functors_ := [Codim0Functor.LocalMatrixConstraintsWrapper 0 0 ⟨7, 3, 4⟩],
          codim1_functors_ := [Codim1Functor.LocalFaceVectorAssemblerWrapper 0
            (LocalAssembler.Codim1Vector 5) ⟨9, 3⟩] }
        (add_Codim1CouplingMatrix 1 ⟨7, 3, 4⟩ 0)).2.codim1_functors_
      = [Codim1Functor.LocalFaceVectorAssemblerWrapper 0 (LocalAssembler.Codim1Vector 5) ⟨9, 3⟩,
          Codim1Functor.LocalFaceMatrixAssemblerWrapper 0 (LocalAssembler.Codim1CouplingMatrix 1)
            ⟨7, 3, 4⟩] ∧
    (call
        { test_space_mapper_size := 3, ansatz_space_mapper_size := 4,
          codim0_functors_ := [Codim0Functor.LocalMatrixConstraintsWrapper 0 0 ⟨7, 3, 4⟩],
          codim1_functors_ := [Codim1Functor.LocalFaceVectorAssemblerWrapper 0
            (LocalAssembler.Codim1Vector 5) ⟨9, 3⟩] }
        (add_Codim1CouplingMatrix 1 ⟨7, 3, 4⟩ 0)).2.codim0_functors_
      = [Codim0Functor.LocalMatrixConstraintsWrapper 0 0 ⟨7, 3, 4⟩] ∧
    ((call
        { test_space_mapper_size := 3, ansatz_space_mapper_size := 4,
          codim0_functors_ := [Codim0Functor.LocalMatrixConstraintsWrapper 0 0 ⟨7, 3, 4⟩],
          codim1_functors_ := [Codim1Functor.LocalFaceVectorAssemblerWrapper 0
            (LocalAssembler.Codim1Vector 5) ⟨9, 3⟩] }
        (add_matrix (MatrixCall.Codim1CouplingMatrix 1) ⟨7, 3, 4⟩ 0)).2.call
          (add_matrix (MatrixCall.Codim1CouplingMatrix 1) ⟨7, 3, 4⟩ 0)).1 = Except.ok () := by
  have h := add_appends_one_functor
    { test_space_mapper_size := 3, ansatz_space_mapper_size := 4,
      codim0_functors_ := [Codim0Functor.LocalMatrixConstraintsWrapper 0 0 ⟨7, 3, 4⟩],
      codim1_functors_ := [Codim1Functor.LocalFaceVectorAssemblerWrapper 0
        (LocalAssembler.Codim1Vector 5) ⟨9, 3⟩] }
    1 ⟨7, 3, 4⟩ ⟨9, 3⟩ 0 (MatrixCall.Codim1CouplingMatrix 1) (VectorCall.Codim1Vector 5)
  have hok : (call
      { test_space_mapper_size := 3, ansatz_space_mapper_size := 4,
        codim0_functors_ := [Codim0Functor.LocalMatrixConstraintsWrapper 0 0 ⟨7, 3, 4⟩],
        codim1_functors_ := [Codim1Functor.LocalFaceVectorAssemblerWrapper 0
          (LocalAssembler.Codim1Vector 5) ⟨9, 3⟩] }
      (add_Codim1CouplingMatrix 1 ⟨7, 3, 4⟩ 0)).1 = Except.ok () := by
    rw [call_add_Codim1CouplingMatrix]
    simp
  exact ⟨hok, (h.2.2.2.2.2.2.1 hok).1, (h.2.2.2.2.2.2.1 hok).2, (h.2.2.2.2.2.2.2.2.2.1 hok).1⟩

end SystemAssembler

/-! ## FEMAssembler -/

namespace FEMAssembler

/-- C11, the code where two entities share a degree of freedom. Starting from the zero matrix,
with local contributions `2` and `3` to the same global entry, `assembleMatrix` leaves `3` there
(the last contribution), not the sum `0 + 2 + 3 = 5`; starting from a matrix that holds `5`
everywhere, the entry is `3` as well, not `5 + 2 + 3`. -/
theorem assembleMatrix_overwrites :
    assembleMatrix shared_dof_operator (fun _ _ => 0) 0 0 = 3 ∧
    assembleMatrix shared_dof_operator (fun _ _ => 0) 0 0 ≠ 0 + (2 + 3) ∧
    assembleMatrix shared_dof_operator (fun _ _ => 5) 0 0 = 3 := by
  refine ⟨?_, ?_, ?_⟩ <;>
    simp [assembleMatrix, addToMatrix, assign, shared_dof_operator, List.range_succ]

/-- The inner loop of `setLocalConstraintsInMatrix` leaves an entry alone that no column of the
row addresses. -/
theorem inner_loop_unchanged (lc : LocalConstraints) (i : Nat) (a b : Nat) (n : Nat)
    (m : MatrixType) (h : ∀ j, j < n → ¬ (lc.rowDofs i = a ∧ lc.columnDofs j = b)) :
    (List.range n).foldl
      (fun m j => assign m (lc.rowDofs i) (lc.columnDofs j) (lc.localMatrix i j)) m a b
      = m a b := by
  induction n with
  | zero => simp
  | succ n ih =>
    rw [List.range_succ, List.foldl_append, List.foldl_cons, List.foldl_nil]
    have hn : ¬ (a = lc.rowDofs i ∧ b = lc.columnDofs n) :=
      fun hc => h n (Nat.lt_succ_self n) ⟨hc.1.symm, hc.2.symm⟩
    simp only [assign, if_neg hn]
    exact ih (fun j hj => h j (Nat.lt_succ_of_lt hj))

/-- The inner loop of `setLocalConstraintsInMatrix` leaves the value of column `j0` in the entry
that this column addresses, when no other column of the row addresses it. -/
theorem inner_loop_hit (lc : LocalConstraints) (i : Nat) (a b : Nat) (n j0 : Nat)
    (m : MatrixType) (hj0 : j0 < n) (ha : lc.rowDofs i = a) (hb : lc.columnDofs j0 = b)
    (h : ∀ j, j < n → j ≠ j0 → lc.columnDofs j ≠ b) :
    (List.range n).foldl
      (fun m j => assign m (lc.rowDofs i) (lc.columnDofs j) (lc.localMatrix i j)) m a b
      = lc.localMatrix i j0 := by
  induction n with
  | zero => exact absurd hj0 (Nat.not_lt_zero _)
  | succ n ih =>
    rw [List.range_succ, List.foldl_append, List.foldl_cons, List.foldl_nil]
    by_cases hn : j0 = n
    · subst hn
      simp [assign, ha, hb]
    · have hlt : j0 < n := lt_of_le_of_ne (Nat.le_of_lt_succ hj0) hn
      have hne : ¬ (a = lc.rowDofs i ∧ b = lc.columnDofs n) :=
        fun hc => h n (Nat.lt_succ_self n) (Ne.symm hn) hc.2.symm
      simp only [assign, if_neg hne]
      exact ih hlt (fun j hj hjn => h j (Nat.lt_succ_of_lt hj) hjn)

/-- The loops of `setLocalConstraintsInMatrix` over the first `n` rows leave an entry alone that
no listed pair addresses. -/
theorem outer_loop_unchanged (lc : LocalConstraints) (a b : Nat) (n : Nat) (m : MatrixType)
    (h : ∀ i j, i < n → j < lc.columnDofsSize →
      ¬ (lc.rowDofs i = a ∧ lc.columnDofs j = b)) :
    (List.range n).foldl
      (fun m i =>
        (List.range lc.columnDofsSize).foldl
          (fun m j => assign m (lc.rowDofs i) (lc.columnDofs j) (lc.localMatrix i j)) m)
      m a b = m a b := by
  induction n with
  | zero => simp
  | succ n ih =>
    rw [List.range_succ, List.foldl_append, List.foldl_cons, List.foldl_nil,
      inner_loop_unchanged lc n a b _ _ (fun j hj => h n j (Nat.lt_succ_self n) hj)]
    exact ih (fun i j hi hj => h i j (Nat.lt_succ_of_lt hi) hj)

/-- The loops of `setLocalConstraintsInMatrix` over the first `n` rows leave the value of the pair
`(i0, j0)` in the entry that this pair addresses, when no other listed pair addresses it. -/
theorem outer_loop_hit (lc : LocalConstraints) (a b : Nat) (n i0 j0 : Nat) (m : MatrixType)
    (hi0 : i0 < n) (hj0 : j0 < lc.columnDofsSize)
    (ha : lc.rowDofs i0 = a) (hb : lc.columnDofs j0 = b)
    (h : ∀ i j, i < n → j < lc.columnDofsSize → ¬ (i = i0 ∧ j = j0) →
      ¬ (lc.rowDofs i = a ∧ lc.columnDofs j = b)) :
    (List.range n).foldl
      (fun m i =>
        (List.range lc.columnDofsSize).foldl
          (fun m j => assign m (lc.rowDofs i) (lc.columnDofs j) (lc.localMatrix i j)) m)
      m a b = lc.localMatrix i0 j0 := by
  induction n with
  | zero => exact absurd hi0 (Nat.not_lt_zero _)
  | succ n ih =>
    rw [List.range_succ, List.foldl_append, List.foldl_cons, List.foldl_nil]
    by_cases hn : i0 = n
    · subst hn
      exact inner_loop_hit lc i0 a b _ j0 _ hj0 ha hb
        (fun j hj hne hc => h i0 j (Nat.lt_succ_self i0) hj (fun hp => hne hp.2) ⟨ha, hc⟩)
    · have hlt : i0 < n := lt_of_le_of_ne (Nat.le_of_lt_succ hi0) hn
      rw [inner_loop_unchanged lc n a b _ _
        (fun j hj => h n j (Nat.lt_succ_self n) hj (fun hp => hn hp.1.symm))]
      exact ih hlt (fun i j hi hj hne => h i j (Nat.lt_succ_of_lt hi) hj hne)

/-- C12. The function `setLocalConstraintsInMatrix` overwrites: when the listed pairs
`(rowDofs(i), columnDofs(j))` are pairwise distinct, afterwards
`m[rowDofs(i)][columnDofs(j)] = localMatrix(i, j)` for all `i < rowDofsSize()` and
`j < columnDofsSize()`, whatever the matrix held before, and every entry that no pair lists is
unchanged. -/
theorem setLocalConstraintsInMatrix_overwrites (lc : LocalConstraints) (m : MatrixType)
    (hdistinct : ∀ i j i1 j1, i < lc.rowDofsSize → j < lc.columnDofsSize →
      i1 < lc.rowDofsSize → j1 < lc.columnDofsSize →
      lc.rowDofs i = lc.rowDofs i1 → lc.columnDofs j = lc.columnDofs j1 → i = i1 ∧ j = j1) :
    (∀ i j, i < lc.rowDofsSize → j < lc.columnDofsSize →
      setLocalConstraintsInMatrix lc m (lc.rowDofs i) (lc.columnDofs j) = lc.localMatrix i j) ∧
    (∀ a b, (∀ i j, i < lc.rowDofsSize → j < lc.columnDofsSize →
        ¬ (lc.rowDofs i = a ∧ lc.columnDofs j = b)) →
      setLocalConstraintsInMatrix lc m a b = m a b) := by
  constructor
  · intro i0 j0 hi0 hj0
    exact outer_loop_hit lc _ _ _ i0 j0 m hi0 hj0 rfl rfl
      (fun i j hi hj hne hc => hne (hdistinct i j i0 j0 hi hj hi0 hj0 hc.1 hc.2))
  · intro a b h
    exact outer_loop_unchanged lc a b _ m h

/-- C12 at the constraints with rows `4, 7` and columns `1, 2`, applied to a matrix that holds
`100` everywhere: the four listed entries take the values `1, 2, 11, 12`, the entry `(4, 3)`
keeps `100`. -/
theorem setLocalConstraintsInMatrix_overwrites_witness :
    setLocalConstraintsInMatrix example_constraints (fun _ _ => 100) 4 1 = 1 ∧
    setLocalConstraintsInMatrix example_constraints (fun _ _ => 100) 4 2 = 2 ∧
    setLocalConstraintsInMatrix example_constraints (fun _ _ => 100) 7 1 = 11 ∧
    setLocalConstraintsInMatrix example_constraints (fun _ _ => 100) 7 2 = 12 ∧
    setLocalConstraintsInMatrix example_constraints (fun _ _ => 100) 4 3 = 100 := by
  have hdistinct : ∀ i j i1 j1, i < example_constraints.rowDofsSize →
      j < example_constraints.columnDofsSize → i1 < example_constraints.rowDofsSize →
      j1 < example_constraints.columnDofsSize →
      example_constraints.rowDofs i = example_constraints.rowDofs i1 →
      example_constraints.columnDofs j = example_constraints.columnDofs j1 →
      i = i1 ∧ j = j1 := by
    intro i j i1 j1 hi hj hi1 hj1
    simp only [example_constraints] at hi hj hi1 hj1 ⊢
    interval_cases i <;> interval_cases j <;> interval_cases i1 <;> interval_cases j1 <;> simp
  have h := setLocalConstraintsInMatrix_overwrites example_constraints (fun _ _ => 100) hdistinct
  have e00 := h.1 0 0 (by decide) (by decide)
  have e01 := h.1 0 1 (by decide) (by decide)
  have e10 := h.1 1 0 (by decide) (by decide)
  have e11 := h.1 1 1 (by decide) (by decide)
  have hfree := h.2 4 3 (by
    intro i j hi hj
    simp only [example_constraints] at hi hj ⊢
    interval_cases i <;> interval_cases j <;> simp)
  simp only [example_constraints] at e00 e01 e10 e11
  norm_num at e00 e01 e10 e11
  exact ⟨e00, e01, e10, e11, hfree⟩

end FEMAssembler

/-! ## LocalAdvectionFvCouplingOperator -/

/-- The loop of the operator over a list of components without repetitions adds the flux term to
the listed inside components and subtracts it from the listed outside components. -/
theorem LocalAdvectionFvCouplingOperator.foldl_update {m : Nat} (g : Vec m) (cin cout : ℚ)
    (l : List (Fin m)) (hl : l.Nodup) (dofs : Vec m × Vec m) (a : Fin m) :
    (l.foldl
        (fun dofs ii =>
          (Function.update dofs.1 ii (dofs.1 ii + (g ii * cin)),
            Function.update dofs.2 ii (dofs.2 ii - (g ii * cout))))
        dofs).1 a = (if a ∈ l then dofs.1 a + g a * cin else dofs.1 a) ∧
    (l.foldl
        (fun dofs ii =>
          (Function.update dofs.1 ii (dofs.1 ii + (g ii * cin)),
            Function.update dofs.2 ii (dofs.2 ii - (g ii * cout))))
        dofs).2 a = (if a ∈ l then dofs.2 a - g a * cout else dofs.2 a) := by
  induction l generalizing dofs with
  | nil => simp
  | cons x l ih =>
    rw [List.foldl_cons]
    obtain ⟨h1, h2⟩ := ih (List.nodup_cons.mp hl).2
      (Function.update dofs.1 x (dofs.1 x + (g x * cin)),
        Function.update dofs.2 x (dofs.2 x - (g x * cout)))
    rw [h1, h2]
    have hx : x ∉ l := (List.nodup_cons.mp hl).1
    by_cases hal : a ∈ l
    · have hne : a ≠ x := fun h => hx (h ▸ hal)
      simp [hal, hne]
    · by_cases hax : a = x
      · subst hax
        simp [hal]
      · simp [hal, hax]

/-- The value of the operator: an error for a space that is not a finite volume space or for a
failing flux, otherwise every inside component gains `g * h_intersection / h_inside_element` and
every outside component loses `g * h_intersection / h_outside_element`. -/
theorem LocalAdvectionFvCouplingOperator.apply_eq {d m : Nat}
    (numerical_flux_ : NumericalFluxType d m)
    (source_space_type inside_space_type outside_space_type : SpaceType)
    (u v : Vec m) (normal : Vec d) (h_intersection h_inside_element h_outside_element : ℚ)
    (local_range_inside local_range_outside : Vec m) :
    LocalAdvectionFvCouplingOperator.apply numerical_flux_ source_space_type inside_space_type
        outside_space_type u v normal h_intersection h_inside_element h_outside_element
        local_range_inside local_range_outside =
      if source_space_type ≠ SpaceType.finite_volume
          ∨ inside_space_type ≠ SpaceType.finite_volume
          ∨ outside_space_type ≠ SpaceType.finite_volume then
        Except.error Exc.operator_error
      else
        match numerical_flux_ u v normal with
        | Except.error e => Except.error e
        | Except.ok g =>
          Except.ok
            (fun ii => local_range_inside ii + (g ii * h_intersection) / h_inside_element,
              fun ii => local_range_outside ii - (g ii * h_intersection) / h_outside_element) := by
  unfold LocalAdvectionFvCouplingOperator.apply
  split_ifs with hs
  · rfl
  · cases hg : numerical_flux_ u v normal with
    | error e => rfl
    | ok g =>
      show Except.ok _ = Except.ok _
      congr 1
      have key := LocalAdvectionFvCouplingOperator.foldl_update g
        (h_intersection / h_inside_element) (h_intersection / h_outside_element)
        (List.finRange m) (List.nodup_finRange m) (local_range_inside, local_range_outside)
      simp only [mul_div_assoc]
      apply Prod.ext
      · funext a
        rw [(key a).1]
        simp [List.mem_finRange]
      · funext a
        rw [(key a).2]
        simp [List.mem_finRange]

/-- The upwind flux for a projection that is not zero, with the roles of the states swapped and
the normal reversed. -/
theorem NumericalUpwindFlux.apply_swap {d : Nat} (flux : ScalarFluxType d) (u v : ℚ)
    (n : Vec d) (h : dot n (flux.jacobian ((u + v) / 2)) ≠ 0) :
    NumericalUpwindFlux.apply flux v u (-n)
      = (NumericalUpwindFlux.apply flux u v n).map (fun g => -g) := by
  have hneg : ∀ a : Vec d, dot a (-n) = -dot a n := by
    intro a
    simp [dot]
  have hneg1 : ∀ a : Vec d, dot (-n) a = -dot n a := by
    intro a
    simp [dot]
  have hmean : (v + u) / 2 = (u + v) / 2 := by ring
  simp only [NumericalUpwindFlux.apply, hmean, hneg, hneg1, gt_iff_lt]
  rcases lt_or_gt_of_ne h with hlt | hgt
  · have h1 : ¬ (0 < dot n (flux.jacobian ((u + v) / 2))) := not_lt.mpr hlt.le
    have h2 : 0 < -dot n (flux.jacobian ((u + v) / 2)) := neg_pos.mpr hlt
    rw [if_neg h1, if_pos h2]
    rfl
  · have h1 : 0 < dot n (flux.jacobian ((u + v) / 2)) := hgt
    have h2 : ¬ (0 < -dot n (flux.jacobian ((u + v) / 2))) := not_lt.mpr (neg_nonpos.mpr hgt.le)
    rw [if_pos h1, if_neg h2]
    rfl

/-- C17, refuted as stated. For the cubic flux, the states `-1` and `1` and the normal `1` the
projection at the mean state `0` is zero; `apply(-1, 1, 1) = 1` and `apply(1, -1, -1) = 1`, which
is not `-1`.  Accordingly the operator adds `+1` to the entity that is treated as inside and `-1`
to the other one, whichever of the two is treated as inside. -/
theorem NumericalUpwindFlux.apply_swap_counterexample :
    NumericalUpwindFlux.apply cubic_flux (-1) 1 ![1] = Except.ok 1 ∧
    NumericalUpwindFlux.apply cubic_flux 1 (-1) ![-1] = Except.ok 1 ∧
    NumericalUpwindFlux.apply cubic_flux (-1) 1 ![1]
      ≠ (NumericalUpwindFlux.apply cubic_flux 1 (-1) ![-1]).map (fun g => -g) ∧
    (LocalAdvectionFvCouplingOperator.apply (NumericalUpwindFlux.as_interface cubic_flux)
        SpaceType.finite_volume SpaceType.finite_volume SpaceType.finite_volume
        ![-1] ![1] ![1] 1 1 1 ![0] ![0]).map (fun r => (r.1 0, r.2 0)) = Except.ok (1, -1) ∧
    (LocalAdvectionFvCouplingOperator.apply (NumericalUpwindFlux.as_interface cubic_flux)
        SpaceType.finite_volume SpaceType.finite_volume SpaceType.finite_volume
        ![1] ![-1] ![-1] 1 1 1 ![0] ![0]).map (fun r => (r.2 0, r.1 0)) = Except.ok (-1, 1) := by
  have h1 : NumericalUpwindFlux.apply cubic_flux (-1) 1 ![1] = Except.ok 1 := by
    norm_num [NumericalUpwindFlux.apply, dot, cubic_flux]
    rfl
  have h2 : NumericalUpwindFlux.apply cubic_flux 1 (-1) ![-1] = Except.ok 1 := by
    norm_num [NumericalUpwindFlux.apply, dot, cubic_flux]
    rfl
  refine ⟨h1, h2, ?_, ?_, ?_⟩
  · rw [h1, h2]
    intro h
    have h3 := Except.ok.inj h
    norm_num at h3
  · rw [LocalAdvectionFvCouplingOperator.apply_eq]
    have hf : NumericalUpwindFlux.as_interface cubic_flux ![-1] ![1] ![1]
        = Except.ok (fun _ => 1) := by
      simp only [NumericalUpwindFlux.as_interface, Matrix.cons_val_zero, h1]
      rfl
    simp [hf, Except.map]
  · rw [LocalAdvectionFvCouplingOperator.apply_eq]
    have hf : NumericalUpwindFlux.as_interface cubic_flux ![1] ![-1] ![-1]
        = Except.ok (fun _ => 1) := by
      simp only [NumericalUpwindFlux.as_interface, Matrix.cons_val_zero, h2]
      rfl
    simp [hf, Except.map]

/-- C17, amended. Where the Jacobian at the mean state, projected on the normal, is not zero, the
value assembled with the upwind flux does not depend on which entity is treated as inside:
`apply(v, u, -n) = -apply(u, v, n)`, and the operator applied with the roles swapped (states,
element volumes, ranges and the spaces of the ranges exchanged, normal reversed) leaves the two
ranges with the same values as the operator applied with the original roles. -/
theorem LocalAdvectionFvCouplingOperator.apply_upwind_swap {d : Nat} (flux : ScalarFluxType d)
    (u v : ℚ) (n : Vec d) (h : dot n (flux.jacobian ((u + v) / 2)) ≠ 0)
    (source_space_type inside_space_type outside_space_type : SpaceType)
    (h_intersection h_inside_element h_outside_element : ℚ)
    (local_range_inside local_range_outside : Vec 1) :
    NumericalUpwindFlux.apply flux v u (-n)
      = (NumericalUpwindFlux.apply flux u v n).map (fun g => -g) ∧
    LocalAdvectionFvCouplingOperator.apply (NumericalUpwindFlux.as_interface flux)
        source_space_type outside_space_type inside_space_type (fun _ => v) (fun _ => u) (-n)
        h_intersection h_outside_element h_inside_element local_range_outside local_range_inside
      = (LocalAdvectionFvCouplingOperator.apply (NumericalUpwindFlux.as_interface flux)
          source_space_type inside_space_type outside_space_type (fun _ => u) (fun _ => v) n
          h_intersection h_inside_element h_outside_element local_range_inside
          local_range_outside).map Prod.swap := by
  have hswap := NumericalUpwindFlux.apply_swap flux u v n h
  refine ⟨hswap, ?_⟩
  rw [LocalAdvectionFvCouplingOperator.apply_eq, LocalAdvectionFvCouplingOperator.apply_eq]
  have hcond : (source_space_type ≠ SpaceType.finite_volume
        ∨ outside_space_type ≠ SpaceType.finite_volume
        ∨ inside_space_type ≠ SpaceType.finite_volume) ↔
      (source_space_type ≠ SpaceType.finite_volume
        ∨ inside_space_type ≠ SpaceType.finite_volume
        ∨ outside_space_type ≠ SpaceType.finite_volume) := by
    tauto
  simp only [hcond]
  split_ifs with hs
  · rfl
  · simp only [NumericalUpwindFlux.as_interface, hswap]
    cases hg : NumericalUpwindFlux.apply flux u v n with
    | error e => rfl
    | ok g =>
      show Except.ok _ = Except.ok _
      congr 1
      apply Prod.ext
      · funext a
        show local_range_outside a + (-g * h_intersection) / h_outside_element
          = local_range_outside a - (g * h_intersection) / h_outside_element
        ring
      · funext a
        show local_range_inside a - (-g * h_intersection) / h_inside_element
          = local_range_inside a + (g * h_intersection) / h_inside_element
        ring

/-- C17, amended, at the linear transport flux with the states `1` and `2` and the normal `1`:
the projection is `1`, the flux is `1` seen from the inside and `-1` seen from the outside, and
both applications of the operator leave `1` on the one entity and `-1` on the other. -/
theorem LocalAdvectionFvCouplingOperator.apply_upwind_swap_witness :
    dot ![1] ((LinearTransportProblem.flux 1).jacobian ((1 + 2) / 2)) ≠ 0 ∧
    NumericalUpwindFlux.apply (LinearTransportProblem.flux 1) 2 1 (-![1])
      = (NumericalUpwindFlux.apply (LinearTransportProblem.flux 1) 1 2 ![1]).map (fun g => -g) ∧
    LocalAdvectionFvCouplingOperator.apply
        (NumericalUpwindFlux.as_interface (LinearTransportProblem.flux 1))
        SpaceType.finite_volume SpaceType.finite_volume SpaceType.finite_volume
        (fun _ => 2) (fun _ => 1) (-![1]) 1 1 1 ![0] ![0]
      = (LocalAdvectionFvCouplingOperator.apply
          (NumericalUpwindFlux.as_interface (LinearTransportProblem.flux 1))
          SpaceType.finite_volume SpaceType.finite_volume SpaceType.finite_volume
          (fun _ => 1) (fun _ => 2) ![1] 1 1 1 ![0] ![0]).map Prod.swap := by
  have h : dot ![1] ((LinearTransportProblem.flux 1).jacobian ((1 + 2) / 2)) ≠ 0 := by
    norm_num [dot, LinearTransportProblem.flux, LinearTransportProblem.direction]
  have key := LocalAdvectionFvCouplingOperator.apply_upwind_swap (LinearTransportProblem.flux 1)
    1 2 ![1] h SpaceType.finite_volume SpaceType.finite_volume SpaceType.finite_volume
    1 1 1 ![0] ![0]
  exact ⟨h, key.1, key.2⟩

/-- C18. Single-cell flux balance for linear transport in one dimension (`f(u) = u`, upwind
flux, cells of width `h`, point intersections of volume 1, normals `+1`): applying the operator
once on the right face of cell `i` (inside `i`, outside `i + 1`) and once on its left face
(inside `i - 1`, outside `i`), in either order and starting from zero ranges, leaves the range
value of cell `i` equal to `(u_i - u_{i-1}) / h`. -/
theorem LocalAdvectionFvCouplingOperator.single_cell_flux_balance (h : ℚ) (hh : 0 < h)
    (u_left u_i u_right : ℚ) :
    (LocalAdvectionFvCouplingOperator.apply
        (NumericalUpwindFlux.as_interface (LinearTransportProblem.flux 1))
        SpaceType.finite_volume SpaceType.finite_volume SpaceType.finite_volume
        (fun _ => u_i) (fun _ => u_right) ![1] 1 h h (fun _ => 0) (fun _ => 0) >>=
      fun right_face =>
        LocalAdvectionFvCouplingOperator.apply
          (NumericalUpwindFlux.as_interface (LinearTransportProblem.flux 1))
          SpaceType.finite_volume SpaceType.finite_volume SpaceType.finite_volume
          (fun _ => u_left) (fun _ => u_i) ![1] 1 h h (fun _ => 0) right_face.1 >>=
        fun left_face => pure (left_face.2 0))
      = Except.ok ((u_i - u_left) / h) ∧
    (LocalAdvectionFvCouplingOperator.apply
        (NumericalUpwindFlux.as_interface (LinearTransportProblem.flux 1))
        SpaceType.finite_volume SpaceType.finite_volume SpaceType.finite_volume
        (fun _ => u_left) (fun _ => u_i) ![1] 1 h h (fun _ => 0) (fun _ => 0) >>=
      fun left_face =>
        LocalAdvectionFvCouplingOperator.apply
          (NumericalUpwindFlux.as_interface (LinearTransportProblem.flux 1))
          SpaceType.finite_volume SpaceType.finite_volume SpaceType.finite_volume
          (fun _ => u_i) (fun _ => u_right) ![1] 1 h h left_face.2 (fun _ => 0) >>=
        fun right_face => pure (right_face.1 0))
      = Except.ok ((u_i - u_left) / h) := by
  have hpos : ∀ w : ℚ, 0 < dot ![1] ((LinearTransportProblem.flux 1).jacobian w) := by
    intro w
    norm_num [dot, LinearTransportProblem.flux, LinearTransportProblem.direction]
  have hflux : ∀ a b : ℚ,
      NumericalUpwindFlux.as_interface (LinearTransportProblem.flux 1) (fun _ => a) (fun _ => b)
        ![1] = Except.ok (fun _ => a) := by
    intro a b
    simp only [NumericalUpwindFlux.as_interface, NumericalUpwindFlux.apply, gt_iff_lt,
      if_pos (hpos _)]
    show Except.ok _ = Except.ok _
    congr 1
    funext _
    norm_num [dot, LinearTransportProblem.flux, LinearTransportProblem.direction]
  have hne : h ≠ 0 := ne_of_gt hh
  constructor
  · simp only [LocalAdvectionFvCouplingOperator.apply_eq, hflux, ne_eq, not_true_eq_false,
      or_self, if_false]
    show Except.ok _ = Except.ok _
    congr 1
    field_simp
  · simp only [LocalAdvectionFvCouplingOperator.apply_eq, hflux, ne_eq, not_true_eq_false,
      or_self, if_false]
    show Except.ok _ = Except.ok _
    congr 1
    field_simp
    ring

/-- C18 at cells of width `1 / 16` with the states `1, 3, 10`: the balance of the middle cell is
`(3 - 1) * 16 = 32`. -/
theorem LocalAdvectionFvCouplingOperator.single_cell_flux_balance_witness :
    (0 : ℚ) < 1 / 16 ∧
    (LocalAdvectionFvCouplingOperator.apply
        (NumericalUpwindFlux.as_interface (LinearTransportProblem.flux 1))
        SpaceType.finite_volume SpaceType.finite_volume SpaceType.finite_volume
        (fun _ => 3) (fun _ => 10) ![1] 1 (1 / 16) (1 / 16) (fun _ => 0) (fun _ => 0) >>=
      fun right_face =>
        LocalAdvectionFvCouplingOperator.apply
          (NumericalUpwindFlux.as_interface (LinearTransportProblem.flux 1))
          SpaceType.finite_volume SpaceType.finite_volume SpaceType.finite_volume
          (fun _ => 1) (fun _ => 3) ![1] 1 (1 / 16) (1 / 16) (fun _ => 0) right_face.1 >>=
        fun left_face => pure (left_face.2 0))
      = Except.ok 32 := by
  have hh : (0 : ℚ) < 1 / 16 := by norm_num
  have key := (LocalAdvectionFvCouplingOperator.single_cell_flux_balance (1 / 16) hh 1 3 10).1
  refine ⟨hh, ?_⟩
  rw [key]
  norm_num

/-! ## LocalOperator: the integrals over faces -/

namespace LocalOperator

/-- The inner loop over `n` columns that both matrices have: the result. -/
theorem add_row_eq (ret vals : DynamicMatrix) (ii n : Nat) (f w : ℚ)
    (h1 : n ≤ ret.cols) (h2 : n ≤ vals.cols) :
    add_row ret vals ii n f w =
      Except.ok
        { ret with
          entry := fun a b =>
            if a = ii ∧ b < n then ret.entry a b + vals.entry ii b * f * w else ret.entry a b } := by
  unfold add_row
  induction n with
  | zero =>
    simp only [List.range_zero, List.foldlM_nil, Nat.not_lt_zero, and_false, if_false]
    rfl
  | succ n ih =>
    rw [List.range_succ, List.foldlM_append, ih (by omega) (by omega)]
    have hv : n < vals.cols := by omega
    have hr : n < ret.cols := by omega
    simp only [List.foldlM_cons, List.foldlM_nil, DynamicMatrix.read, DynamicMatrix.add_assign,
      hv, hr, if_true, bind, Except.bind, pure, Except.pure]
    congr 1
    ext a b
    · rfl
    · rfl
    · show (if a = ii ∧ b = n then _ else _) = _
      by_cases ha : a = ii
      · by_cases hb : b = n
        · subst ha hb
          simp
        · by_cases hlt : b < n
          · have : b < n + 1 := by omega
            simp [ha, hb, hlt, this]
          · have : ¬ b < n + 1 := by omega
            simp [ha, hb, hlt, this]
      · simp [ha]

/-- One more row added to a block of `n` rows gives a block of `n + 1` rows. -/
theorem add_block_succ (ret vals : DynamicMatrix) (n cols : Nat) (f w : ℚ) :
    ({ ret.add_block vals n cols f w with
        entry := fun a b =>
          if a = n ∧ b < cols then
            (ret.add_block vals n cols f w).entry a b + vals.entry n b * f * w
          else
            (ret.add_block vals n cols f w).entry a b } : DynamicMatrix)
      = ret.add_block vals (n + 1) cols f w := by
  ext a b
  · rfl
  · rfl
  · show (if a = n ∧ b < cols then _ else _) = _
    simp only [DynamicMatrix.add_block]
    by_cases hb : b < cols
    · by_cases ha : a = n
      · subst ha
        simp [hb]
      · by_cases hlt : a < n
        · have : a < n + 1 := by omega
          simp [ha, hb, hlt, this]
        · have : ¬ a < n + 1 := by omega
          simp [ha, hb, hlt, this]
    · simp [hb]

/-- A block of no rows leaves the matrix as it is. -/
theorem add_block_zero (ret vals : DynamicMatrix) (cols : Nat) (f w : ℚ) :
    ret.add_block vals 0 cols f w = ret := by
  ext a b
  · rfl
  · rfl
  · simp [DynamicMatrix.add_block]

/-- The loops of the boundary operator at one quadrature point, for matrices that hold the
`rows × cols` block: the result. -/
theorem Codim1BoundaryIntegral.add_rows_eq (ret vals : DynamicMatrix) (rows cols : Nat)
    (f w : ℚ) (h1 : rows ≤ ret.rows) (h2 : rows ≤ vals.rows) (h3 : cols ≤ ret.cols)
    (h4 : cols ≤ vals.cols) :
    Codim1BoundaryIntegral.add_rows ret vals rows cols f w
      = Except.ok (ret.add_block vals rows cols f w) := by
  unfold Codim1BoundaryIntegral.add_rows
  induction rows with
  | zero =>
    simp only [List.range_zero, List.foldlM_nil, add_block_zero]
    rfl
  | succ n ih =>
    rw [List.range_succ, List.foldlM_append, ih (by omega) (by omega)]
    have hr : n < (ret.add_block vals n cols f w).rows := by
      show n < ret.rows
      omega
    have hv : n < vals.rows := by omega
    have hc : cols ≤ (ret.add_block vals n cols f w).cols := h3
    simp only [List.foldlM_cons, List.foldlM_nil, DynamicMatrix.row, hr, hv, if_true, bind,
      Except.bind, pure, Except.pure, add_row_eq _ _ _ _ _ _ hc h4, add_block_succ]

/-- One of the loops of the coupling operator at one quadrature point, for matrices that hold
their blocks: the result. -/
theorem Codim1CouplingIntegral.add_rows_pair_eq (retA valsA : DynamicMatrix) (colsA : Nat)
    (retB valsB : DynamicMatrix) (colsB : Nat) (rows : Nat) (f w : ℚ)
    (hA1 : rows ≤ retA.rows) (hA2 : rows ≤ valsA.rows) (hA3 : colsA ≤ retA.cols)
    (hA4 : colsA ≤ valsA.cols)
    (hB1 : rows ≤ retB.rows) (hB2 : rows ≤ valsB.rows) (hB3 : colsB ≤ retB.cols)
    (hB4 : colsB ≤ valsB.cols) :
    Codim1CouplingIntegral.add_rows_pair retA valsA colsA retB valsB colsB rows f w
      = Except.ok (retA.add_block valsA rows colsA f w, retB.add_block valsB rows colsB f w) := by
  unfold Codim1CouplingIntegral.add_rows_pair
  induction rows with
  | zero =>
    simp only [List.range_zero, List.foldlM_nil, add_block_zero]
    rfl
  | succ n ih =>
    rw [List.range_succ, List.foldlM_append, ih (by omega) (by omega) (by omega) (by omega)]
    have hrA : n < (retA.add_block valsA n colsA f w).rows := by
      show n < retA.rows
      omega
    have hrB : n < (retB.add_block valsB n colsB f w).rows := by
      show n < retB.rows
      omega
    have hvA : n < valsA.rows := by omega
    have hvB : n < valsB.rows := by omega
    have hcA : colsA ≤ (retA.add_block valsA n colsA f w).cols := hA3
    have hcB : colsB ≤ (retB.add_block valsB n colsB f w).cols := hB3
    simp only [List.foldlM_cons, List.foldlM_nil, DynamicMatrix.row, hrA, hrB, hvA, hvB, if_true,
      bind, Except.bind, pure, Except.pure, add_row_eq _ _ _ _ _ _ hcA hA4,
      add_row_eq _ _ _ _ _ _ hcB hB4, add_block_succ]

/-- Adding nothing changes nothing. -/
theorem add_sum_nil {k : Nat} (ret : DynamicMatrix) (rows cols : Nat)
    (intersection : Intersection k) (V : Vec k → DynamicMatrix) :
    ret.add_sum rows cols (quadrature_sum intersection [] V) = ret := by
  ext a b
  · rfl
  · rfl
  · simp [DynamicMatrix.add_sum, quadrature_sum]

/-- The block of the first point and then the sum over the other points is the sum over all
points, when the matrix `E` that the evaluation left at the first point `q` has the values of
`V q` in the block. -/
theorem add_sum_cons {k : Nat} (ret E : DynamicMatrix) (rows cols : Nat)
    (intersection : Intersection k) (V : Vec k → DynamicMatrix) (q : QuadraturePoint k)
    (qs : List (QuadraturePoint k))
    (hE : ∀ a b, a < rows → b < cols → E.entry a b = (V q.position).entry a b) :
    (ret.add_block E rows cols (intersection.integrationElement q.position)
        q.weight).add_sum rows cols (quadrature_sum intersection qs V)
      = ret.add_sum rows cols (quadrature_sum intersection (q :: qs) V) := by
  ext a b
  · rfl
  · rfl
  · simp only [DynamicMatrix.add_sum, DynamicMatrix.add_block, quadrature_sum, List.map_cons,
      List.sum_cons]
    by_cases hab : a < rows ∧ b < cols
    · simp only [if_pos hab, hE a b hab.1 hab.2]
      ring
    · simp only [if_neg hab]

/-- The step of the boundary operator at one quadrature point, for matrices that hold the
`rows × cols` block: the result. -/
theorem Codim1BoundaryIntegral.boundary_quadrature_step_eq {k : Nat} (self : Codim1BoundaryIntegral k)
    (testBase ansatzBase : LocalfunctionSetInterface) (intersection : Intersection k)
    (rows cols : Nat) (ret tmp : DynamicMatrix) (q : QuadraturePoint k)
    (h1 : rows ≤ ret.rows) (h3 : cols ≤ ret.cols)
    (hs : rows ≤ (self.evaluation_.evaluate testBase ansatzBase q.position tmp).rows ∧
      cols ≤ (self.evaluation_.evaluate testBase ansatzBase q.position tmp).cols) :
    Codim1BoundaryIntegral.quadrature_step self testBase ansatzBase intersection rows cols
        (ret, tmp) q
      = Except.ok (ret.add_block (self.evaluation_.evaluate testBase ansatzBase q.position tmp)
          rows cols (intersection.integrationElement q.position) q.weight,
          self.evaluation_.evaluate testBase ansatzBase q.position tmp) := by
  simp only [Codim1BoundaryIntegral.quadrature_step, assert, ge_iff_le, hs.1, hs.2,
    if_true, bind, Except.bind, pure, Except.pure,
    Codim1BoundaryIntegral.add_rows_eq _ _ _ _ _ _ h1 hs.1 h3 hs.2]

/-- The loop of the boundary operator over the quadrature points returns when `ret` and the
scratch matrix hold the `rows × cols` block and the evaluation leaves the scratch matrix large
enough. -/
theorem Codim1BoundaryIntegral.boundary_quadrature_loop_ok {k : Nat} (self : Codim1BoundaryIntegral k)
    (testBase ansatzBase : LocalfunctionSetInterface) (intersection : Intersection k)
    (rows cols : Nat)
    (hsize : ∀ p tmp, rows ≤ tmp.rows ∧ cols ≤ tmp.cols →
      rows ≤ (self.evaluation_.evaluate testBase ansatzBase p tmp).rows ∧
      cols ≤ (self.evaluation_.evaluate testBase ansatzBase p tmp).cols)
    (qs : List (QuadraturePoint k)) (ret tmp : DynamicMatrix) (h1 : rows ≤ ret.rows)
    (h3 : cols ≤ ret.cols) (htmp : rows ≤ tmp.rows ∧ cols ≤ tmp.cols) :
    ∃ state1, qs.foldlM
        (Codim1BoundaryIntegral.quadrature_step self testBase ansatzBase intersection rows cols)
        (ret, tmp) = Except.ok state1 := by
  induction qs generalizing ret tmp with
  | nil => exact ⟨(ret, tmp), rfl⟩
  | cons q qs ih =>
    have hs := hsize q.position tmp htmp
    obtain ⟨state1, h⟩ := ih
      (ret.add_block (self.evaluation_.evaluate testBase ansatzBase q.position tmp)
        rows cols (intersection.integrationElement q.position) q.weight)
      (self.evaluation_.evaluate testBase ansatzBase q.position tmp) h1 h3 hs
    refine ⟨state1, ?_⟩
    rw [List.foldlM_cons, Codim1BoundaryIntegral.boundary_quadrature_step_eq self testBase ansatzBase
      intersection rows cols ret tmp q h1 h3 hs]
    exact h

/-- The loop of the boundary operator over the quadrature points, when the evaluation leaves the
scratch matrix large enough and with the values of `V p` in the block: the result. -/
theorem Codim1BoundaryIntegral.boundary_quadrature_loop_eq {k : Nat} (self : Codim1BoundaryIntegral k)
    (testBase ansatzBase : LocalfunctionSetInterface) (intersection : Intersection k)
    (rows cols : Nat) (V : Vec k → DynamicMatrix)
    (hsize : ∀ p tmp, rows ≤ tmp.rows ∧ cols ≤ tmp.cols →
      rows ≤ (self.evaluation_.evaluate testBase ansatzBase p tmp).rows ∧
      cols ≤ (self.evaluation_.evaluate testBase ansatzBase p tmp).cols)
    (hvals : ∀ p tmp, rows ≤ tmp.rows ∧ cols ≤ tmp.cols → ∀ a b, a < rows → b < cols →
      (self.evaluation_.evaluate testBase ansatzBase p tmp).entry a b = (V p).entry a b)
    (qs : List (QuadraturePoint k)) (ret tmp : DynamicMatrix) (h1 : rows ≤ ret.rows)
    (h3 : cols ≤ ret.cols) (htmp : rows ≤ tmp.rows ∧ cols ≤ tmp.cols) :
    ∃ tmp1, qs.foldlM
        (Codim1BoundaryIntegral.quadrature_step self testBase ansatzBase intersection rows cols)
        (ret, tmp)
      = Except.ok (ret.add_sum rows cols (quadrature_sum intersection qs V), tmp1) := by
  induction qs generalizing ret tmp with
  | nil => exact ⟨tmp, by rw [add_sum_nil]; rfl⟩
  | cons q qs ih =>
    have hs := hsize q.position tmp htmp
    obtain ⟨tmp1, h⟩ := ih
      (ret.add_block (self.evaluation_.evaluate testBase ansatzBase q.position tmp)
        rows cols (intersection.integrationElement q.position) q.weight)
      (self.evaluation_.evaluate testBase ansatzBase q.position tmp) h1 h3 hs
    refine ⟨tmp1, ?_⟩
    rw [List.foldlM_cons, Codim1BoundaryIntegral.boundary_quadrature_step_eq self testBase ansatzBase
      intersection rows cols ret tmp q h1 h3 hs]
    show List.foldlM _ _ qs = _
    rw [h, add_sum_cons _ _ _ _ _ _ _ _ (hvals q.position tmp htmp)]

/-- The part of `Codim1BoundaryIntegral::apply` before the loop over the quadrature points, when
the cast of the order succeeds and `ret` holds the block: `apply` is the loop, started from the
reset `ret` and the first scratch matrix. -/
theorem Codim1BoundaryIntegral.boundary_apply_eq_loop {k : Nat} (self : Codim1BoundaryIntegral k)
    (testBase ansatzBase : LocalfunctionSetInterface) (intersection : Intersection k)
    (order : Nat) (ho : self.quadrature_order testBase ansatzBase = Except.ok order)
    (ret localMatrix : DynamicMatrix) (rest : List DynamicMatrix)
    (h1 : testBase.size ≤ ret.rows) (h3 : ansatzBase.size ≤ ret.cols) :
    Codim1BoundaryIntegral.apply self testBase ansatzBase intersection ret (localMatrix :: rest)
      = ((intersection.rule order).foldlM
          (Codim1BoundaryIntegral.quadrature_step self testBase ansatzBase intersection
            testBase.size ansatzBase.size) (ret.times_assign 0.0, localMatrix)).map
          (fun state => (state.1, (localMatrix :: rest).set 0 state.2)) := by
  have h1a : testBase.size ≤ (ret.times_assign 0.0).rows := h1
  have h3a : ansatzBase.size ≤ (ret.times_assign 0.0).cols := h3
  have hlen : 1 ≤ (localMatrix :: rest).length := by simp
  simp only [Codim1BoundaryIntegral.apply, ho, assert, ge_iff_le, h1a, h3a, hlen, if_true,
    Codim1BoundaryIntegral.numTmpObjectsRequired_, tmp_at, List.getElem?_cons_zero, bind,
    Except.bind, pure, Except.pure, Except.map]

/-- The method `Codim1BoundaryIntegral::apply` returns when the cast of the order succeeds, `ret`
and the first scratch matrix hold the block of the two bases and the evaluation leaves the
scratch matrix large enough. -/
theorem Codim1BoundaryIntegral.boundary_apply_ok {k : Nat} (self : Codim1BoundaryIntegral k)
    (testBase ansatzBase : LocalfunctionSetInterface) (intersection : Intersection k)
    (order : Nat) (ho : self.quadrature_order testBase ansatzBase = Except.ok order)
    (hsize : ∀ p tmp, testBase.size ≤ tmp.rows ∧ ansatzBase.size ≤ tmp.cols →
      testBase.size ≤ (self.evaluation_.evaluate testBase ansatzBase p tmp).rows ∧
      ansatzBase.size ≤ (self.evaluation_.evaluate testBase ansatzBase p tmp).cols)
    (ret localMatrix : DynamicMatrix) (rest : List DynamicMatrix)
    (h1 : testBase.size ≤ ret.rows) (h3 : ansatzBase.size ≤ ret.cols)
    (htmp : testBase.size ≤ localMatrix.rows ∧ ansatzBase.size ≤ localMatrix.cols) :
    ∃ out, Codim1BoundaryIntegral.apply self testBase ansatzBase intersection ret
        (localMatrix :: rest) = Except.ok out := by
  obtain ⟨state1, h⟩ := Codim1BoundaryIntegral.boundary_quadrature_loop_ok self testBase ansatzBase
    intersection testBase.size ansatzBase.size hsize (intersection.rule order)
    (ret.times_assign 0.0) localMatrix h1 h3 htmp
  rw [Codim1BoundaryIntegral.boundary_apply_eq_loop self testBase ansatzBase intersection order ho ret
    localMatrix rest h1 h3, h]
  exact ⟨_, rfl⟩

/-- The value of `Codim1BoundaryIntegral::apply` when the cast of the order succeeds, `ret` and
the first scratch matrix hold the block of the two bases, and the evaluation leaves the scratch
matrix large enough and with the values of `V p` in the block: `ret` is reset and the quadrature
sums are added. -/
theorem Codim1BoundaryIntegral.boundary_apply_eq {k : Nat} (self : Codim1BoundaryIntegral k)
    (testBase ansatzBase : LocalfunctionSetInterface) (intersection : Intersection k)
    (V : Vec k → DynamicMatrix)
    (order : Nat) (ho : self.quadrature_order testBase ansatzBase = Except.ok order)
    (hsize : ∀ p tmp, testBase.size ≤ tmp.rows ∧ ansatzBase.size ≤ tmp.cols →
      testBase.size ≤ (self.evaluation_.evaluate testBase ansatzBase p tmp).rows ∧
      ansatzBase.size ≤ (self.evaluation_.evaluate testBase ansatzBase p tmp).cols)
    (hvals : ∀ p tmp, testBase.size ≤ tmp.rows ∧ ansatzBase.size ≤ tmp.cols →
      ∀ a b, a < testBase.size → b < ansatzBase.size →
      (self.evaluation_.evaluate testBase ansatzBase p tmp).entry a b = (V p).entry a b)
    (ret localMatrix : DynamicMatrix) (rest : List DynamicMatrix)
    (h1 : testBase.size ≤ ret.rows) (h3 : ansatzBase.size ≤ ret.cols)
    (htmp : testBase.size ≤ localMatrix.rows ∧ ansatzBase.size ≤ localMatrix.cols) :
    ∃ tmp1, Codim1BoundaryIntegral.apply self testBase ansatzBase intersection ret
        (localMatrix :: rest)
      = Except.ok ((ret.times_assign 0.0).add_sum testBase.size ansatzBase.size
          (quadrature_sum intersection (intersection.rule order) V), tmp1) := by
  obtain ⟨tmp1, h⟩ := Codim1BoundaryIntegral.boundary_quadrature_loop_eq self testBase ansatzBase
    intersection testBase.size ansatzBase.size V hsize hvals (intersection.rule order)
    (ret.times_assign 0.0) localMatrix h1 h3 htmp
  rw [Codim1BoundaryIntegral.boundary_apply_eq_loop self testBase ansatzBase intersection order ho ret
    localMatrix rest h1 h3, h]
  exact ⟨_, rfl⟩

/-- Adding a block keeps the sizes, so matrices that fit still fit. -/
theorem FourMatrices.fits_add_block (ret vals : FourMatrices) (rowsEn colsEn rowsNe colsNe : Nat)
    (f w : ℚ) (hr : ret.fits rowsEn colsEn rowsNe colsNe) :
    (ret.add_block vals rowsEn colsEn rowsNe colsNe f w).fits rowsEn colsEn rowsNe colsNe := hr

/-- The step of the coupling operator at one quadrature point, for matrices that fit: the
result. -/
theorem Codim1CouplingIntegral.coupling_quadrature_step_eq {k : Nat} (self : Codim1CouplingIntegral k)
    (eT eA nT nA : LocalfunctionSetInterface) (intersection : Intersection k)
    (rowsEn colsEn rowsNe colsNe : Nat) (ret tmp : FourMatrices) (q : QuadraturePoint k)
    (hr : ret.fits rowsEn colsEn rowsNe colsNe)
    (hv : (self.evaluation_.evaluate eT eA nT nA q.position tmp).fits rowsEn colsEn rowsNe
      colsNe) :
    Codim1CouplingIntegral.quadrature_step self eT eA nT nA intersection rowsEn colsEn rowsNe
        colsNe (ret, tmp) q
      = Except.ok (ret.add_block (self.evaluation_.evaluate eT eA nT nA q.position tmp) rowsEn
          colsEn rowsNe colsNe (intersection.integrationElement q.position) q.weight,
          self.evaluation_.evaluate eT eA nT nA q.position tmp) := by
  obtain ⟨⟨v1, v2⟩, ⟨v3, v4⟩, ⟨v5, v6⟩, ⟨v7, v8⟩, v9⟩ := hv
  obtain ⟨⟨r1, r2⟩, ⟨r3, r4⟩, ⟨r5, r6⟩, ⟨r7, r8⟩, r9⟩ := hr
  simp only [Codim1CouplingIntegral.quadrature_step, assert, ge_iff_le, v1, v2, v3, v4,
    v5, v6, v8, v9, if_true, bind, Except.bind, pure, Except.pure,
    Codim1CouplingIntegral.add_rows_pair_eq _ _ _ _ _ _ _ _ _ r1 v1 r2 v2 r5 v5 r6 v6,
    Codim1CouplingIntegral.add_rows_pair_eq _ _ _ _ _ _ _ _ _ r3 v3 r4 v4 r7 v7 r8 v8]
  rfl

/-- The loop of the coupling operator over the quadrature points returns when the blocks and the
scratch matrices fit and the evaluation leaves the scratch matrices fitting. -/
theorem Codim1CouplingIntegral.coupling_quadrature_loop_ok {k : Nat} (self : Codim1CouplingIntegral k)
    (eT eA nT nA : LocalfunctionSetInterface) (intersection : Intersection k)
    (rowsEn colsEn rowsNe colsNe : Nat)
    (hsize : ∀ p tmp, tmp.fits rowsEn colsEn rowsNe colsNe →
      (self.evaluation_.evaluate eT eA nT nA p tmp).fits rowsEn colsEn rowsNe colsNe)
    (qs : List (QuadraturePoint k)) (ret tmp : FourMatrices)
    (hr : ret.fits rowsEn colsEn rowsNe colsNe) (htmp : tmp.fits rowsEn colsEn rowsNe colsNe) :
    ∃ state1, qs.foldlM
        (Codim1CouplingIntegral.quadrature_step self eT eA nT nA intersection rowsEn colsEn
          rowsNe colsNe)
        (ret, tmp) = Except.ok state1 := by
  induction qs generalizing ret tmp with
  | nil => exact ⟨(ret, tmp), rfl⟩
  | cons q qs ih =>
    have hs := hsize q.position tmp htmp
    obtain ⟨state1, h⟩ := ih
      (ret.add_block (self.evaluation_.evaluate eT eA nT nA q.position tmp) rowsEn colsEn rowsNe
        colsNe (intersection.integrationElement q.position) q.weight)
      (self.evaluation_.evaluate eT eA nT nA q.position tmp)
      (FourMatrices.fits_add_block _ _ _ _ _ _ _ _ hr) hs
    refine ⟨state1, ?_⟩
    rw [List.foldlM_cons, Codim1CouplingIntegral.coupling_quadrature_step_eq self eT eA nT nA intersection
      rowsEn colsEn rowsNe colsNe ret tmp q hr hs]
    exact h

/-- The loop of the coupling operator over the quadrature points, when the evaluation leaves the
scratch matrices fitting and with the values of `V p` in the four blocks: the result. -/
theorem Codim1CouplingIntegral.coupling_quadrature_loop_eq {k : Nat} (self : Codim1CouplingIntegral k)
    (eT eA nT nA : LocalfunctionSetInterface) (intersection : Intersection k)
    (rowsEn colsEn rowsNe colsNe : Nat) (V : Vec k → FourMatrices)
    (hsize : ∀ p tmp, tmp.fits rowsEn colsEn rowsNe colsNe →
      (self.evaluation_.evaluate eT eA nT nA p tmp).fits rowsEn colsEn rowsNe colsNe)
    (hvals : ∀ p tmp, tmp.fits rowsEn colsEn rowsNe colsNe →
      (∀ a b, a < rowsEn → b < colsEn →
        (self.evaluation_.evaluate eT eA nT nA p tmp).entityEntity.entry a b
          = (V p).entityEntity.entry a b) ∧
      (∀ a b, a < rowsNe → b < colsNe →
        (self.evaluation_.evaluate eT eA nT nA p tmp).neighborNeighbor.entry a b
          = (V p).neighborNeighbor.entry a b) ∧
      (∀ a b, a < rowsEn → b < colsNe →
        (self.evaluation_.evaluate eT eA nT nA p tmp).entityNeighbor.entry a b
          = (V p).entityNeighbor.entry a b) ∧
      (∀ a b, a < rowsNe → b < colsEn →
        (self.evaluation_.evaluate eT eA nT nA p tmp).neighborEntity.entry a b
          = (V p).neighborEntity.entry a b))
    (qs : List (QuadraturePoint k)) (ret tmp : FourMatrices)
    (hr : ret.fits rowsEn colsEn rowsNe colsNe) (htmp : tmp.fits rowsEn colsEn rowsNe colsNe) :
    ∃ tmp1, qs.foldlM
        (Codim1CouplingIntegral.quadrature_step self eT eA nT nA intersection rowsEn colsEn
          rowsNe colsNe)
        (ret, tmp)
      = Except.ok (ret.add_sum rowsEn colsEn rowsNe colsNe intersection qs V, tmp1) := by
  induction qs generalizing ret tmp with
  | nil =>
    refine ⟨tmp, ?_⟩
    simp only [List.foldlM_nil, FourMatrices.add_sum, add_sum_nil]
    rfl
  | cons q qs ih =>
    have hs := hsize q.position tmp htmp
    obtain ⟨hv1, hv2, hv3, hv4⟩ := hvals q.position tmp htmp
    obtain ⟨tmp1, h⟩ := ih
      (ret.add_block (self.evaluation_.evaluate eT eA nT nA q.position tmp) rowsEn colsEn rowsNe
        colsNe (intersection.integrationElement q.position) q.weight)
      (self.evaluation_.evaluate eT eA nT nA q.position tmp)
      (FourMatrices.fits_add_block _ _ _ _ _ _ _ _ hr) hs
    refine ⟨tmp1, ?_⟩
    rw [List.foldlM_cons, Codim1CouplingIntegral.coupling_quadrature_step_eq self eT eA nT nA intersection
      rowsEn colsEn rowsNe colsNe ret tmp q hr hs]
    show List.foldlM _ _ qs = _
    rw [h]
    simp only [FourMatrices.add_sum, FourMatrices.add_block]
    rw [add_sum_cons _ _ _ _ intersection (fun p => (V p).entityEntity) q qs hv1,
      add_sum_cons _ _ _ _ intersection (fun p => (V p).neighborNeighbor) q qs hv2,
      add_sum_cons _ _ _ _ intersection (fun p => (V p).entityNeighbor) q qs hv3,
      add_sum_cons _ _ _ _ intersection (fun p => (V p).neighborEntity) q qs hv4]

/-- The part of `Codim1CouplingIntegral::apply` before the loop over the quadrature points, when
the cast of the order succeeds and the blocks fit: `apply` is the loop, started from the reset
blocks and the first four scratch matrices. -/
theorem Codim1CouplingIntegral.coupling_apply_eq_loop {k : Nat} (self : Codim1CouplingIntegral k)
    (eT eA nT nA : LocalfunctionSetInterface) (intersection : Intersection k)
    (order : Nat) (ho : self.quadrature_order eT eA nT nA = Except.ok order)
    (ret : FourMatrices) (t0 t1 t2 t3 : DynamicMatrix) (rest : List DynamicMatrix)
    (hr : ret.fits eT.size eA.size nT.size nA.size) :
    Codim1CouplingIntegral.apply self eT eA nT nA intersection ret
        (t0 :: t1 :: t2 :: t3 :: rest)
      = ((intersection.rule order).foldlM
          (Codim1CouplingIntegral.quadrature_step self eT eA nT nA intersection eT.size eA.size
            nT.size nA.size)
          ({ entityEntity := ret.entityEntity.times_assign 0.0
             neighborNeighbor := ret.neighborNeighbor.times_assign 0.0
             entityNeighbor := ret.entityNeighbor.times_assign 0.0
             neighborEntity := ret.neighborEntity.times_assign 0.0 },
           { entityEntity := t0, neighborNeighbor := t1, entityNeighbor := t2,
             neighborEntity := t3 })).map
          (fun state => (state.1,
            ((((t0 :: t1 :: t2 :: t3 :: rest).set 0 state.2.entityEntity).set 1
              state.2.neighborNeighbor).set 2 state.2.entityNeighbor).set 3
              state.2.neighborEntity)) := by
  obtain ⟨⟨r1, r2⟩, ⟨r3, r4⟩, ⟨r5, r6⟩, ⟨r7, r8⟩, r9⟩ := hr
  have e1 : eT.size ≤ (ret.entityEntity.times_assign 0.0).rows := r1
  have e2 : eA.size ≤ (ret.entityEntity.times_assign 0.0).cols := r2
  have e3 : nT.size ≤ (ret.neighborNeighbor.times_assign 0.0).rows := r3
  have e4 : nA.size ≤ (ret.neighborNeighbor.times_assign 0.0).cols := r4
  have e5 : eT.size ≤ (ret.entityNeighbor.times_assign 0.0).rows := r5
  have e6 : nA.size ≤ (ret.entityNeighbor.times_assign 0.0).cols := r6
  have e8 : eA.size ≤ (ret.neighborEntity.times_assign 0.0).cols := r8
  have e9 : eT.size ≤ (ret.neighborEntity.times_assign 0.0).rows := r9
  have hlen : 4 ≤ (t0 :: t1 :: t2 :: t3 :: rest).length := by simp
  simp only [Codim1CouplingIntegral.apply, ho, assert, ge_iff_le, e1, e2, e3, e4, e5, e6, e8,
    e9, hlen, if_true, Codim1CouplingIntegral.numTmpObjectsRequired_, tmp_at,
    List.getElem?_cons_zero, List.getElem?_cons_succ, bind, Except.bind, pure, Except.pure,
    Except.map]

/-- The method `Codim1CouplingIntegral::apply` returns when the cast of the order succeeds, the
blocks and the first four scratch matrices fit and the evaluation leaves the scratch matrices
fitting. -/
theorem Codim1CouplingIntegral.coupling_apply_ok {k : Nat} (self : Codim1CouplingIntegral k)
    (eT eA nT nA : LocalfunctionSetInterface) (intersection : Intersection k)
    (order : Nat) (ho : self.quadrature_order eT eA nT nA = Except.ok order)
    (hsize : ∀ p tmp, tmp.fits eT.size eA.size nT.size nA.size →
      (self.evaluation_.evaluate eT eA nT nA p tmp).fits eT.size eA.size nT.size nA.size)
    (ret : FourMatrices) (t0 t1 t2 t3 : DynamicMatrix) (rest : List DynamicMatrix)
    (hr : ret.fits eT.size eA.size nT.size nA.size)
    (htmp : FourMatrices.fits
      { entityEntity := t0, neighborNeighbor := t1, entityNeighbor := t2, neighborEntity := t3 }
      eT.size eA.size nT.size nA.size) :
    ∃ out, Codim1CouplingIntegral.apply self eT eA nT nA intersection ret
        (t0 :: t1 :: t2 :: t3 :: rest) = Except.ok out := by
  obtain ⟨state1, h⟩ := Codim1CouplingIntegral.coupling_quadrature_loop_ok self eT eA nT nA
    intersection eT.size eA.size nT.size nA.size hsize (intersection.rule order)
    { entityEntity := ret.entityEntity.times_assign 0.0
      neighborNeighbor := ret.neighborNeighbor.times_assign 0.0
      entityNeighbor := ret.entityNeighbor.times_assign 0.0
      neighborEntity := ret.neighborEntity.times_assign 0.0 }
    { entityEntity := t0, neighborNeighbor := t1, entityNeighbor := t2, neighborEntity := t3 }
    hr htmp
  rw [Codim1CouplingIntegral.coupling_apply_eq_loop self eT eA nT nA intersection order ho ret t0 t1 t2
    t3 rest hr, h]
  exact ⟨_, rfl⟩

/-- The value of `Codim1CouplingIntegral::apply` when the cast of the order succeeds, the blocks
and the first four scratch matrices fit, and the evaluation leaves the scratch matrices fitting
and with the values of `V p` in the four blocks: the blocks are reset and the quadrature sums
are added. -/
theorem Codim1CouplingIntegral.coupling_apply_eq {k : Nat} (self : Codim1CouplingIntegral k)
    (eT eA nT nA : LocalfunctionSetInterface) (intersection : Intersection k)
    (V : Vec k → FourMatrices)
    (order : Nat) (ho : self.quadrature_order eT eA nT nA = Except.ok order)
    (hsize : ∀ p tmp, tmp.fits eT.size eA.size nT.size nA.size →
      (self.evaluation_.evaluate eT eA nT nA p tmp).fits eT.size eA.size nT.size nA.size)
    (hvals : ∀ p tmp, tmp.fits eT.size eA.size nT.size nA.size →
      (∀ a b, a < eT.size → b < eA.size →
        (self.evaluation_.evaluate eT eA nT nA p tmp).entityEntity.entry a b
          = (V p).entityEntity.entry a b) ∧
      (∀ a b, a < nT.size → b < nA.size →
        (self.evaluation_.evaluate eT eA nT nA p tmp).neighborNeighbor.entry a b
          = (V p).neighborNeighbor.entry a b) ∧
      (∀ a b, a < eT.size → b < nA.size →
        (self.evaluation_.evaluate eT eA nT nA p tmp).entityNeighbor.entry a b
          = (V p).entityNeighbor.entry a b) ∧
      (∀ a b, a < nT.size → b < eA.size →
        (self.evaluation_.evaluate eT eA nT nA p tmp).neighborEntity.entry a b
          = (V p).neighborEntity.entry a b))
    (ret : FourMatrices) (t0 t1 t2 t3 : DynamicMatrix) (rest : List DynamicMatrix)
    (hr : ret.fits eT.size eA.size nT.size nA.size)
    (htmp : FourMatrices.fits
      { entityEntity := t0, neighborNeighbor := t1, entityNeighbor := t2, neighborEntity := t3 }
      eT.size eA.size nT.size nA.size) :
    ∃ tmp1, Codim1CouplingIntegral.apply self eT eA nT nA intersection ret
        (t0 :: t1 :: t2 :: t3 :: rest)
      = Except.ok
          (FourMatrices.add_sum
            { entityEntity := ret.entityEntity.times_assign 0.0
              neighborNeighbor := ret.neighborNeighbor.times_assign 0.0
              entityNeighbor := ret.entityNeighbor.times_assign 0.0
              neighborEntity := ret.neighborEntity.times_assign 0.0 }
            eT.size eA.size nT.size nA.size intersection (intersection.rule order) V, tmp1) := by
  obtain ⟨tmp1, h⟩ := Codim1CouplingIntegral.coupling_quadrature_loop_eq self eT eA nT nA
    intersection eT.size eA.size nT.size nA.size V hsize hvals (intersection.rule order)
    { entityEntity := ret.entityEntity.times_assign 0.0
      neighborNeighbor := ret.neighborNeighbor.times_assign 0.0
      entityNeighbor := ret.entityNeighbor.times_assign 0.0
      neighborEntity := ret.neighborEntity.times_assign 0.0 }
    { entityEntity := t0, neighborNeighbor := t1, entityNeighbor := t2, neighborEntity := t3 }
    hr htmp
  rw [Codim1CouplingIntegral.coupling_apply_eq_loop self eT eA nT nA intersection order ho ret t0 t1 t2
    t3 rest hr, h]
  exact ⟨_, rfl⟩

/-- A property of the state that every successful step keeps is kept by a successful loop. -/
theorem foldlM_invariant {σ α : Type} (P : σ → Prop) (f : σ → α → Except Exc σ)
    (hf : ∀ s a s1, P s → f s a = Except.ok s1 → P s1) (l : List α) :
    ∀ s s1, P s → l.foldlM f s = Except.ok s1 → P s1 := by
  induction l with
  | nil =>
    intro s s1 hs h
    have e : s = s1 := Except.ok.inj h
    exact e ▸ hs
  | cons a l ih =>
    intro s s1 hs h
    rw [List.foldlM_cons] at h
    cases hfa : f s a with
    | error e =>
      rw [hfa] at h
      cases h
    | ok s2 =>
      rw [hfa] at h
      exact ih s2 s1 (hf s a s2 hs hfa) h

/-- The inner loop with zero values keeps a zero matrix zero. -/
theorem add_row_zero (ret vals ret1 : DynamicMatrix) (ii n : Nat) (f w : ℚ)
    (hvals : ∀ a b, vals.entry a b = 0) (hret : ∀ a b, ret.entry a b = 0)
    (h : add_row ret vals ii n f w = Except.ok ret1) : ∀ a b, ret1.entry a b = 0 := by
  refine foldlM_invariant (fun M : DynamicMatrix => ∀ a b, M.entry a b = 0) _ ?_ _ ret ret1 hret h
  intro s jj s1 hs hstep
  simp only [DynamicMatrix.read, DynamicMatrix.add_assign, bind, Except.bind, pure,
    Except.pure] at hstep
  split_ifs at hstep with h1 h2
  · have e := Except.ok.inj hstep
    subst e
    intro a b
    show (if a = ii ∧ b = jj then _ else _) = (0 : ℚ)
    split_ifs <;> simp [hs, hvals]

/-- The loops of the boundary operator at one point with zero values keep a zero matrix zero. -/
theorem Codim1BoundaryIntegral.add_rows_zero (ret vals ret1 : DynamicMatrix) (rows cols : Nat)
    (f w : ℚ) (hvals : ∀ a b, vals.entry a b = 0) (hret : ∀ a b, ret.entry a b = 0)
    (h : Codim1BoundaryIntegral.add_rows ret vals rows cols f w = Except.ok ret1) :
    ∀ a b, ret1.entry a b = 0 := by
  refine foldlM_invariant (fun M : DynamicMatrix => ∀ a b, M.entry a b = 0) _ ?_ _ ret ret1 hret h
  intro s ii s1 hs hstep
  simp only [DynamicMatrix.row, bind, Except.bind, pure, Except.pure] at hstep
  split_ifs at hstep with h1 h2
  · exact add_row_zero s vals s1 ii cols f w hvals hs hstep

/-- One of the loops of the coupling operator at one point with zero values keeps two zero
matrices zero. -/
theorem Codim1CouplingIntegral.add_rows_pair_zero (retA valsA : DynamicMatrix) (colsA : Nat)
    (retB valsB : DynamicMatrix) (colsB : Nat) (rows : Nat) (f w : ℚ)
    (rets1 : DynamicMatrix × DynamicMatrix)
    (hvalsA : ∀ a b, valsA.entry a b = 0) (hvalsB : ∀ a b, valsB.entry a b = 0)
    (hretA : ∀ a b, retA.entry a b = 0) (hretB : ∀ a b, retB.entry a b = 0)
    (h : Codim1CouplingIntegral.add_rows_pair retA valsA colsA retB valsB colsB rows f w
      = Except.ok rets1) :
    (∀ a b, rets1.1.entry a b = 0) ∧ (∀ a b, rets1.2.entry a b = 0) := by
  refine foldlM_invariant
    (fun M : DynamicMatrix × DynamicMatrix =>
      (∀ a b, M.1.entry a b = 0) ∧ (∀ a b, M.2.entry a b = 0))
    _ ?_ _ (retA, retB) rets1 ⟨hretA, hretB⟩ h
  intro s ii s1 hs hstep
  simp only [DynamicMatrix.row, bind, Except.bind, pure, Except.pure] at hstep
  split_ifs at hstep with h1 h2 h3 h4
  · cases hA : add_row s.1 valsA ii colsA f w with
    | error e =>
      rw [hA] at hstep
      cases hstep
    | ok rA =>
      rw [hA] at hstep
      cases hB : add_row s.2 valsB ii colsB f w with
      | error e =>
        rw [hB] at hstep
        cases hstep
      | ok rB =>
        rw [hB] at hstep
        have e := Except.ok.inj hstep
        subst e
        exact ⟨add_row_zero s.1 valsA rA ii colsA f w hvalsA hs.1 hA,
          add_row_zero s.2 valsB rB ii colsB f w hvalsB hs.2 hB⟩

/-- The loop of the boundary operator over the quadrature points keeps `ret` zero when every
evaluation leaves zero values. -/
theorem Codim1BoundaryIntegral.boundary_quadrature_loop_zero {k : Nat} (self : Codim1BoundaryIntegral k)
    (testBase ansatzBase : LocalfunctionSetInterface) (intersection : Intersection k)
    (rows cols : Nat)
    (hE : ∀ p tmp a b, (self.evaluation_.evaluate testBase ansatzBase p tmp).entry a b = 0)
    (qs : List (QuadraturePoint k)) (state state1 : DynamicMatrix × DynamicMatrix)
    (hret : ∀ a b, state.1.entry a b = 0)
    (h : qs.foldlM
        (Codim1BoundaryIntegral.quadrature_step self testBase ansatzBase intersection rows cols)
        state = Except.ok state1) :
    ∀ a b, state1.1.entry a b = 0 := by
  refine foldlM_invariant (fun M : DynamicMatrix × DynamicMatrix => ∀ a b, M.1.entry a b = 0)
    _ ?_ _ state state1 hret h
  intro s q s1 hs hstep
  simp only [Codim1BoundaryIntegral.quadrature_step, assert, bind, Except.bind, pure,
    Except.pure] at hstep
  split_ifs at hstep with h1 h2
  cases hA : Codim1BoundaryIntegral.add_rows s.1
      (self.evaluation_.evaluate testBase ansatzBase q.position s.2) rows cols
      (intersection.integrationElement q.position) q.weight with
  | error e =>
    rw [hA] at hstep
    cases hstep
  | ok r =>
    rw [hA] at hstep
    have e := Except.ok.inj hstep
    subst e
    exact Codim1BoundaryIntegral.add_rows_zero _ _ _ _ _ _ _ (hE _ _) hs hA

/-- Whenever `Codim1BoundaryIntegral::apply` returns and every evaluation leaves zero values,
`ret` is zero afterwards. -/
theorem Codim1BoundaryIntegral.boundary_apply_zero {k : Nat} (self : Codim1BoundaryIntegral k)
    (testBase ansatzBase : LocalfunctionSetInterface) (intersection : Intersection k)
    (hE : ∀ p tmp a b, (self.evaluation_.evaluate testBase ansatzBase p tmp).entry a b = 0)
    (ret : DynamicMatrix) (tmpLocalMatrices : List DynamicMatrix)
    (out : DynamicMatrix × List DynamicMatrix)
    (h : Codim1BoundaryIntegral.apply self testBase ansatzBase intersection ret tmpLocalMatrices
      = Except.ok out) :
    ∀ a b, out.1.entry a b = 0 := by
  simp only [Codim1BoundaryIntegral.apply, assert, bind, Except.bind, pure, Except.pure] at h
  cases ho : self.quadrature_order testBase ansatzBase with
  | error e =>
    rw [ho] at h
    cases h
  | ok order =>
    rw [ho] at h
    simp only at h
    split_ifs at h with h1 h2 h3
    cases ht : tmp_at tmpLocalMatrices 0 with
    | error e =>
      rw [ht] at h
      cases h
    | ok localMatrix =>
      rw [ht] at h
      simp only at h
      cases hl : (intersection.rule order).foldlM
          (Codim1BoundaryIntegral.quadrature_step self testBase ansatzBase intersection
            testBase.size ansatzBase.size) (ret.times_assign 0.0, localMatrix) with
      | error e =>
        rw [hl] at h
        cases h
      | ok state1 =>
        rw [hl] at h
        have e := Except.ok.inj h
        subst e
        refine Codim1BoundaryIntegral.boundary_quadrature_loop_zero self testBase ansatzBase intersection
          _ _ hE _ _ state1 ?_ hl
        intro a b
        show ret.entry a b * 0.0 = 0
        norm_num

/-- The loop of the coupling operator over the quadrature points keeps the four blocks zero when
every evaluation leaves zero values. -/
theorem Codim1CouplingIntegral.coupling_quadrature_loop_zero {k : Nat} (self : Codim1CouplingIntegral k)
    (eT eA nT nA : LocalfunctionSetInterface) (intersection : Intersection k)
    (rowsEn colsEn rowsNe colsNe : Nat)
    (hE : ∀ p tmp a b,
      (self.evaluation_.evaluate eT eA nT nA p tmp).entityEntity.entry a b = 0 ∧
      (self.evaluation_.evaluate eT eA nT nA p tmp).neighborNeighbor.entry a b = 0 ∧
      (self.evaluation_.evaluate eT eA nT nA p tmp).entityNeighbor.entry a b = 0 ∧
      (self.evaluation_.evaluate eT eA nT nA p tmp).neighborEntity.entry a b = 0)
    (qs : List (QuadraturePoint k)) (state state1 : FourMatrices × FourMatrices)
    (hret : ∀ a b, state.1.entityEntity.entry a b = 0 ∧ state.1.neighborNeighbor.entry a b = 0 ∧
      state.1.entityNeighbor.entry a b = 0 ∧ state.1.neighborEntity.entry a b = 0)
    (h : qs.foldlM
        (Codim1CouplingIntegral.quadrature_step self eT eA nT nA intersection rowsEn colsEn
          rowsNe colsNe)
        state = Except.ok state1) :
    ∀ a b, state1.1.entityEntity.entry a b = 0 ∧ state1.1.neighborNeighbor.entry a b = 0 ∧
      state1.1.entityNeighbor.entry a b = 0 ∧ state1.1.neighborEntity.entry a b = 0 := by
  refine foldlM_invariant
    (fun M : FourMatrices × FourMatrices =>
      ∀ a b, M.1.entityEntity.entry a b = 0 ∧ M.1.neighborNeighbor.entry a b = 0 ∧
        M.1.entityNeighbor.entry a b = 0 ∧ M.1.neighborEntity.entry a b = 0)
    _ ?_ _ state state1 hret h
  intro s q s1 hs hstep
  simp only [Codim1CouplingIntegral.quadrature_step, assert, bind, Except.bind, pure,
    Except.pure] at hstep
  split_ifs at hstep
  cases hA : Codim1CouplingIntegral.add_rows_pair s.1.entityEntity
      (self.evaluation_.evaluate eT eA nT nA q.position s.2).entityEntity colsEn
      s.1.entityNeighbor (self.evaluation_.evaluate eT eA nT nA q.position s.2).entityNeighbor
      colsNe rowsEn (intersection.integrationElement q.position) q.weight with
  | error e =>
    rw [hA] at hstep
    cases hstep
  | ok rA =>
    rw [hA] at hstep
    simp only at hstep
    cases hB : Codim1CouplingIntegral.add_rows_pair s.1.neighborNeighbor
        (self.evaluation_.evaluate eT eA nT nA q.position s.2).neighborNeighbor colsNe
        s.1.neighborEntity (self.evaluation_.evaluate eT eA nT nA q.position s.2).neighborEntity
        colsEn rowsNe (intersection.integrationElement q.position) q.weight with
    | error e =>
      rw [hB] at hstep
      cases hstep
    | ok rB =>
      rw [hB] at hstep
      have e := Except.ok.inj hstep
      subst e
      have zA := Codim1CouplingIntegral.add_rows_pair_zero _ _ _ _ _ _ _ _ _ rA
        (fun a b => (hE q.position s.2 a b).1) (fun a b => (hE q.position s.2 a b).2.2.1)
        (fun a b => (hs a b).1) (fun a b => (hs a b).2.2.1) hA
      have zB := Codim1CouplingIntegral.add_rows_pair_zero _ _ _ _ _ _ _ _ _ rB
        (fun a b => (hE q.position s.2 a b).2.1) (fun a b => (hE q.position s.2 a b).2.2.2)
        (fun a b => (hs a b).2.1) (fun a b => (hs a b).2.2.2) hB
      intro a b
      exact ⟨zA.1 a b, zB.1 a b, zA.2 a b, zB.2 a b⟩

/-- Whenever `Codim1CouplingIntegral::apply` returns and every evaluation leaves zero values,
the four output blocks are zero afterwards. -/
theorem Codim1CouplingIntegral.coupling_apply_zero {k : Nat} (self : Codim1CouplingIntegral k)
    (eT eA nT nA : LocalfunctionSetInterface) (intersection : Intersection k)
    (hE : ∀ p tmp a b,
      (self.evaluation_.evaluate eT eA nT nA p tmp).entityEntity.entry a b = 0 ∧
      (self.evaluation_.evaluate eT eA nT nA p tmp).neighborNeighbor.entry a b = 0 ∧
      (self.evaluation_.evaluate eT eA nT nA p tmp).entityNeighbor.entry a b = 0 ∧
      (self.evaluation_.evaluate eT eA nT nA p tmp).neighborEntity.entry a b = 0)
    (ret : FourMatrices) (tmpLocalMatrices : List DynamicMatrix)
    (out : FourMatrices × List DynamicMatrix)
    (h : Codim1CouplingIntegral.apply self eT eA nT nA intersection ret tmpLocalMatrices
      = Except.ok out) :
    ∀ a b, out.1.entityEntity.entry a b = 0 ∧ out.1.neighborNeighbor.entry a b = 0 ∧
      out.1.entityNeighbor.entry a b = 0 ∧ out.1.neighborEntity.entry a b = 0 := by
  simp only [Codim1CouplingIntegral.apply, assert, bind, Except.bind, pure, Except.pure] at h
  cases ho : self.quadrature_order eT eA nT nA with
  | error e =>
    rw [ho] at h
    cases h
  | ok order =>
    rw [ho] at h
    simp only at h
    split_ifs at h
    cases ht0 : tmp_at tmpLocalMatrices 0 with
    | error e =>
      rw [ht0] at h
      cases h
    | ok t0 =>
      rw [ht0] at h
      simp only at h
      cases ht1 : tmp_at tmpLocalMatrices 1 with
      | error e =>
        rw [ht1] at h
        cases h
      | ok t1 =>
        rw [ht1] at h
        simp only at h
        cases ht2 : tmp_at tmpLocalMatrices 2 with
        | error e =>
          rw [ht2] at h
          cases h
        | ok t2 =>
          rw [ht2] at h
          simp only at h
          cases ht3 : tmp_at tmpLocalMatrices 3 with
          | error e =>
            rw [ht3] at h
            cases h
          | ok t3 =>
            rw [ht3] at h
            simp only at h
            cases hl : (intersection.rule order).foldlM
                (Codim1CouplingIntegral.quadrature_step self eT eA nT nA intersection eT.size
                  eA.size nT.size nA.size)
                ({ entityEntity := ret.entityEntity.times_assign 0.0
                   neighborNeighbor := ret.neighborNeighbor.times_assign 0.0
                   entityNeighbor := ret.entityNeighbor.times_assign 0.0
                   neighborEntity := ret.neighborEntity.times_assign 0.0 },
                 { entityEntity := t0, neighborNeighbor := t1, entityNeighbor := t2,
                   neighborEntity := t3 }) with
            | error e =>
              rw [hl] at h
              cases h
            | ok state1 =>
              rw [hl] at h
              have e := Except.ok.inj h
              subst e
              refine Codim1CouplingIntegral.coupling_quadrature_loop_zero self eT eA nT nA intersection
                _ _ _ _ hE _ _ state1 ?_ hl
              intro a b
              have z : ∀ x : ℚ, x * 0.0 = 0 := by
                intro x
                norm_num
              exact ⟨z _, z _, z _, z _⟩

end LocalOperator

namespace LocalOperator

/-- C13, the code at a neighbor with more test functions than the entity (`rowsEn = 1`,
`colsEn = 1`, `rowsNe = 2`, `colsNe = 1`). The four blocks satisfy the eight assertions on their
sizes as the code states them, the neighbor/entity block with its one row because the assertion
compares with `rowsEn`; the scratch matrices have the same sizes and the evaluation keeps them.
The loop over the two neighbor test functions then takes row 1 of the neighbor/entity block,
outside the matrix: `apply` ends out of range, not with a failed assertion. -/
theorem Codim1CouplingIntegral.apply_out_of_range :
    (small_neighborEntity_blocks.entityEntity.rows ≥ 1 ∧
      small_neighborEntity_blocks.entityEntity.cols ≥ 1 ∧
      small_neighborEntity_blocks.neighborNeighbor.rows ≥ 2 ∧
      small_neighborEntity_blocks.neighborNeighbor.cols ≥ 1 ∧
      small_neighborEntity_blocks.entityNeighbor.rows ≥ 1 ∧
      small_neighborEntity_blocks.entityNeighbor.cols ≥ 1 ∧
      small_neighborEntity_blocks.neighborEntity.rows ≥ 1 ∧
      small_neighborEntity_blocks.neighborEntity.cols ≥ 1) ∧
    ¬ small_neighborEntity_blocks.neighborEntity.rows ≥ 2 ∧
    Codim1CouplingIntegral.apply (Codim1CouplingIntegral.ctor unit_quaternary_evaluation)
        { size := 1, order := 1 } { size := 1, order := 1 } { size := 2, order := 1 }
        { size := 1, order := 1 } example_intersection small_neighborEntity_blocks
        [zero_matrix 1 1, zero_matrix 2 1, zero_matrix 1 1, zero_matrix 1 1]
      = Except.error Exc.index_out_of_range ∧
    Codim1CouplingIntegral.apply (Codim1CouplingIntegral.ctor unit_quaternary_evaluation)
        { size := 1, order := 1 } { size := 1, order := 1 } { size := 2, order := 1 }
        { size := 1, order := 1 } example_intersection small_neighborEntity_blocks
        [zero_matrix 1 1, zero_matrix 2 1, zero_matrix 1 1, zero_matrix 1 1]
      ≠ Except.error Exc.assertion_failed := by
  have h : Codim1CouplingIntegral.apply (Codim1CouplingIntegral.ctor unit_quaternary_evaluation)
      { size := 1, order := 1 } { size := 1, order := 1 } { size := 2, order := 1 }
      { size := 1, order := 1 } example_intersection small_neighborEntity_blocks
      [zero_matrix 1 1, zero_matrix 2 1, zero_matrix 1 1, zero_matrix 1 1]
      = Except.error Exc.index_out_of_range := rfl
  refine ⟨?_, ?_, h, ?_⟩
  · simp [small_neighborEntity_blocks, zero_matrix]
  · simp [small_neighborEntity_blocks, zero_matrix]
  · rw [h]
    intro hc
    cases hc

/-- C15. For `Codim1BoundaryIntegral::apply` with buffers that satisfy the assertions (`ret` and
the scratch matrix hold the block of the two bases, also after each evaluation, and the
quadrature order fits an `int`), when the evaluation leaves the values of `V_q` at the point
`q`: the call returns, `ret[a][b]` is the sum over the quadrature points of
`V_q[a][b] * integrationElement_q * weight_q` for `a < testBase.size()` and
`b < ansatzBase.size()`, and every other entry of `ret` is zero. -/
theorem Codim1BoundaryIntegral.apply_quadrature_sum {k : Nat} (self : Codim1BoundaryIntegral k)
    (testBase ansatzBase : LocalfunctionSetInterface) (intersection : Intersection k)
    (V : Vec k → DynamicMatrix)
    (order : Nat) (ho : self.quadrature_order testBase ansatzBase = Except.ok order)
    (hsize : ∀ p tmp, testBase.size ≤ tmp.rows ∧ ansatzBase.size ≤ tmp.cols →
      testBase.size ≤ (self.evaluation_.evaluate testBase ansatzBase p tmp).rows ∧
      ansatzBase.size ≤ (self.evaluation_.evaluate testBase ansatzBase p tmp).cols)
    (hvals : ∀ p tmp, testBase.size ≤ tmp.rows ∧ ansatzBase.size ≤ tmp.cols →
      ∀ a b, a < testBase.size → b < ansatzBase.size →
      (self.evaluation_.evaluate testBase ansatzBase p tmp).entry a b = (V p).entry a b)
    (ret localMatrix : DynamicMatrix) (rest : List DynamicMatrix)
    (h1 : testBase.size ≤ ret.rows) (h3 : ansatzBase.size ≤ ret.cols)
    (htmp : testBase.size ≤ localMatrix.rows ∧ ansatzBase.size ≤ localMatrix.cols) :
    ∃ out, Codim1BoundaryIntegral.apply self testBase ansatzBase intersection ret
        (localMatrix :: rest) = Except.ok out ∧
      (∀ a b, a < testBase.size → b < ansatzBase.size →
        out.1.entry a b =
          ((intersection.rule order).map fun q =>
            (V q.position).entry a b * intersection.integrationElement q.position
              * q.weight).sum) ∧
      (∀ a b, ¬ (a < testBase.size ∧ b < ansatzBase.size) → out.1.entry a b = 0) := by
  obtain ⟨tmp1, h⟩ := Codim1BoundaryIntegral.boundary_apply_eq self testBase ansatzBase intersection V
    order ho hsize hvals ret localMatrix rest h1 h3 htmp
  refine ⟨_, h, ?_, ?_⟩
  · intro a b ha hb
    show ret.entry a b * 0.0 + (if a < testBase.size ∧ b < ansatzBase.size then _ else 0) = _
    rw [if_pos ⟨ha, hb⟩]
    simp only [quadrature_sum]
    norm_num
  · intro a b hab
    show ret.entry a b * 0.0 + (if a < testBase.size ∧ b < ansatzBase.size then _ else 0) = _
    rw [if_neg hab]
    norm_num

/-- C15 at two bases of size 2 and order 1, a `3 × 3` matrix `ret` that holds 7 everywhere, the
face with integration element 2 and the two-point rule, and the values `(a + 1) p + b`: the
entries are `(a + 1) + 2 b`, and zero outside the `2 × 2` block. -/
theorem Codim1BoundaryIntegral.apply_quadrature_sum_witness :
    ∃ out, Codim1BoundaryIntegral.apply (Codim1BoundaryIntegral.ctor example_binary_evaluation)
        { size := 2, order := 1 } { size := 2, order := 1 } example_intersection
        { rows := 3, cols := 3, entry := fun _ _ => 7 } [zero_matrix 2 2] = Except.ok out ∧
      out.1.entry 0 0 = 1 ∧ out.1.entry 0 1 = 3 ∧ out.1.entry 1 0 = 2 ∧ out.1.entry 1 1 = 4 ∧
      out.1.entry 2 2 = 0 := by
  obtain ⟨out, h, hin, hout⟩ := Codim1BoundaryIntegral.apply_quadrature_sum
    (Codim1BoundaryIntegral.ctor example_binary_evaluation)
    { size := 2, order := 1 } { size := 2, order := 1 } example_intersection example_values
    2 rfl (fun _ _ _ => ⟨le_refl 2, le_refl 2⟩) (fun _ _ _ _ _ _ _ => rfl)
    { rows := 3, cols := 3, entry := fun _ _ => 7 } (zero_matrix 2 2) []
    (by decide) (by decide) ⟨le_refl 2, le_refl 2⟩
  refine ⟨out, h, ?_, ?_, ?_, ?_, ?_⟩
  · rw [hin 0 0 (by decide) (by decide)]
    norm_num [example_intersection, example_values]
  · rw [hin 0 1 (by decide) (by decide)]
    norm_num [example_intersection, example_values]
  · rw [hin 1 0 (by decide) (by decide)]
    norm_num [example_intersection, example_values]
  · rw [hin 1 1 (by decide) (by decide)]
    norm_num [example_intersection, example_values]
  · exact hout 2 2 (by decide)

/-- C16. The method `Codim1CouplingIntegral::apply` produces four blocks, each the quadrature sum
of its own values: when the blocks and scratch matrices fit (also after each evaluation), the
quadrature order fits an `int` and the evaluation leaves the values of `V_q` at the point `q`,
the call returns and `entityEntityRet[a][b]` (`a < rowsEn`, `b < colsEn`),
`neighborNeighborRet[a][b]` (`a < rowsNe`, `b < colsNe`), `entityNeighborRet[a][b]`
(`a < rowsEn`, `b < colsNe`) and `neighborEntityRet[a][b]` (`a < rowsNe`, `b < colsEn`) are the
sums over the quadrature points of the entry of the matching matrix of `V_q` times
`integrationElement_q * weight_q`; nothing of another block's values enters. -/
theorem Codim1CouplingIntegral.apply_quadrature_sums {k : Nat} (self : Codim1CouplingIntegral k)
    (eT eA nT nA : LocalfunctionSetInterface) (intersection : Intersection k)
    (V : Vec k → FourMatrices)
    (order : Nat) (ho : self.quadrature_order eT eA nT nA = Except.ok order)
    (hsize : ∀ p tmp, tmp.fits eT.size eA.size nT.size nA.size →
      (self.evaluation_.evaluate eT eA nT nA p tmp).fits eT.size eA.size nT.size nA.size)
    (hvals : ∀ p tmp, tmp.fits eT.size eA.size nT.size nA.size →
      (∀ a b, a < eT.size → b < eA.size →
        (self.evaluation_.evaluate eT eA nT nA p tmp).entityEntity.entry a b
          = (V p).entityEntity.entry a b) ∧
      (∀ a b, a < nT.size → b < nA.size →
        (self.evaluation_.evaluate eT eA nT nA p tmp).neighborNeighbor.entry a b
          = (V p).neighborNeighbor.entry a b) ∧
      (∀ a b, a < eT.size → b < nA.size →
        (self.evaluation_.evaluate eT eA nT nA p tmp).entityNeighbor.entry a b
          = (V p).entityNeighbor.entry a b) ∧
      (∀ a b, a < nT.size → b < eA.size →
        (self.evaluation_.evaluate eT eA nT nA p tmp).neighborEntity.entry a b
          = (V p).neighborEntity.entry a b))
    (ret : FourMatrices) (t0 t1 t2 t3 : DynamicMatrix) (rest : List DynamicMatrix)
    (hr : ret.fits eT.size eA.size nT.size nA.size)
    (htmp : FourMatrices.fits
      { entityEntity := t0, neighborNeighbor := t1, entityNeighbor := t2, neighborEntity := t3 }
      eT.size eA.size nT.size nA.size) :
    ∃ out, Codim1CouplingIntegral.apply self eT eA nT nA intersection ret
        (t0 :: t1 :: t2 :: t3 :: rest) = Except.ok out ∧
      (∀ a b, a < eT.size → b < eA.size →
        out.1.entityEntity.entry a b =
          ((intersection.rule order).map fun q =>
            (V q.position).entityEntity.entry a b * intersection.integrationElement q.position
              * q.weight).sum) ∧
      (∀ a b, a < nT.size → b < nA.size →
        out.1.neighborNeighbor.entry a b =
          ((intersection.rule order).map fun q =>
            (V q.position).neighborNeighbor.entry a b
              * intersection.integrationElement q.position * q.weight).sum) ∧
      (∀ a b, a < eT.size → b < nA.size →
        out.1.entityNeighbor.entry a b =
          ((intersection.rule order).map fun q =>
            (V q.position).entityNeighbor.entry a b * intersection.integrationElement q.position
              * q.weight).sum) ∧
      (∀ a b, a < nT.size → b < eA.size →
        out.1.neighborEntity.entry a b =
          ((intersection.rule order).map fun q =>
            (V q.position).neighborEntity.entry a b * intersection.integrationElement q.position
              * q.weight).sum) := by
  obtain ⟨tmp1, h⟩ := Codim1CouplingIntegral.coupling_apply_eq self eT eA nT nA intersection V
    order ho hsize hvals ret t0 t1 t2 t3 rest hr htmp
  refine ⟨_, h, ?_, ?_, ?_, ?_⟩
  · intro a b ha hb
    show ret.entityEntity.entry a b * 0.0 + (if a < eT.size ∧ b < eA.size then _ else 0) = _
    rw [if_pos ⟨ha, hb⟩]
    simp only [quadrature_sum]
    norm_num
  · intro a b ha hb
    show ret.neighborNeighbor.entry a b * 0.0 + (if a < nT.size ∧ b < nA.size then _ else 0) = _
    rw [if_pos ⟨ha, hb⟩]
    simp only [quadrature_sum]
    norm_num
  · intro a b ha hb
    show ret.entityNeighbor.entry a b * 0.0 + (if a < eT.size ∧ b < nA.size then _ else 0) = _
    rw [if_pos ⟨ha, hb⟩]
    simp only [quadrature_sum]
    norm_num
  · intro a b ha hb
    show ret.neighborEntity.entry a b * 0.0 + (if a < nT.size ∧ b < eA.size then _ else 0) = _
    rw [if_pos ⟨ha, hb⟩]
    simp only [quadrature_sum]
    norm_num

/-- C16 at an entity with one test and two ansatz functions and a neighbor with two test and
one ansatz function, `2 × 2` blocks and scratch matrices, the face with integration element 2
and the two-point rule, and the values `p`, `2 p`, `3 p`, `4 p`: the four blocks hold `1`, `2`,
`3` and `4`. -/
theorem Codim1CouplingIntegral.apply_quadrature_sums_witness :
    ∃ out, Codim1CouplingIntegral.apply
        (Codim1CouplingIntegral.ctor example_quaternary_evaluation)
        { size := 1, order := 1 } { size := 2, order := 1 } { size := 2, order := 1 }
        { size := 1, order := 1 } example_intersection
        { entityEntity := zero_matrix 2 2, neighborNeighbor := zero_matrix 2 2,
          entityNeighbor := zero_matrix 2 2, neighborEntity := zero_matrix 2 2 }
        [zero_matrix 2 2, zero_matrix 2 2, zero_matrix 2 2, zero_matrix 2 2] = Except.ok out ∧
      out.1.entityEntity.entry 0 1 = 1 ∧ out.1.neighborNeighbor.entry 1 0 = 2 ∧
      out.1.entityNeighbor.entry 0 0 = 3 ∧ out.1.neighborEntity.entry 1 1 = 4 := by
  have hfit : ∀ p : Vec 1, (example_four_values p).fits 1 2 2 1 := by
    intro p
    simp [FourMatrices.fits, example_four_values]
  have hzero : FourMatrices.fits
      { entityEntity := zero_matrix 2 2, neighborNeighbor := zero_matrix 2 2,
        entityNeighbor := zero_matrix 2 2, neighborEntity := zero_matrix 2 2 } 1 2 2 1 := by
    simp [FourMatrices.fits, zero_matrix]
  obtain ⟨out, h, h1, h2, h3, h4⟩ := Codim1CouplingIntegral.apply_quadrature_sums
    (Codim1CouplingIntegral.ctor example_quaternary_evaluation)
    { size := 1, order := 1 } { size := 2, order := 1 } { size := 2, order := 1 }
    { size := 1, order := 1 } example_intersection example_four_values
    2 rfl (fun p _ _ => hfit p)
    (fun _ _ _ => ⟨fun _ _ _ _ => rfl, fun _ _ _ _ => rfl, fun _ _ _ _ => rfl,
      fun _ _ _ _ => rfl⟩)
    { entityEntity := zero_matrix 2 2, neighborNeighbor := zero_matrix 2 2,
      entityNeighbor := zero_matrix 2 2, neighborEntity := zero_matrix 2 2 }
    (zero_matrix 2 2) (zero_matrix 2 2) (zero_matrix 2 2) (zero_matrix 2 2) [] hzero hzero
  refine ⟨out, h, ?_, ?_, ?_, ?_⟩
  · rw [h1 0 1 (by decide) (by decide)]
    norm_num [example_intersection, example_four_values]
  · rw [h2 1 0 (by decide) (by decide)]
    norm_num [example_intersection, example_four_values]
  · rw [h3 0 0 (by decide) (by decide)]
    norm_num [example_intersection, example_four_values]
  · rw [h4 1 1 (by decide) (by decide)]
    norm_num [example_intersection, example_four_values]

/-- C14. For both face integrals, every quadrature rule and all basis sizes: when the evaluation
leaves zero values at every quadrature point (inducing function zero), every entry of every
output block is zero after `apply`, whatever the blocks held before; and `apply` does return
when the order fits an `int` and the blocks and the scratch matrices hold their index ranges,
also after each evaluation. -/
theorem apply_zero_evaluation {k : Nat}
    (boundary : Codim1BoundaryIntegral k) (testBase ansatzBase : LocalfunctionSetInterface)
    (coupling : Codim1CouplingIntegral k) (eT eA nT nA : LocalfunctionSetInterface)
    (intersection : Intersection k)
    (ret : DynamicMatrix) (rets : FourMatrices) (tmpB tmpC : List DynamicMatrix)
    (hB : ∀ p tmp a b, (boundary.evaluation_.evaluate testBase ansatzBase p tmp).entry a b = 0)
    (hC : ∀ p tmp a b,
      (coupling.evaluation_.evaluate eT eA nT nA p tmp).entityEntity.entry a b = 0 ∧
      (coupling.evaluation_.evaluate eT eA nT nA p tmp).neighborNeighbor.entry a b = 0 ∧
      (coupling.evaluation_.evaluate eT eA nT nA p tmp).entityNeighbor.entry a b = 0 ∧
      (coupling.evaluation_.evaluate eT eA nT nA p tmp).neighborEntity.entry a b = 0) :
    (∀ out, Codim1BoundaryIntegral.apply boundary testBase ansatzBase intersection ret tmpB
        = Except.ok out → ∀ a b, out.1.entry a b = 0) ∧
    (∀ out, Codim1CouplingIntegral.apply coupling eT eA nT nA intersection rets tmpC
        = Except.ok out →
      ∀ a b, out.1.entityEntity.entry a b = 0 ∧ out.1.neighborNeighbor.entry a b = 0 ∧
        out.1.entityNeighbor.entry a b = 0 ∧ out.1.neighborEntity.entry a b = 0) ∧
    (∀ localMatrix rest, tmpB = localMatrix :: rest →
      (∃ order, boundary.quadrature_order testBase ansatzBase = Except.ok order) →
      (∀ p tmp, testBase.size ≤ tmp.rows ∧ ansatzBase.size ≤ tmp.cols →
        testBase.size ≤ (boundary.evaluation_.evaluate testBase ansatzBase p tmp).rows ∧
        ansatzBase.size ≤ (boundary.evaluation_.evaluate testBase ansatzBase p tmp).cols) →
      testBase.size ≤ ret.rows → ansatzBase.size ≤ ret.cols →
      testBase.size ≤ localMatrix.rows ∧ ansatzBase.size ≤ localMatrix.cols →
      ∃ out, Codim1BoundaryIntegral.apply boundary testBase ansatzBase intersection ret tmpB
        = Except.ok out) ∧
    (∀ t0 t1 t2 t3 rest, tmpC = t0 :: t1 :: t2 :: t3 :: rest →
      (∃ order, coupling.quadrature_order eT eA nT nA = Except.ok order) →
      (∀ p tmp, tmp.fits eT.size eA.size nT.size nA.size →
        (coupling.evaluation_.evaluate eT eA nT nA p tmp).fits eT.size eA.size nT.size
          nA.size) →
      rets.fits eT.size eA.size nT.size nA.size →
      FourMatrices.fits
        { entityEntity := t0, neighborNeighbor := t1, entityNeighbor := t2,
          neighborEntity := t3 } eT.size eA.size nT.size nA.size →
      ∃ out, Codim1CouplingIntegral.apply coupling eT eA nT nA intersection rets tmpC
        = Except.ok out) := by
  refine ⟨?_, ?_, ?_, ?_⟩
  · intro out h
    exact Codim1BoundaryIntegral.boundary_apply_zero boundary testBase ansatzBase intersection hB ret
      tmpB out h
  · intro out h
    exact Codim1CouplingIntegral.coupling_apply_zero coupling eT eA nT nA intersection hC rets
      tmpC out h
  · rintro localMatrix rest rfl ⟨order, ho⟩ hsize h1 h3 htmp
    exact Codim1BoundaryIntegral.boundary_apply_ok boundary testBase ansatzBase intersection order ho
      hsize ret localMatrix rest h1 h3 htmp
  · rintro t0 t1 t2 t3 rest rfl ⟨order, ho⟩ hsize hr htmp
    exact Codim1CouplingIntegral.coupling_apply_ok coupling eT eA nT nA intersection order ho hsize rets
      t0 t1 t2 t3 rest hr htmp

/-- C14 at the evaluations that write zeros, bases of size 2, the face with the two-point rule
and blocks that hold 7 everywhere: both calls return, and the entries `(0, 0)` and `(1, 1)` of
`ret` and of the blocks are zero. -/
theorem apply_zero_evaluation_witness :
    (∃ out, Codim1BoundaryIntegral.apply (Codim1BoundaryIntegral.ctor zero_binary_evaluation)
        { size := 2, order := 1 } { size := 2, order := 1 } example_intersection
        { rows := 2, cols := 2, entry := fun _ _ => 7 } [zero_matrix 2 2] = Except.ok out ∧
      out.1.entry 0 0 = 0 ∧ out.1.entry 1 1 = 0) ∧
    (∃ out, Codim1CouplingIntegral.apply
        (Codim1CouplingIntegral.ctor zero_quaternary_evaluation)
        { size := 2, order := 1 } { size := 2, order := 1 } { size := 2, order := 1 }
        { size := 2, order := 1 } example_intersection
        { entityEntity := { rows := 2, cols := 2, entry := fun _ _ => 7 }
          neighborNeighbor := { rows := 2, cols := 2, entry := fun _ _ => 7 }
          entityNeighbor := { rows := 2, cols := 2, entry := fun _ _ => 7 }
          neighborEntity := { rows := 2, cols := 2, entry := fun _ _ => 7 } }
        [zero_matrix 2 2, zero_matrix 2 2, zero_matrix 2 2, zero_matrix 2 2] = Except.ok out ∧
      out.1.entityEntity.entry 0 0 = 0 ∧ out.1.neighborEntity.entry 1 1 = 0) := by
  have key := apply_zero_evaluation (Codim1BoundaryIntegral.ctor zero_binary_evaluation)
    { size := 2, order := 1 } { size := 2, order := 1 }
    (Codim1CouplingIntegral.ctor zero_quaternary_evaluation)
    { size := 2, order := 1 } { size := 2, order := 1 } { size := 2, order := 1 }
    { size := 2, order := 1 } example_intersection
    { rows := 2, cols := 2, entry := fun _ _ => 7 }
    { entityEntity := { rows := 2, cols := 2, entry := fun _ _ => 7 }
      neighborNeighbor := { rows := 2, cols := 2, entry := fun _ _ => 7 }
      entityNeighbor := { rows := 2, cols := 2, entry := fun _ _ => 7 }
      neighborEntity := { rows := 2, cols := 2, entry := fun _ _ => 7 } }
    [zero_matrix 2 2]
    [zero_matrix 2 2, zero_matrix 2 2, zero_matrix 2 2, zero_matrix 2 2]
    (fun _ _ _ _ => rfl) (fun _ _ _ _ => ⟨rfl, rfl, rfl, rfl⟩)
  obtain ⟨hB, hC, okB, okC⟩ := key
  constructor
  · obtain ⟨out, h⟩ := okB _ _ rfl ⟨2, rfl⟩ (fun _ _ h => h) (by decide) (by decide)
      ⟨le_refl 2, le_refl 2⟩
    exact ⟨out, h, hB out h 0 0, hB out h 1 1⟩
  · obtain ⟨out, h⟩ := okC _ _ _ _ _ rfl ⟨2, rfl⟩ (fun _ _ h => h)
      (by simp [FourMatrices.fits]) (by simp [FourMatrices.fits, zero_matrix])
    exact ⟨out, h, (hC out h 0 0).1, (hC out h 1 1).2.2.2⟩

end LocalOperator

namespace LocalOperator

/-- Adding an `int` that was converted to `size_t` gives, modulo `2^64`, the sum of the integers
when that sum is a value of an `int` that is not negative. -/
theorem size_t_add_int (order : Nat) (over_integrate : Int)
    (h0 : 0 ≤ (order : Int) + over_integrate)
    (h1 : (order : Int) + over_integrate ≤ (INT_MAX : Int)) :
    (order + (over_integrate % (size_t_modulus : Int)).toNat) % size_t_modulus
      = ((order : Int) + over_integrate).toNat := by
  simp only [size_t_modulus, INT_MAX] at *
  norm_num at *
  omega

/-- The cast to `int` keeps a value up to `INT_MAX`. -/
theorem numeric_cast_int_of_le (x : Nat) (h : x ≤ INT_MAX) :
    numeric_cast_int x = Except.ok x := by
  simp [numeric_cast_int, h, pure, Except.pure]

/-- The method `Codim1BoundaryIntegral::apply` consults the quadrature rule only at the order it
computes: two intersections with the same integration element and the same rule of that order
give the same result. -/
theorem Codim1BoundaryIntegral.boundary_apply_congr_rule {k : Nat} (self : Codim1BoundaryIntegral k)
    (testBase ansatzBase : LocalfunctionSetInterface) (i1 i2 : Intersection k) (order : Nat)
    (ho : self.quadrature_order testBase ansatzBase = Except.ok order)
    (hie : i1.integrationElement = i2.integrationElement) (hrule : i1.rule order = i2.rule order)
    (ret : DynamicMatrix) (tmpLocalMatrices : List DynamicMatrix) :
    Codim1BoundaryIntegral.apply self testBase ansatzBase i1 ret tmpLocalMatrices
      = Codim1BoundaryIntegral.apply self testBase ansatzBase i2 ret tmpLocalMatrices := by
  have hstep : Codim1BoundaryIntegral.quadrature_step self testBase ansatzBase i1
      testBase.size ansatzBase.size
      = Codim1BoundaryIntegral.quadrature_step self testBase ansatzBase i2
        testBase.size ansatzBase.size := by
    funext state quadPoint
    simp only [Codim1BoundaryIntegral.quadrature_step, hie]
  simp only [Codim1BoundaryIntegral.apply, ho, bind, Except.bind, hrule, hstep]

/-- The method `Codim1CouplingIntegral::apply` consults the quadrature rule only at the order it
computes: two intersections with the same integration element and the same rule of that order
give the same result. -/
theorem Codim1CouplingIntegral.coupling_apply_congr_rule {k : Nat} (self : Codim1CouplingIntegral k)
    (eT eA nT nA : LocalfunctionSetInterface) (i1 i2 : Intersection k) (order : Nat)
    (ho : self.quadrature_order eT eA nT nA = Except.ok order)
    (hie : i1.integrationElement = i2.integrationElement) (hrule : i1.rule order = i2.rule order)
    (ret : FourMatrices) (tmpLocalMatrices : List DynamicMatrix) :
    Codim1CouplingIntegral.apply self eT eA nT nA i1 ret tmpLocalMatrices
      = Codim1CouplingIntegral.apply self eT eA nT nA i2 ret tmpLocalMatrices := by
  have hstep : Codim1CouplingIntegral.quadrature_step self eT eA nT nA i1
      eT.size eA.size nT.size nA.size
      = Codim1CouplingIntegral.quadrature_step self eT eA nT nA i2
        eT.size eA.size nT.size nA.size := by
    funext state quadPoint
    simp only [Codim1CouplingIntegral.quadrature_step, hie]
  simp only [Codim1CouplingIntegral.apply, ho, bind, Except.bind, hrule, hstep]

/-- C20, refuted as stated. Constructed with the `int` over-integration `-1`, an operator whose
evaluation has order 0 stores `2^64 - 1` and requests no rule at all, of order `0 + (-1)` or
any other: the cast of the order to `int` throws, and so does `apply`.  The same happens for the
order `INT_MAX` with the over-integration 1. -/
theorem quadrature_order_counterexample :
    (example_binary_evaluation.order { size := 2, order := 0 } { size := 2, order := 0 } : Int)
        + (-1) = -1 ∧
    (Codim1BoundaryIntegral.ctor_int (-1) example_binary_evaluation).over_integrate_
      = 18446744073709551615 ∧
    (Codim1BoundaryIntegral.ctor_int (-1) example_binary_evaluation).quadrature_order
        { size := 2, order := 0 } { size := 2, order := 0 }
      = Except.error Exc.bad_numeric_cast ∧
    Codim1BoundaryIntegral.apply (Codim1BoundaryIntegral.ctor_int (-1) example_binary_evaluation)
        { size := 2, order := 0 } { size := 2, order := 0 } example_intersection
        (zero_matrix 2 2) [zero_matrix 2 2]
      = Except.error Exc.bad_numeric_cast ∧
    (Codim1BoundaryIntegral.ctor_size_t 1 example_binary_evaluation).quadrature_order
        { size := 2, order := 2147483647 } { size := 2, order := 0 }
      = Except.error Exc.bad_numeric_cast := by
  refine ⟨?_, rfl, rfl, rfl, rfl⟩
  norm_num [example_binary_evaluation]

/-- C20, amended. Both face integrals request the quadrature rule of the order
`evaluation.order(..) + over_integrate` whenever that sum lies between 0 and `INT_MAX`:
`over_integrate` is 0 for an operator constructed without it, and otherwise the `int` or the
`size_t` passed at construction; `apply` consults the rule of no other order.  In general the
order is the sum in `size_t` arithmetic, `(evaluation.order(..) + over_integrate_) mod 2^64`
with the stored `over_integrate_` (an `int` is stored modulo `2^64`): that order is requested
when it is at most `INT_MAX`, and the cast throws when it is larger. -/
theorem quadrature_order_eq {k : Nat} (binary : BinaryEvaluation k)
    (quaternary : QuaternaryEvaluation k)
    (testBase ansatzBase eT eA nT nA : LocalfunctionSetInterface)
    (over_int : Int) (over_size_t : Nat) :
    ((Codim1BoundaryIntegral.ctor binary).over_integrate_ = 0 ∧
      (Codim1CouplingIntegral.ctor quaternary).over_integrate_ = 0) ∧
    (binary.order testBase ansatzBase ≤ INT_MAX →
      (Codim1BoundaryIntegral.ctor binary).quadrature_order testBase ansatzBase
        = Except.ok (binary.order testBase ansatzBase)) ∧
    (0 ≤ (binary.order testBase ansatzBase : Int) + over_int →
      (binary.order testBase ansatzBase : Int) + over_int ≤ (INT_MAX : Int) →
      (Codim1BoundaryIntegral.ctor_int over_int binary).quadrature_order testBase ansatzBase
        = Except.ok ((binary.order testBase ansatzBase : Int) + over_int).toNat) ∧
    (binary.order testBase ansatzBase + over_size_t ≤ INT_MAX →
      (Codim1BoundaryIntegral.ctor_size_t over_size_t binary).quadrature_order testBase
          ansatzBase
        = Except.ok (binary.order testBase ansatzBase + over_size_t)) ∧
    (quaternary.order eT eA nT nA ≤ INT_MAX →
      (Codim1CouplingIntegral.ctor quaternary).quadrature_order eT eA nT nA
        = Except.ok (quaternary.order eT eA nT nA)) ∧
    (0 ≤ (quaternary.order eT eA nT nA : Int) + over_int →
      (quaternary.order eT eA nT nA : Int) + over_int ≤ (INT_MAX : Int) →
      (Codim1CouplingIntegral.ctor_int over_int quaternary).quadrature_order eT eA nT nA
        = Except.ok ((quaternary.order eT eA nT nA : Int) + over_int).toNat) ∧
    (quaternary.order eT eA nT nA + over_size_t ≤ INT_MAX →
      (Codim1CouplingIntegral.ctor_size_t over_size_t quaternary).quadrature_order eT eA nT nA
        = Except.ok (quaternary.order eT eA nT nA + over_size_t)) ∧
    (∀ (self : Codim1BoundaryIntegral k) (order : Nat) (i1 i2 : Intersection k)
        (ret : DynamicMatrix) (tmpLocalMatrices : List DynamicMatrix),
      self.quadrature_order testBase ansatzBase = Except.ok order →
      i1.integrationElement = i2.integrationElement → i1.rule order = i2.rule order →
      Codim1BoundaryIntegral.apply self testBase ansatzBase i1 ret tmpLocalMatrices
        = Codim1BoundaryIntegral.apply self testBase ansatzBase i2 ret tmpLocalMatrices) ∧
    (∀ (self : Codim1CouplingIntegral k) (order : Nat) (i1 i2 : Intersection k)
        (ret : FourMatrices) (tmpLocalMatrices : List DynamicMatrix),
      self.quadrature_order eT eA nT nA = Except.ok order →
      i1.integrationElement = i2.integrationElement → i1.rule order = i2.rule order →
      Codim1CouplingIntegral.apply self eT eA nT nA i1 ret tmpLocalMatrices
        = Codim1CouplingIntegral.apply self eT eA nT nA i2 ret tmpLocalMatrices) ∧
    ((Codim1BoundaryIntegral.ctor_int over_int binary).over_integrate_
        = (over_int % (size_t_modulus : Int)).toNat ∧
      (Codim1BoundaryIntegral.ctor_size_t over_size_t binary).over_integrate_ = over_size_t ∧
      (Codim1CouplingIntegral.ctor_int over_int quaternary).over_integrate_
        = (over_int % (size_t_modulus : Int)).toNat ∧
      (Codim1CouplingIntegral.ctor_size_t over_size_t quaternary).over_integrate_
        = over_size_t) ∧
    (∀ self : Codim1BoundaryIntegral k,
      self.quadrature_order testBase ansatzBase =
        if (self.evaluation_.order testBase ansatzBase + self.over_integrate_) % size_t_modulus
            ≤ INT_MAX then
          Except.ok ((self.evaluation_.order testBase ansatzBase + self.over_integrate_)
            % size_t_modulus)
        else
          Except.error Exc.bad_numeric_cast) ∧
    (∀ self : Codim1CouplingIntegral k,
      self.quadrature_order eT eA nT nA =
        if (self.evaluation_.order eT eA nT nA + self.over_integrate_) % size_t_modulus
            ≤ INT_MAX then
          Except.ok ((self.evaluation_.order eT eA nT nA + self.over_integrate_)
            % size_t_modulus)
        else
          Except.error Exc.bad_numeric_cast) := by
  have hmod : ∀ x : Nat, x ≤ INT_MAX → x % size_t_modulus = x := by
    intro x hx
    apply Nat.mod_eq_of_lt
    simp only [size_t_modulus, INT_MAX] at *
    omega
  refine ⟨⟨rfl, rfl⟩, ?_, ?_, ?_, ?_, ?_, ?_, ?_, ?_, ⟨rfl, rfl, rfl, rfl⟩, ?_, ?_⟩
  · intro h
    simp only [Codim1BoundaryIntegral.quadrature_order, Codim1BoundaryIntegral.ctor, add_zero,
      hmod _ h, numeric_cast_int_of_le _ h]
  · intro h0 h1
    have hle : ((binary.order testBase ansatzBase : Int) + over_int).toNat ≤ INT_MAX := by
      omega
    simp only [Codim1BoundaryIntegral.quadrature_order, Codim1BoundaryIntegral.ctor_int,
      size_t_add_int _ _ h0 h1, numeric_cast_int_of_le _ hle]
  · intro h
    simp only [Codim1BoundaryIntegral.quadrature_order, Codim1BoundaryIntegral.ctor_size_t,
      hmod _ h, numeric_cast_int_of_le _ h]
  · intro h
    simp only [Codim1CouplingIntegral.quadrature_order, Codim1CouplingIntegral.ctor, add_zero,
      hmod _ h, numeric_cast_int_of_le _ h]
  · intro h0 h1
    have hle : ((quaternary.order eT eA nT nA : Int) + over_int).toNat ≤ INT_MAX := by
      omega
    simp only [Codim1CouplingIntegral.quadrature_order, Codim1CouplingIntegral.ctor_int,
      size_t_add_int _ _ h0 h1, numeric_cast_int_of_le _ hle]
  · intro h
    simp only [Codim1CouplingIntegral.quadrature_order, Codim1CouplingIntegral.ctor_size_t,
      hmod _ h, numeric_cast_int_of_le _ h]
  · intro self order i1 i2 ret tmpLocalMatrices ho hie hrule
    exact Codim1BoundaryIntegral.boundary_apply_congr_rule self testBase ansatzBase i1 i2 order ho hie
      hrule ret tmpLocalMatrices
  · intro self order i1 i2 ret tmpLocalMatrices ho hie hrule
    exact Codim1CouplingIntegral.coupling_apply_congr_rule self eT eA nT nA i1 i2 order ho hie hrule ret
      tmpLocalMatrices
  · intro self
    simp only [Codim1BoundaryIntegral.quadrature_order, numeric_cast_int]
    split_ifs <;> rfl
  · intro self
    simp only [Codim1CouplingIntegral.quadrature_order, numeric_cast_int]
    split_ifs <;> rfl

/-- C20, amended, at an evaluation of order `1 + 1`: without an argument the order 2 is
requested, with the `int` 3 the order 5, with the `int` `-1` the order 1, and with the `size_t`
4 the order 6; with the `size_t` `2^64 - 1` the sum wraps and the order 1 is requested. -/
theorem quadrature_order_eq_witness :
    (Codim1BoundaryIntegral.ctor_size_t 18446744073709551615
        example_binary_evaluation).quadrature_order
        { size := 2, order := 1 } { size := 2, order := 1 } = Except.ok 1 ∧
    (Codim1BoundaryIntegral.ctor example_binary_evaluation).quadrature_order
        { size := 2, order := 1 } { size := 2, order := 1 } = Except.ok 2 ∧
    (Codim1BoundaryIntegral.ctor_int 3 example_binary_evaluation).quadrature_order
        { size := 2, order := 1 } { size := 2, order := 1 } = Except.ok 5 ∧
    (Codim1BoundaryIntegral.ctor_int (-1) example_binary_evaluation).quadrature_order
        { size := 2, order := 1 } { size := 2, order := 1 } = Except.ok 1 ∧
    (Codim1CouplingIntegral.ctor_size_t 4 example_quaternary_evaluation).quadrature_order
        { size := 2, order := 1 } { size := 2, order := 1 } { size := 2, order := 1 }
        { size := 2, order := 1 } = Except.ok 6 := by
  have h3 := quadrature_order_eq example_binary_evaluation example_quaternary_evaluation
    { size := 2, order := 1 } { size := 2, order := 1 } { size := 2, order := 1 }
    { size := 2, order := 1 } { size := 2, order := 1 } { size := 2, order := 1 } 3 4
  have hm := quadrature_order_eq example_binary_evaluation example_quaternary_evaluation
    { size := 2, order := 1 } { size := 2, order := 1 } { size := 2, order := 1 }
    { size := 2, order := 1 } { size := 2, order := 1 } { size := 2, order := 1 } (-1) 4
  refine ⟨?_, h3.2.1 (by decide), ?_, ?_, ?_⟩
  · rw [h3.2.2.2.2.2.2.2.2.2.2.1
      (Codim1BoundaryIntegral.ctor_size_t 18446744073709551615 example_binary_evaluation)]
    rfl
  · have h := h3.2.2.1 (by decide) (by decide)
    exact h
  · have h := hm.2.2.1 (by decide) (by decide)
    exact h
  · have h := h3.2.2.2.2.2.2.1 (by decide)
    exact h

end LocalOperator

namespace LocalOperator

end LocalOperator

/-! ## LocalAdvectionFvCouplingOperator: conservation and the error for other spaces -/

/-- The in-place form of the operator agrees with `LocalAdvectionFvCouplingOperator.apply`: when
`apply` gives new ranges they are the state after the call, and when it fails the call fails in
the same way with the state it started from. -/
theorem LocalAdvectionFvCouplingOperator.apply_in_place_eq {d m : Nat}
    (numerical_flux_ : NumericalFluxType d m)
    (source_space_type inside_space_type outside_space_type : SpaceType)
    (u v : Vec m) (normal : Vec d) (h_intersection h_inside_element h_outside_element : ℚ)
    (dofs : Vec m × Vec m) :
    (LocalAdvectionFvCouplingOperator.apply_in_place numerical_flux_ source_space_type
      inside_space_type outside_space_type u v normal h_intersection h_inside_element
      h_outside_element).run.run dofs =
    match LocalAdvectionFvCouplingOperator.apply numerical_flux_ source_space_type
      inside_space_type outside_space_type u v normal h_intersection h_inside_element
      h_outside_element dofs.1 dofs.2 with
    | Except.ok r => (Except.ok (), r)
    | Except.error e => (Except.error e, dofs) := by
  unfold LocalAdvectionFvCouplingOperator.apply_in_place LocalAdvectionFvCouplingOperator.apply
  split_ifs with hs
  · rfl
  · cases hg : numerical_flux_ u v normal with
    | error e => rfl
    | ok g => rfl

/-- A loop that updates each listed component of two vectors once, by `F` and by `G`. -/
theorem LocalAdvectionFvCouplingOperator.foldl_update_each {m : Nat} (F G : Fin m → ℚ → ℚ)
    (l : List (Fin m)) (hl : l.Nodup) (dofs : Vec m × Vec m) (a : Fin m) :
    (l.foldl
        (fun dofs ii =>
          (Function.update dofs.1 ii (F ii (dofs.1 ii)),
            Function.update dofs.2 ii (G ii (dofs.2 ii))))
        dofs).1 a = (if a ∈ l then F a (dofs.1 a) else dofs.1 a) ∧
    (l.foldl
        (fun dofs ii =>
          (Function.update dofs.1 ii (F ii (dofs.1 ii)),
            Function.update dofs.2 ii (G ii (dofs.2 ii))))
        dofs).2 a = (if a ∈ l then G a (dofs.2 a) else dofs.2 a) := by
  induction l generalizing dofs with
  | nil => simp
  | cons x l ih =>
    rw [List.foldl_cons]
    obtain ⟨h1, h2⟩ := ih (List.nodup_cons.mp hl).2
      (Function.update dofs.1 x (F x (dofs.1 x)), Function.update dofs.2 x (G x (dofs.2 x)))
    rw [h1, h2]
    have hx : x ∉ l := (List.nodup_cons.mp hl).1
    by_cases hal : a ∈ l
    · have hne : a ≠ x := fun h => hx (h ▸ hal)
      simp [hal, hne]
    · by_cases hax : a = x
      · subst hax
        simp [hal]
      · simp [hal, hax]

/-- The value of the rounded operator on finite volume spaces for a flux value `g`: every
inside component becomes `fl(r + fl(fl(g * h_intersection) / h_inside_element))`, every outside
component `fl(r - fl(fl(g * h_intersection) / h_outside_element))`. -/
theorem LocalAdvectionFvCouplingOperator.coupling_apply_rounded_eq (fl : ℚ → ℚ) {d m : Nat}
    (numerical_flux_ : NumericalFluxType d m) (u v : Vec m) (normal : Vec d) (g : Vec m)
    (hg : numerical_flux_ u v normal = Except.ok g)
    (h_intersection h_inside_element h_outside_element : ℚ)
    (local_range_inside local_range_outside : Vec m) :
    LocalAdvectionFvCouplingOperator.apply_rounded fl numerical_flux_
        SpaceType.finite_volume SpaceType.finite_volume SpaceType.finite_volume u v normal
        h_intersection h_inside_element h_outside_element local_range_inside local_range_outside
      = Except.ok
        (fun ii =>
          fl (local_range_inside ii + fl (fl (g ii * h_intersection) / h_inside_element)),
          fun ii =>
            fl (local_range_outside ii
              - fl (fl (g ii * h_intersection) / h_outside_element))) := by
  simp only [LocalAdvectionFvCouplingOperator.apply_rounded, hg, ne_eq, not_true_eq_false,
    or_self, if_false, bind, Except.bind, pure, Except.pure]
  congr 1
  have key := LocalAdvectionFvCouplingOperator.foldl_update_each
    (fun ii r => fl (r + fl (fl (g ii * h_intersection) / h_inside_element)))
    (fun ii r => fl (r - fl (fl (g ii * h_intersection) / h_outside_element)))
    (List.finRange m) (List.nodup_finRange m) (local_range_inside, local_range_outside)
  apply Prod.ext
  · funext a
    rw [(key a).1]
    simp [List.mem_finRange]
  · funext a
    rw [(key a).2]
    simp [List.mem_finRange]

/-- In `double` arithmetic, from zero ranges, with cell volumes that are powers of two and a
product `g * h_intersection` that is a `double`, no operation of the operator rounds: the
ranges hold the exact quotients. -/
theorem LocalAdvectionFvCouplingOperator.coupling_apply_rounded_exact {d m : Nat}
    (numerical_flux_ : NumericalFluxType d m) (u v : Vec m) (normal : Vec d) (g : Vec m)
    (hg : numerical_flux_ u v normal = Except.ok g)
    (h_intersection h_inside_element h_outside_element : ℚ) (j_in j_out : ℤ)
    (hin : h_inside_element = 2 ^ j_in) (hout : h_outside_element = 2 ^ j_out)
    (hrep : ∀ ii, ∃ N e : ℤ, |N| < 2 ^ 53 ∧ g ii * h_intersection = (N : ℚ) * 2 ^ e) :
    LocalAdvectionFvCouplingOperator.apply_rounded Double.round_to_nearest numerical_flux_
        SpaceType.finite_volume SpaceType.finite_volume SpaceType.finite_volume u v normal
        h_intersection h_inside_element h_outside_element (fun _ => 0) (fun _ => 0)
      = Except.ok
        (fun ii => g ii * h_intersection / h_inside_element,
          fun ii => -(g ii * h_intersection / h_outside_element)) := by
  rw [LocalAdvectionFvCouplingOperator.coupling_apply_rounded_eq _ _ _ _ _ g hg]
  have h2 : (2 : ℚ) ≠ 0 := by norm_num
  congr 1
  apply Prod.ext
  · funext ii
    obtain ⟨N, e, hN, hrepr⟩ := hrep ii
    have f1 : Double.round_to_nearest (g ii * h_intersection) = g ii * h_intersection :=
      Double.round_to_nearest_of_eq _ N e hN hrepr
    have f2 : Double.round_to_nearest (g ii * h_intersection / h_inside_element)
        = g ii * h_intersection / h_inside_element := by
      apply Double.round_to_nearest_of_eq _ N (e - j_in) hN
      rw [hrepr, hin, zpow_sub₀ h2]
      ring
    have f3 : Double.round_to_nearest (0 + g ii * h_intersection / h_inside_element)
        = g ii * h_intersection / h_inside_element := by
      rw [zero_add, f2]
    show Double.round_to_nearest (0 + Double.round_to_nearest
      (Double.round_to_nearest (g ii * h_intersection) / h_inside_element)) = _
    rw [f1, f2, f3]
  · funext ii
    obtain ⟨N, e, hN, hrepr⟩ := hrep ii
    have f1 : Double.round_to_nearest (g ii * h_intersection) = g ii * h_intersection :=
      Double.round_to_nearest_of_eq _ N e hN hrepr
    have f2 : Double.round_to_nearest (g ii * h_intersection / h_outside_element)
        = g ii * h_intersection / h_outside_element := by
      apply Double.round_to_nearest_of_eq _ N (e - j_out) hN
      rw [hrepr, hout, zpow_sub₀ h2]
      ring
    have f3 : Double.round_to_nearest (0 - g ii * h_intersection / h_outside_element)
        = -(g ii * h_intersection / h_outside_element) := by
      rw [zero_sub]
      apply Double.round_to_nearest_of_eq _ (-N) (e - j_out) (by rw [abs_neg]; exact hN)
      rw [hrepr, hout, zpow_sub₀ h2]
      push_cast
      ring
    show Double.round_to_nearest (0 - Double.round_to_nearest
      (Double.round_to_nearest (g ii * h_intersection) / h_outside_element)) = _
    rw [f1, f2, f3]

/-- C25, amended. In exact arithmetic the method `LocalAdvectionFvCouplingOperator::apply` is
conservative: on finite volume spaces, for every value `g` of the numerical flux, every face
volume and cell volumes that are not zero, the call returns (the method with the rounding
`fl = id` gives the same), the inside range gains `g[ii] * h_intersection / h_inside_element`,
the outside range loses `g[ii] * h_intersection / h_outside_element`, and the increments
weighted with the cell volumes cancel in every component.  In `double` arithmetic the same
holds, from zero ranges, when the cell volumes are powers of two and every product
`g[ii] * h_intersection` is a `double`: no operation rounds. -/
theorem LocalAdvectionFvCouplingOperator.apply_conservative {d m : Nat}
    (numerical_flux_ : NumericalFluxType d m) (u v : Vec m) (normal : Vec d) (g : Vec m)
    (hg : numerical_flux_ u v normal = Except.ok g)
    (h_intersection h_inside_element h_outside_element : ℚ)
    (hin : h_inside_element ≠ 0) (hout : h_outside_element ≠ 0)
    (local_range_inside local_range_outside : Vec m) :
    (∃ out, LocalAdvectionFvCouplingOperator.apply numerical_flux_ SpaceType.finite_volume
        SpaceType.finite_volume SpaceType.finite_volume u v normal h_intersection
        h_inside_element h_outside_element local_range_inside local_range_outside
        = Except.ok out ∧
      LocalAdvectionFvCouplingOperator.apply_rounded id numerical_flux_
        SpaceType.finite_volume SpaceType.finite_volume SpaceType.finite_volume u v normal
        h_intersection h_inside_element h_outside_element local_range_inside
        local_range_outside = Except.ok out ∧
      ∀ ii : Fin m,
        out.1 ii - local_range_inside ii = g ii * h_intersection / h_inside_element ∧
        out.2 ii - local_range_outside ii = -(g ii * h_intersection / h_outside_element) ∧
        h_inside_element * (out.1 ii - local_range_inside ii)
          + h_outside_element * (out.2 ii - local_range_outside ii) = 0) ∧
    (∀ j_in j_out : ℤ, h_inside_element = 2 ^ j_in → h_outside_element = 2 ^ j_out →
      (∀ ii, ∃ N e : ℤ, |N| < 2 ^ 53 ∧ g ii * h_intersection = (N : ℚ) * 2 ^ e) →
      ∃ out, LocalAdvectionFvCouplingOperator.apply_rounded Double.round_to_nearest
          numerical_flux_ SpaceType.finite_volume SpaceType.finite_volume
          SpaceType.finite_volume u v normal h_intersection h_inside_element
          h_outside_element (fun _ => 0) (fun _ => 0) = Except.ok out ∧
        ∀ ii : Fin m,
          out.1 ii - 0 = g ii * h_intersection / h_inside_element ∧
          out.2 ii - 0 = -(g ii * h_intersection / h_outside_element) ∧
          h_inside_element * (out.1 ii - 0) + h_outside_element * (out.2 ii - 0) = 0) := by
  have h : LocalAdvectionFvCouplingOperator.apply numerical_flux_ SpaceType.finite_volume
      SpaceType.finite_volume SpaceType.finite_volume u v normal h_intersection
      h_inside_element h_outside_element local_range_inside local_range_outside
      = Except.ok
        (fun ii => local_range_inside ii + (g ii * h_intersection) / h_inside_element,
          fun ii => local_range_outside ii - (g ii * h_intersection) / h_outside_element) := by
    rw [LocalAdvectionFvCouplingOperator.apply_eq, hg]
    simp only [ne_eq, not_true_eq_false, or_self, if_false]
  constructor
  · refine ⟨_, h, ?_, ?_⟩
    · rw [LocalAdvectionFvCouplingOperator.coupling_apply_rounded_id, h]
    intro ii
    refine ⟨?_, ?_, ?_⟩
    · show local_range_inside ii + (g ii * h_intersection) / h_inside_element
        - local_range_inside ii = _
      ring
    · show local_range_outside ii - (g ii * h_intersection) / h_outside_element
        - local_range_outside ii = _
      ring
    · show h_inside_element * (local_range_inside ii
        + (g ii * h_intersection) / h_inside_element - local_range_inside ii)
        + h_outside_element * (local_range_outside ii
        - (g ii * h_intersection) / h_outside_element - local_range_outside ii) = 0
      field_simp
      ring
  · intro j_in j_out hj_in hj_out hrep
    refine ⟨_, LocalAdvectionFvCouplingOperator.coupling_apply_rounded_exact numerical_flux_ u v
      normal g hg h_intersection h_inside_element h_outside_element j_in j_out hj_in hj_out
      hrep, ?_⟩
    intro ii
    refine ⟨?_, ?_, ?_⟩
    · show g ii * h_intersection / h_inside_element - 0 = _
      ring
    · show -(g ii * h_intersection / h_outside_element) - 0 = _
      ring
    · show h_inside_element * (g ii * h_intersection / h_inside_element - 0)
        + h_outside_element * (-(g ii * h_intersection / h_outside_element) - 0) = 0
      field_simp
      ring

/-- C25, amended, for the upwind flux of linear transport in one dimension, the states 3 and
10, a face of volume 1 and cells of volume `1 / 16` and `1 / 4`: the inside range gains 48, the
outside range loses 12, and `48 / 16 - 12 / 4 = 0`; the volumes are powers of two, and the
operator in `double` arithmetic gives the same ranges. -/
theorem LocalAdvectionFvCouplingOperator.apply_conservative_witness :
    ∃ out, LocalAdvectionFvCouplingOperator.apply
        (NumericalUpwindFlux.as_interface (LinearTransportProblem.flux 1))
        SpaceType.finite_volume SpaceType.finite_volume SpaceType.finite_volume
        (fun _ => 3) (fun _ => 10) ![1] 1 (1 / 16) (1 / 4) (fun _ => 0) (fun _ => 0)
        = Except.ok out ∧
      out.1 0 = 48 ∧ out.2 0 = -12 ∧
      (1 / 16 : ℚ) * (out.1 0 - 0) + 1 / 4 * (out.2 0 - 0) = 0 ∧
      ∃ out2, LocalAdvectionFvCouplingOperator.apply_rounded Double.round_to_nearest
          (NumericalUpwindFlux.as_interface (LinearTransportProblem.flux 1))
          SpaceType.finite_volume SpaceType.finite_volume SpaceType.finite_volume
          (fun _ => 3) (fun _ => 10) ![1] 1 (1 / 16) (1 / 4) (fun _ => 0) (fun _ => 0)
          = Except.ok out2 ∧
        out2.1 0 = 48 ∧ out2.2 0 = -12 := by
  have hg : NumericalUpwindFlux.as_interface (LinearTransportProblem.flux 1) (fun _ => 3)
      (fun _ => 10) ![1] = Except.ok (fun _ => 3) := by
    have hpos : 0 < dot ![1] ((LinearTransportProblem.flux 1).jacobian (((3 : ℚ) + 10) / 2)) := by
      norm_num [dot, LinearTransportProblem.flux, LinearTransportProblem.direction]
    simp only [NumericalUpwindFlux.as_interface, NumericalUpwindFlux.apply, gt_iff_lt,
      if_pos hpos]
    show Except.ok _ = Except.ok _
    congr 1
    funext _
    norm_num [dot, LinearTransportProblem.flux, LinearTransportProblem.direction]
  obtain ⟨⟨out, h, _, hc⟩, hdouble⟩ := LocalAdvectionFvCouplingOperator.apply_conservative
    (NumericalUpwindFlux.as_interface (LinearTransportProblem.flux 1)) (fun _ => 3) (fun _ => 10)
    ![1] (fun _ => 3) hg 1 (1 / 16) (1 / 4) (by norm_num) (by norm_num) (fun _ => 0) (fun _ => 0)
  obtain ⟨h1, h2, h3⟩ := hc 0
  obtain ⟨out2, hd, hc2⟩ := hdouble (-4) (-2) (by norm_num) (by norm_num)
    (fun _ => ⟨3, 0, by norm_num, by norm_num⟩)
  obtain ⟨d1, d2, _⟩ := hc2 0
  refine ⟨out, h, ?_, ?_, h3, out2, hd, ?_, ?_⟩
  · have := h1
    norm_num at this
    exact this
  · have := h2
    norm_num at this
    exact this
  · have := d1
    norm_num at this
    exact this
  · have := d2
    norm_num at this
    exact this

/-- The rounded operator on finite volume spaces with one component and a flux value `g`: the
operations in the order of the code. -/
theorem LocalAdvectionFvCouplingOperator.coupling_apply_rounded_one (fl : ℚ → ℚ)
    (numerical_flux_ : NumericalFluxType 1 1) (u v : Vec 1) (normal : Vec 1) (g : Vec 1)
    (hg : numerical_flux_ u v normal = Except.ok g)
    (h_intersection h_inside_element h_outside_element : ℚ)
    (local_range_inside local_range_outside : Vec 1) :
    ∃ out, LocalAdvectionFvCouplingOperator.apply_rounded fl numerical_flux_
        SpaceType.finite_volume SpaceType.finite_volume SpaceType.finite_volume u v normal
        h_intersection h_inside_element h_outside_element local_range_inside local_range_outside
        = Except.ok out ∧
      out.1 0 = fl (local_range_inside 0 + fl (fl (g 0 * h_intersection) / h_inside_element)) ∧
      out.2 0
        = fl (local_range_outside 0 - fl (fl (g 0 * h_intersection) / h_outside_element)) := by
  refine ⟨((List.finRange 1).foldl
    (fun dofs ii =>
      (Function.update dofs.1 ii
          (fl (dofs.1 ii + fl (fl (g ii * h_intersection) / h_inside_element))),
        Function.update dofs.2 ii
          (fl (dofs.2 ii - fl (fl (g ii * h_intersection) / h_outside_element)))))
    (local_range_inside, local_range_outside)), ?_, ?_, ?_⟩
  · simp only [LocalAdvectionFvCouplingOperator.apply_rounded, hg, ne_eq, not_true_eq_false,
      or_self, if_false, bind, Except.bind, pure, Except.pure]
  · simp [List.finRange_succ]
  · simp [List.finRange_succ]

/-- C25 as stated fails in `double` arithmetic at the flux value 1, a face of volume 1, an
inside cell of volume 49 and an outside cell of volume 1, from zero ranges: the inside range
gains the `double` nearest to `1 / 49`, which is `5882252574524729 / 2^58`, the outside range
loses 1, and `49 * 5882252574524729 / 2^58 - 1 = -23 / 2^58` is not zero. -/
theorem LocalAdvectionFvCouplingOperator.apply_rounded_not_conservative_counterexample :
    ∃ out, LocalAdvectionFvCouplingOperator.apply_rounded Double.round_to_nearest
        (constant_numerical_flux 1)
        SpaceType.finite_volume SpaceType.finite_volume SpaceType.finite_volume
        (fun _ => 1) (fun _ => 0) ![1] 1 49 1 (fun _ => 0) (fun _ => 0) = Except.ok out ∧
      out.1 0 = 5882252574524729 / 288230376151711744 ∧ out.2 0 = -1 ∧
      (49 : ℚ) * (out.1 0 - 0) + 1 * (out.2 0 - 0) = -23 / 288230376151711744 ∧
      (49 : ℚ) * (out.1 0 - 0) + 1 * (out.2 0 - 0) ≠ 0 := by
  obtain ⟨out, h, h1, h2⟩ := LocalAdvectionFvCouplingOperator.coupling_apply_rounded_one
    Double.round_to_nearest (constant_numerical_flux 1) (fun _ => 1) (fun _ => 0) ![1]
    (fun _ => 1) rfl 1 49 1 (fun _ => 0) (fun _ => 0)
  have f1 : Double.round_to_nearest ((1 : ℚ) * 1) = 1 := by
    rw [Double.round_to_nearest_of_eq _ 1 0 (by norm_num) (by norm_num)]
    norm_num
  have f2 : Double.round_to_nearest ((1 : ℚ) / 49) = 5882252574524729 / 288230376151711744 := by
    rw [Double.round_to_nearest_eq _ (-6) 5882252574524729 (by norm_num [abs_of_pos])
      (by norm_num [abs_of_pos])
      (Double.ties_to_even_of_lt _ 5882252574524729 (by norm_num) (by norm_num))]
    norm_num
  have f3 : Double.round_to_nearest (0 + 5882252574524729 / 288230376151711744)
      = 5882252574524729 / 288230376151711744 := by
    rw [Double.round_to_nearest_of_eq _ 5882252574524729 (-58) (by norm_num) (by norm_num)]
    norm_num
  have f4 : Double.round_to_nearest ((1 : ℚ) / 1) = 1 := by
    rw [Double.round_to_nearest_of_eq _ 1 0 (by norm_num) (by norm_num)]
    norm_num
  have f5 : Double.round_to_nearest ((0 : ℚ) - 1) = -1 := by
    rw [Double.round_to_nearest_of_eq _ (-1) 0 (by norm_num) (by norm_num)]
    norm_num
  have e1 : out.1 0 = 5882252574524729 / 288230376151711744 := by
    rw [h1, f1, f2, f3]
  have e2 : out.2 0 = -1 := by
    rw [h2, f1, f4, f5]
  refine ⟨out, h, e1, e2, ?_, ?_⟩
  · rw [e1, e2]
    norm_num
  · rw [e1, e2]
    norm_num

/-- C30 as stated fails for a numerical flux that raises `operator_error` itself: with the
source space and both range spaces of type `finite_volume` the call ends with
`operator_error`, so the error does not tell that a space is of another type.  The ranges
`(5, 6)` stay as they are. -/
theorem LocalAdvectionFvCouplingOperator.apply_operator_error_counterexample :
    (LocalAdvectionFvCouplingOperator.apply_in_place operator_error_numerical_flux
        SpaceType.finite_volume SpaceType.finite_volume SpaceType.finite_volume
        (fun _ => 3) (fun _ => 10) ![1] 1 1 1).run.run ((fun _ => 5), (fun _ => 6))
      = (Except.error Exc.operator_error, ((fun _ => 5), (fun _ => 6))) ∧
    LocalAdvectionFvCouplingOperator.apply operator_error_numerical_flux
        SpaceType.finite_volume SpaceType.finite_volume SpaceType.finite_volume
        (fun _ => 3) (fun _ => 10) ![1] 1 1 1 (fun _ => 5) (fun _ => 6)
      = Except.error Exc.operator_error ∧
    ¬ (((LocalAdvectionFvCouplingOperator.apply_in_place operator_error_numerical_flux
        SpaceType.finite_volume SpaceType.finite_volume SpaceType.finite_volume
        (fun _ => 3) (fun _ => 10) ![1] 1 1 1).run.run ((fun _ => 5), (fun _ => 6))).1
          = Except.error Exc.operator_error ↔
      (SpaceType.finite_volume ≠ SpaceType.finite_volume
        ∨ SpaceType.finite_volume ≠ SpaceType.finite_volume
        ∨ SpaceType.finite_volume ≠ SpaceType.finite_volume)) := by
  refine ⟨rfl, rfl, ?_⟩
  intro h
  have h1 := h.mp rfl
  simp at h1

/-- C30, amended. The method `LocalAdvectionFvCouplingOperator::apply` throws `operator_error`
when the source space, the inside range space or the outside range space is not a finite volume
space, and then both local ranges are as before the call.  On finite volume spaces the operator
raises nothing of its own: the call fails exactly when the numerical flux fails, with the error
of the flux; so for a flux that does not raise `operator_error` itself, the call throws
`operator_error` if and only if one of the three spaces is not a finite volume space.  Whatever
the error, the two local ranges are not modified. -/
theorem LocalAdvectionFvCouplingOperator.apply_throws_operator_error {d m : Nat}
    (numerical_flux_ : NumericalFluxType d m)
    (source_space_type inside_space_type outside_space_type : SpaceType)
    (u v : Vec m) (normal : Vec d) (h_intersection h_inside_element h_outside_element : ℚ)
    (dofs : Vec m × Vec m) :
    ((source_space_type ≠ SpaceType.finite_volume ∨ inside_space_type ≠ SpaceType.finite_volume
        ∨ outside_space_type ≠ SpaceType.finite_volume) →
      (LocalAdvectionFvCouplingOperator.apply_in_place numerical_flux_ source_space_type
        inside_space_type outside_space_type u v normal h_intersection h_inside_element
        h_outside_element).run.run dofs = (Except.error Exc.operator_error, dofs)) ∧
    (¬ (source_space_type ≠ SpaceType.finite_volume ∨ inside_space_type ≠ SpaceType.finite_volume
        ∨ outside_space_type ≠ SpaceType.finite_volume) →
      ∀ e, ((LocalAdvectionFvCouplingOperator.apply_in_place numerical_flux_ source_space_type
        inside_space_type outside_space_type u v normal h_intersection h_inside_element
        h_outside_element).run.run dofs).1 = Except.error e ↔
        numerical_flux_ u v normal = Except.error e) ∧
    (numerical_flux_ u v normal ≠ Except.error Exc.operator_error →
      (((LocalAdvectionFvCouplingOperator.apply_in_place numerical_flux_ source_space_type
        inside_space_type outside_space_type u v normal h_intersection h_inside_element
        h_outside_element).run.run dofs).1 = Except.error Exc.operator_error ↔
        (source_space_type ≠ SpaceType.finite_volume
          ∨ inside_space_type ≠ SpaceType.finite_volume
          ∨ outside_space_type ≠ SpaceType.finite_volume))) ∧
    (∀ e, ((LocalAdvectionFvCouplingOperator.apply_in_place numerical_flux_ source_space_type
        inside_space_type outside_space_type u v normal h_intersection h_inside_element
        h_outside_element).run.run dofs).1 = Except.error e →
      ((LocalAdvectionFvCouplingOperator.apply_in_place numerical_flux_ source_space_type
        inside_space_type outside_space_type u v normal h_intersection h_inside_element
        h_outside_element).run.run dofs).2 = dofs) := by
  rw [LocalAdvectionFvCouplingOperator.apply_in_place_eq,
    LocalAdvectionFvCouplingOperator.apply_eq]
  by_cases hs : source_space_type ≠ SpaceType.finite_volume
      ∨ inside_space_type ≠ SpaceType.finite_volume
      ∨ outside_space_type ≠ SpaceType.finite_volume
  · rw [if_pos hs]
    refine ⟨fun _ => rfl, fun h => absurd hs h, fun _ => ⟨fun _ => hs, fun _ => rfl⟩,
      fun _ _ => rfl⟩
  · rw [if_neg hs]
    cases hg : numerical_flux_ u v normal with
    | error e0 =>
      refine ⟨fun h => absurd h hs, fun _ e => ?_, fun hne => ?_, fun _ _ => rfl⟩
      · show (Except.error e0 : Except Exc Unit) = Except.error e ↔ _
        constructor
        · intro h
          cases h
          rfl
        · intro h
          cases h
          rfl
      · constructor
        · intro h
          have h0 : (Except.error e0 : Except Exc Unit) = Except.error Exc.operator_error := h
          cases h0
          exact absurd rfl hne
        · intro h
          exact absurd h hs
    | ok g =>
      refine ⟨fun h => absurd h hs, fun _ e => ?_, fun _ => ?_, fun e h => ?_⟩
      · constructor
        · intro h
          cases h
        · intro h
          cases h
      · constructor
        · intro h
          cases h
        · intro h
          exact absurd h hs
      · cases h

/-- C30, amended, for a source of a space that is not a finite volume space, and for a failing
flux on finite volume spaces: the first call ends with `operator_error`, the second with the error of
the flux, and the ranges `(5, 6)` stay as they are. -/
theorem LocalAdvectionFvCouplingOperator.apply_throws_operator_error_witness :
    (LocalAdvectionFvCouplingOperator.apply_in_place
        (NumericalUpwindFlux.as_interface (LinearTransportProblem.flux 1))
        (SpaceType.other 0) SpaceType.finite_volume SpaceType.finite_volume
        (fun _ => 3) (fun _ => 10) ![1] 1 1 1).run.run ((fun _ => 5), (fun _ => 6))
      = (Except.error Exc.operator_error, ((fun _ => 5), (fun _ => 6))) ∧
    ((LocalAdvectionFvCouplingOperator.apply_in_place failing_numerical_flux
        SpaceType.finite_volume SpaceType.finite_volume SpaceType.finite_volume
        (fun _ => 3) (fun _ => 10) ![1] 1 1 1).run.run ((fun _ => 5), (fun _ => 6))).1
      ≠ Except.error Exc.operator_error := by
  constructor
  · exact (LocalAdvectionFvCouplingOperator.apply_throws_operator_error
      (NumericalUpwindFlux.as_interface (LinearTransportProblem.flux 1))
      (SpaceType.other 0) SpaceType.finite_volume SpaceType.finite_volume
      (fun _ => 3) (fun _ => 10) ![1] 1 1 1 ((fun _ => 5), (fun _ => 6))).1
      (Or.inl (by decide))
  · intro h
    have key := ((LocalAdvectionFvCouplingOperator.apply_throws_operator_error
      failing_numerical_flux
      SpaceType.finite_volume SpaceType.finite_volume SpaceType.finite_volume
      (fun _ => 3) (fun _ => 10) ![1] 1 1 1 ((fun _ => 5), (fun _ => 6))).2.2.1
      (by simp [failing_numerical_flux])).mp h
    simp at key

/-! ## NumericalLaxFriedrichsFlux and NumericalUpwindFlux for a linear flux -/

/-- The `infinity_norm()` of a `1 × 1` Jacobian is the absolute value of its entry. -/
theorem infinity_norm_one (df : Vec 1) : infinity_norm df = |df 0| := by
  simp [infinity_norm, List.ofFn_succ]

/-- In `double` arithmetic the two fluxes coincide for `f(u) = u` and a unit normal when the
states are multiples `p * 2^e` and `q * 2^e` of one power of two with `|p|, |q| <= 2^51`: no
operation of the two methods rounds. -/
theorem NumericalLaxFriedrichsFlux.apply_rounded_eq_upwind_of_exact (flux : ScalarFluxType 1)
    (hf : ∀ u, flux.evaluate u 0 = 1 * u) (hdf : ∀ u, flux.jacobian u 0 = 1)
    (n : Vec 1) (hn : n 0 = 1 ∨ n 0 = -1) (u v : ℚ)
    (p q e : ℤ) (hp : |p| ≤ 2 ^ 51) (hq : |q| ≤ 2 ^ 51) (hu : u = (p : ℚ) * 2 ^ e)
    (hv : v = (q : ℚ) * 2 ^ e) :
    NumericalLaxFriedrichsFlux.apply_rounded Double.round_to_nearest flux u v n
      = NumericalUpwindFlux.apply_rounded Double.round_to_nearest flux u v n := by
  have hp1 := abs_le.mp hp
  have hq1 := abs_le.mp hq
  have h2 : (2 : ℚ) ^ (e - 1) = 2 ^ e / 2 := by
    rw [zpow_sub_one₀ (by norm_num : (2 : ℚ) ≠ 0)]
    ring
  have hLF : NumericalLaxFriedrichsFlux.apply_rounded Double.round_to_nearest flux u v n
      = Except.ok (Double.round_to_nearest
          (Double.round_to_nearest (0.5 * Double.round_to_nearest
            (0 + Double.round_to_nearest (Double.round_to_nearest (1 * u + 1 * v) * n 0)))
          + Double.round_to_nearest (0.5 * Double.round_to_nearest
            (Double.round_to_nearest (u - v) / Double.round_to_nearest (1 / |(1 : ℚ)|))))) := by
    have habs : |(1 : ℚ)| ≠ 0 := by norm_num
    simp only [NumericalLaxFriedrichsFlux.apply_rounded, infinity_norm_one, hdf, max_self,
      Quot1.one_over_rounded, if_neg habs, Quot1.divide_rounded, dot_rounded_one, hf]
    rfl
  have hUp : NumericalUpwindFlux.apply_rounded Double.round_to_nearest flux u v n
      = if Double.round_to_nearest (0 + Double.round_to_nearest (n 0 * 1)) > 0 then
          Except.ok (Double.round_to_nearest (0 + Double.round_to_nearest (1 * u * n 0)))
        else
          Except.ok (Double.round_to_nearest (0 + Double.round_to_nearest (1 * v * n 0))) := by
    simp only [NumericalUpwindFlux.apply_rounded, dot_rounded_one, hf, hdf]
    rfl
  have f6 : Double.round_to_nearest (1 / |(1 : ℚ)|) = 1 := by
    rw [Double.round_to_nearest_of_eq _ 1 0 (by norm_num) (by norm_num)]
    norm_num
  have f5 : Double.round_to_nearest (u - v) = u - v := by
    apply Double.round_to_nearest_of_eq _ (p - q) e
    · rw [abs_lt]
      constructor <;> omega
    · rw [hu, hv]
      push_cast
      ring
  have f7 : Double.round_to_nearest ((u - v) / 1) = u - v := by
    rw [div_one, f5]
  have f8 : Double.round_to_nearest (0.5 * (u - v)) = 0.5 * (u - v) := by
    apply Double.round_to_nearest_of_eq _ (p - q) (e - 1)
    · rw [abs_lt]
      constructor <;> omega
    · rw [hu, hv, h2]
      push_cast
      norm_num
      ring
  have f1 : Double.round_to_nearest (1 * u + 1 * v) = 1 * u + 1 * v := by
    apply Double.round_to_nearest_of_eq _ (p + q) e
    · rw [abs_lt]
      constructor <;> omega
    · rw [hu, hv]
      push_cast
      ring
  rw [hLF, hUp, f6, f5, f7, f8, f1]
  rcases hn with h1 | h1
  · rw [h1]
    have f2 : Double.round_to_nearest ((1 * u + 1 * v) * 1) = (1 * u + 1 * v) * 1 := by
      rw [mul_one, f1]
    have f3 : Double.round_to_nearest (0 + (1 * u + 1 * v) * 1) = 0 + (1 * u + 1 * v) * 1 := by
      rw [zero_add, f2]
    have f4 : Double.round_to_nearest (0.5 * (0 + (1 * u + 1 * v) * 1))
        = 0.5 * (0 + (1 * u + 1 * v) * 1) := by
      apply Double.round_to_nearest_of_eq _ (p + q) (e - 1)
      · rw [abs_lt]
        constructor <;> omega
      · rw [hu, hv, h2]
        push_cast
        norm_num
        ring
    have f9 : Double.round_to_nearest (0.5 * (0 + (1 * u + 1 * v) * 1) + 0.5 * (u - v)) = u := by
      have e9 : (0.5 * (0 + (1 * u + 1 * v) * 1) + 0.5 * (u - v) : ℚ) = u := by
        norm_num
        ring
      rw [e9]
      apply Double.round_to_nearest_of_eq _ p e
      · rw [abs_lt]
        constructor <;> omega
      · exact hu
    have g1 : Double.round_to_nearest ((1 : ℚ) * 1) = 1 := by
      rw [Double.round_to_nearest_of_eq _ 1 0 (by norm_num) (by norm_num)]
      norm_num
    have g2 : Double.round_to_nearest ((0 : ℚ) + 1) = 1 := by
      rw [Double.round_to_nearest_of_eq _ 1 0 (by norm_num) (by norm_num)]
      norm_num
    have g3 : Double.round_to_nearest (1 * u * 1) = u := by
      have e3 : (1 * u * 1 : ℚ) = u := by ring
      rw [e3]
      apply Double.round_to_nearest_of_eq _ p e
      · rw [abs_lt]
        constructor <;> omega
      · exact hu
    have g4 : Double.round_to_nearest (0 + u) = u := by
      rw [zero_add]
      apply Double.round_to_nearest_of_eq _ p e
      · rw [abs_lt]
        constructor <;> omega
      · exact hu
    rw [f2, f3, f4, f9, g1, g2, if_pos (by norm_num), g3, g4]
  · rw [h1]
    have f2 : Double.round_to_nearest ((1 * u + 1 * v) * -1) = (1 * u + 1 * v) * -1 := by
      apply Double.round_to_nearest_of_eq _ (-(p + q)) e
      · rw [abs_lt]
        constructor <;> omega
      · rw [hu, hv]
        push_cast
        ring
    have f3 : Double.round_to_nearest (0 + (1 * u + 1 * v) * -1)
        = 0 + (1 * u + 1 * v) * -1 := by
      rw [zero_add, f2]
    have f4 : Double.round_to_nearest (0.5 * (0 + (1 * u + 1 * v) * -1))
        = 0.5 * (0 + (1 * u + 1 * v) * -1) := by
      apply Double.round_to_nearest_of_eq _ (-(p + q)) (e - 1)
      · rw [abs_lt]
        constructor <;> omega
      · rw [hu, hv, h2]
        push_cast
        norm_num
        ring
    have f9 : Double.round_to_nearest (0.5 * (0 + (1 * u + 1 * v) * -1) + 0.5 * (u - v))
        = -v := by
      have e9 : (0.5 * (0 + (1 * u + 1 * v) * -1) + 0.5 * (u - v) : ℚ) = -v := by
        norm_num
        ring
      rw [e9]
      apply Double.round_to_nearest_of_eq _ (-q) e
      · rw [abs_lt]
        constructor <;> omega
      · rw [hv]
        push_cast
        ring
    have g1 : Double.round_to_nearest ((-1 : ℚ) * 1) = -1 := by
      rw [Double.round_to_nearest_of_eq _ (-1) 0 (by norm_num) (by norm_num)]
      norm_num
    have g2 : Double.round_to_nearest ((0 : ℚ) + -1) = -1 := by
      rw [Double.round_to_nearest_of_eq _ (-1) 0 (by norm_num) (by norm_num)]
      norm_num
    have g3 : Double.round_to_nearest (1 * v * -1) = -v := by
      have e3 : (1 * v * -1 : ℚ) = -v := by ring
      rw [e3]
      apply Double.round_to_nearest_of_eq _ (-q) e
      · rw [abs_lt]
        constructor <;> omega
      · rw [hv]
        push_cast
        ring
    have g4 : Double.round_to_nearest (0 + -v) = -v := by
      rw [zero_add]
      apply Double.round_to_nearest_of_eq _ (-q) e
      · rw [abs_lt]
        constructor <;> omega
      · rw [hv]
        push_cast
        ring
    rw [f2, f3, f4, f9, g1, g2, if_neg (by norm_num), g3, g4]

/-- C26, amended. In exact arithmetic the two fluxes coincide for a linear flux: for a scalar
flux in one space dimension with `f(u) = a u` and the constant Jacobian `a`, `a` not zero, and
a unit normal `n = 1` or `n = -1`, the Lax-Friedrichs flux and the upwind flux have the same
value for all states `u` and `v`, both as formulas over the rationals and as the methods with
the rounding `fl = id`.  In `double` arithmetic they coincide for `a = 1` when the states are
multiples `p * 2^e` and `q * 2^e` of one power of two with `|p|, |q| <= 2^51`, where no
operation rounds. -/
theorem NumericalLaxFriedrichsFlux.apply_eq_upwind_of_linear (flux : ScalarFluxType 1) (a : ℚ)
    (ha : a ≠ 0) (hf : ∀ u, flux.evaluate u 0 = a * u) (hdf : ∀ u, flux.jacobian u 0 = a)
    (n : Vec 1) (hn : n 0 = 1 ∨ n 0 = -1) (u v : ℚ) :
    NumericalLaxFriedrichsFlux.apply flux u v n = NumericalUpwindFlux.apply flux u v n ∧
    NumericalLaxFriedrichsFlux.apply_rounded id flux u v n
      = NumericalUpwindFlux.apply_rounded id flux u v n ∧
    (a = 1 → ∀ p q e : ℤ, |p| ≤ 2 ^ 51 → |q| ≤ 2 ^ 51 → u = (p : ℚ) * 2 ^ e →
      v = (q : ℚ) * 2 ^ e →
      NumericalLaxFriedrichsFlux.apply_rounded Double.round_to_nearest flux u v n
        = NumericalUpwindFlux.apply_rounded Double.round_to_nearest flux u v n) := by
  have key : NumericalLaxFriedrichsFlux.apply flux u v n
      = NumericalUpwindFlux.apply flux u v n := by
    have habs : |a| ≠ 0 := abs_ne_zero.mpr ha
    simp only [NumericalLaxFriedrichsFlux.apply, NumericalUpwindFlux.apply, infinity_norm_one,
      hdf, max_self, Quot1.one_over, if_neg habs, Quot1.divide, dot, Fin.sum_univ_one,
      Pi.add_apply, hf]
    rcases lt_or_gt_of_ne ha with hneg | hpos
    · rw [abs_of_neg hneg]
      rcases hn with h1 | h1
      · rw [h1, if_neg (by linarith)]
        show Except.ok _ = Except.ok _
        congr 1
        field_simp
        ring
      · rw [h1, if_pos (by linarith)]
        show Except.ok _ = Except.ok _
        congr 1
        field_simp
        ring
    · rw [abs_of_pos hpos]
      rcases hn with h1 | h1
      · rw [h1, if_pos (by linarith)]
        show Except.ok _ = Except.ok _
        congr 1
        field_simp
        ring
      · rw [h1, if_neg (by linarith)]
        show Except.ok _ = Except.ok _
        congr 1
        field_simp
        ring
  refine ⟨key, ?_, ?_⟩
  · rw [NumericalLaxFriedrichsFlux.lax_friedrichs_apply_rounded_id,
      NumericalUpwindFlux.upwind_apply_rounded_id, key]
  · intro ha1 p q e hp hq hu hv
    subst ha1
    exact NumericalLaxFriedrichsFlux.apply_rounded_eq_upwind_of_exact flux hf hdf n hn u v p q e
      hp hq hu hv

/-- C26, amended, at `f(u) = -2 u`, the normal `-1` and the states 3 and 5: in exact
arithmetic both fluxes give 6, the flux `f(3) * n` of the inside state (the projection
`n * a = 2` is positive); and at `f(u) = u`, the normal 1 and the states `3/4` and `1/2`, where
the two fluxes coincide in `double` arithmetic too. -/
theorem NumericalLaxFriedrichsFlux.apply_eq_upwind_of_linear_witness :
    NumericalLaxFriedrichsFlux.apply_rounded Double.round_to_nearest (linear_flux 1)
        (3 / 4) (1 / 2) ![1]
      = NumericalUpwindFlux.apply_rounded Double.round_to_nearest (linear_flux 1)
        (3 / 4) (1 / 2) ![1] ∧
    NumericalLaxFriedrichsFlux.apply (linear_flux (-2)) 3 5 ![-1]
      = NumericalUpwindFlux.apply (linear_flux (-2)) 3 5 ![-1] ∧
    NumericalUpwindFlux.apply (linear_flux (-2)) 3 5 ![-1] = Except.ok 6 := by
  refine ⟨(NumericalLaxFriedrichsFlux.apply_eq_upwind_of_linear (linear_flux 1) 1
      (by norm_num) (fun _ => rfl) (fun _ => rfl) ![1] (Or.inl rfl) (3 / 4) (1 / 2)).2.2 rfl
      3 2 (-2) (by norm_num) (by norm_num) (by norm_num) (by norm_num),
    (NumericalLaxFriedrichsFlux.apply_eq_upwind_of_linear (linear_flux (-2)) (-2)
    (by norm_num) (fun _ => rfl) (fun _ => rfl) ![-1] (Or.inr rfl) 3 5).1, ?_⟩
  have hpos : dot ![-1] ((linear_flux (-2)).jacobian (((3 : ℚ) + 5) / 2)) > 0 := by
    norm_num [dot, linear_flux]
  simp only [NumericalUpwindFlux.apply, if_pos hpos]
  show Except.ok _ = Except.ok _
  congr 1
  norm_num [dot, linear_flux]

/-- The rounded Lax-Friedrichs flux for `f(u) = a u`, `a` not zero, in one space dimension:
the operations in the order of the code. -/
theorem NumericalLaxFriedrichsFlux.lax_friedrichs_apply_rounded_linear (fl : ℚ → ℚ) (a u v : ℚ) (n : Vec 1)
    (ha : a ≠ 0) :
    NumericalLaxFriedrichsFlux.apply_rounded fl (linear_flux a) u v n
      = Except.ok (fl (fl (0.5 * fl (0 + fl (fl (a * u + a * v) * n 0)))
          + fl (0.5 * fl (fl (u - v) / fl (1 / |a|))))) := by
  have habs : |a| ≠ 0 := abs_ne_zero.mpr ha
  simp only [NumericalLaxFriedrichsFlux.apply_rounded, infinity_norm_one, linear_flux, max_self,
    Quot1.one_over_rounded, if_neg habs, Quot1.divide_rounded, dot_rounded_one]
  rfl

/-- The rounded upwind flux for `f(u) = a u` in one space dimension: the operations in the
order of the code. -/
theorem NumericalUpwindFlux.upwind_apply_rounded_linear (fl : ℚ → ℚ) (a u v : ℚ) (n : Vec 1) :
    NumericalUpwindFlux.apply_rounded fl (linear_flux a) u v n
      = if fl (0 + fl (n 0 * a)) > 0 then Except.ok (fl (0 + fl (a * u * n 0)))
        else Except.ok (fl (0 + fl (a * v * n 0))) := by
  simp only [NumericalUpwindFlux.apply_rounded, linear_flux, dot_rounded_one]
  rfl

/-- C26 as stated fails in `double` arithmetic at `f(u) = u`, `n = 1` and the states `0.1` and
`0.2` (the nearest `double`s): the sum `u + v` is rounded up, the Lax-Friedrichs flux gives
`7205759403792795 / 2^56` (`0.10000000000000002`), one unit in the last place above the value
`3602879701896397 / 2^55` (`0.1`) of the upwind flux. -/
theorem NumericalLaxFriedrichsFlux.apply_rounded_ne_upwind_counterexample :
    NumericalLaxFriedrichsFlux.apply_rounded Double.round_to_nearest (linear_flux 1)
        Double.one_tenth Double.two_tenths ![1]
      = Except.ok (7205759403792795 / 72057594037927936) ∧
    NumericalUpwindFlux.apply_rounded Double.round_to_nearest (linear_flux 1)
        Double.one_tenth Double.two_tenths ![1]
      = Except.ok (3602879701896397 / 36028797018963968) ∧
    NumericalLaxFriedrichsFlux.apply_rounded Double.round_to_nearest (linear_flux 1)
        Double.one_tenth Double.two_tenths ![1]
      ≠ NumericalUpwindFlux.apply_rounded Double.round_to_nearest (linear_flux 1)
        Double.one_tenth Double.two_tenths ![1] := by
  have f1 : Double.round_to_nearest (1 * Double.one_tenth + 1 * Double.two_tenths)
      = 1351079888211149 / 4503599627370496 := by
    rw [Double.round_to_nearest_eq _ (-2) 5404319552844596
      (by norm_num [Double.one_tenth, Double.two_tenths, abs_of_pos])
      (by norm_num [Double.one_tenth, Double.two_tenths, abs_of_pos])
      (by
        rw [Double.ties_to_even_of_half _ 5404319552844595
          (by norm_num [Double.one_tenth, Double.two_tenths])]
        decide)]
    norm_num
  have f2 : Double.round_to_nearest (1351079888211149 / 4503599627370496 * (![1] : Vec 1) 0)
      = 1351079888211149 / 4503599627370496 := by
    rw [Double.round_to_nearest_of_eq _ 1351079888211149 (-52) (by norm_num) (by norm_num)]
    norm_num
  have f3 : Double.round_to_nearest (0 + 1351079888211149 / 4503599627370496)
      = 1351079888211149 / 4503599627370496 := by
    rw [Double.round_to_nearest_of_eq _ 1351079888211149 (-52) (by norm_num) (by norm_num)]
    norm_num
  have f4 : Double.round_to_nearest (0.5 * (1351079888211149 / 4503599627370496))
      = 1351079888211149 / 9007199254740992 := by
    rw [Double.round_to_nearest_of_eq _ 1351079888211149 (-53) (by norm_num) (by norm_num)]
    norm_num
  have f5 : Double.round_to_nearest (Double.one_tenth - Double.two_tenths)
      = -(3602879701896397 / 36028797018963968) := by
    rw [Double.round_to_nearest_of_eq _ (-3602879701896397) (-55) (by norm_num)
      (by norm_num [Double.one_tenth, Double.two_tenths])]
    norm_num [Double.one_tenth, Double.two_tenths]
  have f6 : Double.round_to_nearest (1 / |(1 : ℚ)|) = 1 := by
    rw [Double.round_to_nearest_of_eq _ 1 0 (by norm_num) (by norm_num)]
    norm_num
  have f7 : Double.round_to_nearest (-(3602879701896397 / 36028797018963968) / 1)
      = -(3602879701896397 / 36028797018963968) := by
    rw [Double.round_to_nearest_of_eq _ (-3602879701896397) (-55) (by norm_num) (by norm_num)]
    norm_num
  have f8 : Double.round_to_nearest (0.5 * -(3602879701896397 / 36028797018963968))
      = -(3602879701896397 / 72057594037927936) := by
    rw [Double.round_to_nearest_of_eq _ (-3602879701896397) (-56) (by norm_num) (by norm_num)]
    norm_num
  have f9 : Double.round_to_nearest (1351079888211149 / 9007199254740992
      + -(3602879701896397 / 72057594037927936)) = 7205759403792795 / 72057594037927936 := by
    rw [Double.round_to_nearest_of_eq _ 7205759403792795 (-56) (by norm_num) (by norm_num)]
    norm_num
  have g1 : Double.round_to_nearest ((![1] : Vec 1) 0 * 1) = 1 := by
    rw [Double.round_to_nearest_of_eq _ 1 0 (by norm_num) (by norm_num)]
    norm_num
  have g2 : Double.round_to_nearest (0 + 1) = 1 := by
    rw [Double.round_to_nearest_of_eq _ 1 0 (by norm_num) (by norm_num)]
    norm_num
  have g3 : Double.round_to_nearest (1 * Double.one_tenth * (![1] : Vec 1) 0)
      = 3602879701896397 / 36028797018963968 := by
    rw [Double.round_to_nearest_of_eq _ 3602879701896397 (-55) (by norm_num)
      (by norm_num [Double.one_tenth])]
    norm_num [Double.one_tenth]
  have g4 : Double.round_to_nearest (0 + 3602879701896397 / 36028797018963968)
      = 3602879701896397 / 36028797018963968 := by
    rw [Double.round_to_nearest_of_eq _ 3602879701896397 (-55) (by norm_num) (by norm_num)]
    norm_num
  have hLF : NumericalLaxFriedrichsFlux.apply_rounded Double.round_to_nearest (linear_flux 1)
      Double.one_tenth Double.two_tenths ![1]
      = Except.ok (7205759403792795 / 72057594037927936) := by
    rw [NumericalLaxFriedrichsFlux.lax_friedrichs_apply_rounded_linear _ 1 _ _ _ one_ne_zero, f1, f2, f3, f4,
      f5, f6, f7, f8, f9]
  have hUp : NumericalUpwindFlux.apply_rounded Double.round_to_nearest (linear_flux 1)
      Double.one_tenth Double.two_tenths ![1]
      = Except.ok (3602879701896397 / 36028797018963968) := by
    rw [NumericalUpwindFlux.upwind_apply_rounded_linear, g1, g2, if_pos (by norm_num), g3, g4]
  refine ⟨hLF, hUp, ?_⟩
  rw [hLF, hUp]
  intro h
  have h2 := Except.ok.inj h
  norm_num at h2

/-! ## LinearTransportProblem: the exact solution -/

/-- For `x >= 0`, `std::fmod(x, 1.)` is the fractional part of `x`. -/
theorem fmod_one_of_nonneg (x : ℚ) (hx : 0 ≤ x) : fmod x 1 = x - ⌊x⌋ := by
  simp only [fmod, div_one, if_pos hx, mul_one]

/-- For `x >= 0`, `std::fmod(x + 1., 1.)` is `std::fmod(x, 1.)`. -/
theorem fmod_add_one (x : ℚ) (hx : 0 ≤ x) : fmod (x + 1) 1 = fmod x 1 := by
  rw [fmod_one_of_nonneg x hx, fmod_one_of_nonneg (x + 1) (by linarith), Int.floor_add_one]
  push_cast
  ring

/-- The method `make_exact_solution__periodic_boundaries` returns for a time up to 1. -/
theorem LinearTransportProblem.make_exact_solution_of_le {d : Nat} [NeZero d] {DF : Type}
    (interpolate : Nat → (Vec d → ℚ) → DF) (time : ℚ) (h : time ≤ 1) :
    LinearTransportProblem.make_exact_solution__periodic_boundaries interpolate time
      = Except.ok (interpolate 0 fun xx =>
          LinearTransportProblem.indicator (fmod (xx 0 - time + 1) 1)) := by
  simp only [LinearTransportProblem.make_exact_solution__periodic_boundaries, gt_iff_lt,
    if_neg (not_lt.mpr h)]
  rfl

/-- The method `make_exact_solution__periodic_boundaries` throws for a time beyond 1. -/
theorem LinearTransportProblem.make_exact_solution_of_gt {d : Nat} [NeZero d] {DF : Type}
    (interpolate : Nat → (Vec d → ℚ) → DF) (time : ℚ) (h : 1 < time) :
    LinearTransportProblem.make_exact_solution__periodic_boundaries interpolate time
      = Except.error Exc.wrong_input_given := by
  simp only [LinearTransportProblem.make_exact_solution__periodic_boundaries, gt_iff_lt,
    if_pos h]
  rfl

/-- For a `double` `x = k / 2^52` of the interval `[0, 1]` the argument of `fmod` is computed
without rounding, at the time 0 and at the time 1. -/
theorem LinearTransportProblem.rounded_argument_exact (k : ℕ) (hk : k ≤ 2 ^ 52) (x : ℚ)
    (hx : x = (k : ℚ) / 2 ^ 52) :
    Double.round_to_nearest (Double.round_to_nearest (x - 0) + 1) = x - 0 + 1 ∧
    Double.round_to_nearest (Double.round_to_nearest (x - 1) + 1) = x - 1 + 1 := by
  have hkz : (k : ℤ) ≤ 2 ^ 52 := by exact_mod_cast hk
  have hk0 : (0 : ℤ) ≤ (k : ℤ) := Int.natCast_nonneg k
  have h1 : Double.round_to_nearest (x - 0) = x - 0 := by
    apply Double.round_to_nearest_of_eq _ (k : ℤ) (-52)
    · rw [abs_of_nonneg hk0]
      omega
    · rw [hx]
      push_cast
      norm_num
      ring
  have h2 : Double.round_to_nearest (x - 0 + 1) = x - 0 + 1 := by
    by_cases hkk : k = 2 ^ 52
    · apply Double.round_to_nearest_of_eq _ 1 1 (by norm_num)
      rw [hx, hkk]
      norm_num
    · apply Double.round_to_nearest_of_eq _ ((k : ℤ) + 2 ^ 52) (-52)
      · have : (k : ℤ) ≠ 2 ^ 52 := by exact_mod_cast hkk
        rw [abs_of_nonneg (by omega)]
        omega
      · rw [hx]
        push_cast
        norm_num
        ring
  have h3 : Double.round_to_nearest (x - 1) = x - 1 := by
    apply Double.round_to_nearest_of_eq _ ((k : ℤ) - 2 ^ 52) (-52)
    · rw [abs_of_nonpos (by omega)]
      omega
    · rw [hx]
      push_cast
      norm_num
      ring
  have h4 : Double.round_to_nearest (x - 1 + 1) = x - 1 + 1 := by
    apply Double.round_to_nearest_of_eq _ (k : ℤ) (-52)
    · rw [abs_of_nonneg hk0]
      omega
    · rw [hx]
      push_cast
      norm_num
      ring
  rw [h1, h2, h3, h4]
  exact ⟨rfl, rfl⟩

/-- C23, amended. In exact arithmetic the exact solution of `LinearTransportProblem` has the
period 1 in time: the calls of `make_exact_solution__periodic_boundaries` for the times 0 and 1
both return, they hand the functions `u(., 0)` and `u(., 1)` with
`u(x, t) = indicator(fmod(x[0] - t + 1, 1))` to `interpolate` (the method with the rounding
`fl = id` gives the same), and `u(x, 1) = u(x, 0)` for every `x` with `0 <= x[0] <= 1`.  In
`double` arithmetic the calls return as well, and for every `x` whose first coordinate is a
multiple `k / 2^52` of `2^(-52)` in `[0, 1]` no operation rounds: the functions take the values
of exact arithmetic there, and `u(x, 1) = u(x, 0)`. -/
theorem LinearTransportProblem.exact_solution_periodic {d : Nat} [NeZero d] {DF : Type}
    (interpolate : Nat → (Vec d → ℚ) → DF) :
    ∃ u0 u1 : Vec d → ℚ,
      LinearTransportProblem.make_exact_solution__periodic_boundaries interpolate 0
        = Except.ok (interpolate 0 u0) ∧
      LinearTransportProblem.make_exact_solution__periodic_boundaries interpolate 1
        = Except.ok (interpolate 0 u1) ∧
      (∀ xx, u0 xx = LinearTransportProblem.indicator (fmod (xx 0 - 0 + 1) 1)) ∧
      (∀ xx, u1 xx = LinearTransportProblem.indicator (fmod (xx 0 - 1 + 1) 1)) ∧
      (∀ xx : Vec d, 0 ≤ xx 0 → xx 0 ≤ 1 → u1 xx = u0 xx) ∧
      LinearTransportProblem.make_exact_solution__periodic_boundaries_rounded id interpolate 0
        = Except.ok (interpolate 0 u0) ∧
      LinearTransportProblem.make_exact_solution__periodic_boundaries_rounded id interpolate 1
        = Except.ok (interpolate 0 u1) ∧
      ∃ w0 w1 : Vec d → ℚ,
        LinearTransportProblem.make_exact_solution__periodic_boundaries_rounded
          Double.round_to_nearest interpolate 0 = Except.ok (interpolate 0 w0) ∧
        LinearTransportProblem.make_exact_solution__periodic_boundaries_rounded
          Double.round_to_nearest interpolate 1 = Except.ok (interpolate 0 w1) ∧
        ∀ (xx : Vec d) (k : ℕ), k ≤ 2 ^ 52 → xx 0 = (k : ℚ) / 2 ^ 52 →
          w0 xx = u0 xx ∧ w1 xx = u1 xx ∧ w1 xx = w0 xx := by
  have hper : ∀ xx : Vec d, 0 ≤ xx 0 → xx 0 ≤ 1 →
      LinearTransportProblem.indicator (fmod (xx 0 - 1 + 1) 1)
        = LinearTransportProblem.indicator (fmod (xx 0 - 0 + 1) 1) := by
    intro xx h0 _
    rw [sub_zero, fmod_add_one (xx 0) h0, sub_add_cancel]
  refine ⟨_, _, LinearTransportProblem.make_exact_solution_of_le interpolate 0 (by norm_num),
    LinearTransportProblem.make_exact_solution_of_le interpolate 1 (le_refl 1),
    fun _ => rfl, fun _ => rfl, hper, ?_, ?_,
    (fun xx => LinearTransportProblem.indicator
      (fmod (Double.round_to_nearest (Double.round_to_nearest (xx 0 - 0) + 1)) 1)),
    (fun xx => LinearTransportProblem.indicator
      (fmod (Double.round_to_nearest (Double.round_to_nearest (xx 0 - 1) + 1)) 1)),
    ?_, ?_, ?_⟩
  · rw [LinearTransportProblem.make_exact_solution_rounded_id]
    exact LinearTransportProblem.make_exact_solution_of_le interpolate 0 (by norm_num)
  · rw [LinearTransportProblem.make_exact_solution_rounded_id]
    exact LinearTransportProblem.make_exact_solution_of_le interpolate 1 (le_refl 1)
  · simp only [LinearTransportProblem.make_exact_solution__periodic_boundaries_rounded,
      gt_iff_lt, if_neg (by norm_num : ¬ (1 : ℚ) < 0)]
    rfl
  · simp only [LinearTransportProblem.make_exact_solution__periodic_boundaries_rounded,
      gt_iff_lt, if_neg (lt_irrefl (1 : ℚ))]
    rfl
  · intro xx k hk hx
    obtain ⟨e0, e1⟩ := LinearTransportProblem.rounded_argument_exact k hk (xx 0) hx
    have h0 : (0 : ℚ) ≤ xx 0 := by
      rw [hx]
      positivity
    have h1 : xx 0 ≤ 1 := by
      rw [hx, div_le_one (by positivity)]
      exact_mod_cast hk
    refine ⟨?_, ?_, ?_⟩
    · show LinearTransportProblem.indicator
        (fmod (Double.round_to_nearest (Double.round_to_nearest (xx 0 - 0) + 1)) 1) = _
      rw [e0]
    · show LinearTransportProblem.indicator
        (fmod (Double.round_to_nearest (Double.round_to_nearest (xx 0 - 1) + 1)) 1) = _
      rw [e1]
    · show LinearTransportProblem.indicator
          (fmod (Double.round_to_nearest (Double.round_to_nearest (xx 0 - 1) + 1)) 1)
        = LinearTransportProblem.indicator
          (fmod (Double.round_to_nearest (Double.round_to_nearest (xx 0 - 0) + 1)) 1)
      rw [e0, e1]
      exact hper xx h0 h1

/-- C23, amended, in one space dimension, with the function itself as its interpolation, at
`x = 3 / 8 = 3 * 2^49 / 2^52`: both calls return, and `u(3/8, 1) = u(3/8, 0) = 1`, in exact
arithmetic and in `double` arithmetic. -/
theorem LinearTransportProblem.exact_solution_periodic_witness :
    ∃ u0 u1 w0 w1 : Vec 1 → ℚ,
      LinearTransportProblem.make_exact_solution__periodic_boundaries
        (fun _ (f : Vec 1 → ℚ) => f) 0 = Except.ok u0 ∧
      LinearTransportProblem.make_exact_solution__periodic_boundaries
        (fun _ (f : Vec 1 → ℚ) => f) 1 = Except.ok u1 ∧
      LinearTransportProblem.make_exact_solution__periodic_boundaries_rounded
        Double.round_to_nearest (fun _ (f : Vec 1 → ℚ) => f) 0 = Except.ok w0 ∧
      LinearTransportProblem.make_exact_solution__periodic_boundaries_rounded
        Double.round_to_nearest (fun _ (f : Vec 1 → ℚ) => f) 1 = Except.ok w1 ∧
      w1 ![3 / 8] = w0 ![3 / 8] ∧ w0 ![3 / 8] = u0 ![3 / 8] ∧
      u1 ![3 / 8] = u0 ![3 / 8] ∧ u0 ![3 / 8] = 1 := by
  obtain ⟨u0, u1, h0, h1, hu0, _, hper, _, _, w0, w1, hw0, hw1, hgrid⟩ :=
    LinearTransportProblem.exact_solution_periodic (fun _ (f : Vec 1 → ℚ) => f)
  obtain ⟨g0, _, g1⟩ := hgrid ![3 / 8] (3 * 2 ^ 49) (by norm_num) (by norm_num)
  refine ⟨u0, u1, w0, w1, h0, h1, hw0, hw1, g1, g0,
    hper ![3 / 8] (by norm_num) (by norm_num), ?_⟩
  rw [hu0]
  have hfloor : ⌊((3 : ℚ) / 8 + 1)⌋ = 1 := by
    rw [Int.floor_eq_iff]
    norm_num
  have hf : fmod ((![3 / 8] : Vec 1) 0 - 0 + 1) 1 = 3 / 8 := by
    rw [sub_zero, fmod_one_of_nonneg _ (by norm_num)]
    show (3 : ℚ) / 8 + 1 - ⌊((3 : ℚ) / 8 + 1)⌋ = 3 / 8
    rw [hfloor]
    norm_num
  rw [hf]
  norm_num [LinearTransportProblem.indicator]

/-- C23 as stated fails in `double` arithmetic at `x = 1/4 - 2^(-53)`, a `double` of the
interval `[0, 1]`: at the time 0 the sum `x + 1` is rounded to `5/4`, `fmod` gives `1/4` and
`u(x, 0) = 1`; at the time 1 the operations are exact, `fmod` gives `x < 1/4` and
`u(x, 1) = 0`. -/
theorem LinearTransportProblem.exact_solution_rounded_counterexample :
    ∃ u0 u1 : Vec 1 → ℚ,
      LinearTransportProblem.make_exact_solution__periodic_boundaries_rounded
        Double.round_to_nearest (fun _ (f : Vec 1 → ℚ) => f) 0 = Except.ok u0 ∧
      LinearTransportProblem.make_exact_solution__periodic_boundaries_rounded
        Double.round_to_nearest (fun _ (f : Vec 1 → ℚ) => f) 1 = Except.ok u1 ∧
      (0 : ℚ) ≤ 2251799813685247 / 9007199254740992 ∧
      (2251799813685247 / 9007199254740992 : ℚ) ≤ 1 ∧
      Double.round_to_nearest (2251799813685247 / 9007199254740992)
        = 2251799813685247 / 9007199254740992 ∧
      u0 ![2251799813685247 / 9007199254740992] = 1 ∧
      u1 ![2251799813685247 / 9007199254740992] = 0 ∧
      u1 ![2251799813685247 / 9007199254740992]
        ≠ u0 ![2251799813685247 / 9007199254740992] := by
  have f0 : Double.round_to_nearest (2251799813685247 / 9007199254740992)
      = 2251799813685247 / 9007199254740992 := by
    rw [Double.round_to_nearest_of_eq _ 2251799813685247 (-53) (by norm_num) (by norm_num)]
  have f1 : Double.round_to_nearest
      ((![2251799813685247 / 9007199254740992] : Vec 1) 0 - 0)
      = 2251799813685247 / 9007199254740992 := by
    rw [Double.round_to_nearest_of_eq _ 2251799813685247 (-53) (by norm_num) (by norm_num)]
    norm_num
  have f2 : Double.round_to_nearest (2251799813685247 / 9007199254740992 + 1) = 5 / 4 := by
    rw [Double.round_to_nearest_eq _ 0 5629499534213120 (by norm_num [abs_of_pos])
      (by norm_num [abs_of_pos])
      (by
        rw [Double.ties_to_even_of_half _ 5629499534213119 (by norm_num)]
        decide)]
    norm_num
  have f3 : Double.round_to_nearest
      ((![2251799813685247 / 9007199254740992] : Vec 1) 0 - 1)
      = -(6755399441055745 / 9007199254740992) := by
    rw [Double.round_to_nearest_of_eq _ (-6755399441055745) (-53) (by norm_num)
      (by norm_num)]
    norm_num
  have f4 : Double.round_to_nearest (-(6755399441055745 / 9007199254740992) + 1)
      = 2251799813685247 / 9007199254740992 := by
    rw [Double.round_to_nearest_of_eq _ 2251799813685247 (-53) (by norm_num) (by norm_num)]
    norm_num
  have m0 : fmod (5 / 4) 1 = 1 / 4 := by
    have hfloor : ⌊((5 : ℚ) / 4)⌋ = 1 := by
      rw [Int.floor_eq_iff]
      norm_num
    rw [fmod_one_of_nonneg _ (by norm_num), hfloor]
    norm_num
  have m1 : fmod (2251799813685247 / 9007199254740992) 1
      = 2251799813685247 / 9007199254740992 := by
    have hfloor : ⌊((2251799813685247 : ℚ) / 9007199254740992)⌋ = 0 := by
      rw [Int.floor_eq_iff]
      norm_num
    rw [fmod_one_of_nonneg _ (by norm_num), hfloor]
    norm_num
  have e0 : LinearTransportProblem.indicator (fmod (Double.round_to_nearest
      (Double.round_to_nearest ((![2251799813685247 / 9007199254740992] : Vec 1) 0 - 0) + 1))
      1) = 1 := by
    rw [f1, f2, m0]
    norm_num [LinearTransportProblem.indicator]
  have e1 : LinearTransportProblem.indicator (fmod (Double.round_to_nearest
      (Double.round_to_nearest ((![2251799813685247 / 9007199254740992] : Vec 1) 0 - 1) + 1))
      1) = 0 := by
    rw [f3, f4, m1]
    norm_num [LinearTransportProblem.indicator]
  refine ⟨_, _, rfl, rfl, by norm_num, by norm_num, f0, e0, e1, ?_⟩
  show LinearTransportProblem.indicator (fmod (Double.round_to_nearest
      (Double.round_to_nearest ((![2251799813685247 / 9007199254740992] : Vec 1) 0 - 1) + 1))
      1) ≠ LinearTransportProblem.indicator (fmod (Double.round_to_nearest
      (Double.round_to_nearest ((![2251799813685247 / 9007199254740992] : Vec 1) 0 - 0) + 1))
      1)
  rw [e0, e1]
  norm_num

/-! ## LinearTransportTest: the loop over the time steps -/

namespace LinearTransportTest

/-- The loop ends at once, whatever the fuel, when its condition does not hold. -/
theorem reference_solution_loop_done {d : Nat} [NeZero d] {DF : Type}
    (interpolate : Nat → (Vec d → ℚ) → DF) (T_end_ dt : ℚ) (fuel : Nat) (time : ℚ)
    (reference_solution : List (DF × ℚ)) (h : ¬ time < T_end_ + dt) :
    reference_solution_loop interpolate T_end_ dt fuel time reference_solution
      = some (Except.ok reference_solution) := by
  cases fuel with
  | zero => simp only [reference_solution_loop, if_neg h]
  | succ fuel => simp only [reference_solution_loop, if_neg h]

/-- One iteration of the loop for a time up to 1. -/
theorem reference_solution_loop_step {d : Nat} [NeZero d] {DF : Type}
    (interpolate : Nat → (Vec d → ℚ) → DF) (T_end_ dt : ℚ) (fuel : Nat) (time : ℚ)
    (reference_solution : List (DF × ℚ)) (h : time < T_end_ + dt) (h1 : time ≤ 1) :
    reference_solution_loop interpolate T_end_ dt (fuel + 1) time reference_solution
      = reference_solution_loop interpolate T_end_ dt fuel (time + dt)
          (reference_solution ++ [(interpolate 0 fun xx =>
            LinearTransportProblem.indicator (fmod (xx 0 - time + 1) 1), time)]) := by
  simp only [reference_solution_loop, if_pos h,
    LinearTransportProblem.make_exact_solution_of_le interpolate time h1]

/-- The iteration of the loop for a time beyond 1 throws. -/
theorem reference_solution_loop_throw {d : Nat} [NeZero d] {DF : Type}
    (interpolate : Nat → (Vec d → ℚ) → DF) (T_end_ dt : ℚ) (fuel : Nat) (time : ℚ)
    (reference_solution : List (DF × ℚ)) (h : time < T_end_ + dt) (h1 : 1 < time) :
    reference_solution_loop interpolate T_end_ dt (fuel + 1) time reference_solution
      = some (Except.error Exc.wrong_input_given) := by
  simp only [reference_solution_loop, if_pos h,
    LinearTransportProblem.make_exact_solution_of_gt interpolate time h1]

/-- When no multiple of `dt` leads from `time` to 1 exactly, the loop reaches a time beyond 1
and throws `wrong_input_given`, for every fuel that covers the remaining steps. -/
theorem reference_solution_loop_throws {d : Nat} [NeZero d] {DF : Type}
    (interpolate : Nat → (Vec d → ℚ) → DF) (dt : ℚ) (fuel : Nat) :
    ∀ (time : ℚ) (reference_solution : List (DF × ℚ)), time < 1 + dt →
      (∀ k : ℕ, time + k * dt ≠ 1) → 1 + dt - time < fuel * dt →
      reference_solution_loop interpolate LinearTransportProblem.T_end dt fuel time
        reference_solution = some (Except.error Exc.wrong_input_given) := by
  induction fuel with
  | zero =>
    intro time _ hlt _ hfuel
    norm_num at hfuel
    linarith
  | succ fuel ih =>
    intro time reference_solution hlt hk hfuel
    have hcond : time < LinearTransportProblem.T_end + dt := hlt
    by_cases h1 : 1 < time
    · exact reference_solution_loop_throw interpolate _ dt fuel time reference_solution hcond h1
    · have hle : time ≤ 1 := not_lt.mp h1
      have hne : time ≠ 1 := by
        have := hk 0
        simpa using this
      have hlt1 : time < 1 := lt_of_le_of_ne hle hne
      rw [reference_solution_loop_step interpolate _ dt fuel time reference_solution hcond hle]
      apply ih
      · linarith
      · intro k hkk
        apply hk (k + 1)
        push_cast
        linarith
      · push_cast at hfuel
        linarith

/-- When `k` steps of `dt` lead from `time` to 1 exactly, the loop returns with fuel for
`k + 1` iterations: it appends `k + 1` snapshots, each for a time up to 1. -/
theorem reference_solution_loop_returns {d : Nat} [NeZero d] {DF : Type}
    (interpolate : Nat → (Vec d → ℚ) → DF) (dt : ℚ) (hdt : 0 < dt) (k : Nat) :
    ∀ (fuel : Nat) (time : ℚ) (reference_solution : List (DF × ℚ)), time + k * dt = 1 →
      k + 1 ≤ fuel →
      ∃ r, reference_solution_loop interpolate LinearTransportProblem.T_end dt fuel time
          reference_solution = some (Except.ok (reference_solution ++ r)) ∧
        r.length = k + 1 ∧ ∀ p ∈ r, p.2 ≤ 1 := by
  induction k with
  | zero =>
    intro fuel time reference_solution ht hfuel
    have ht1 : time = 1 := by simpa using ht
    obtain ⟨f, rfl⟩ : ∃ f, fuel = f + 1 := ⟨fuel - 1, by omega⟩
    have hcond : time < LinearTransportProblem.T_end + dt := by
      rw [ht1]
      show (1 : ℚ) < 1 + dt
      linarith
    rw [reference_solution_loop_step interpolate _ dt f time reference_solution hcond
      (le_of_eq ht1)]
    rw [reference_solution_loop_done]
    · refine ⟨_, rfl, rfl, ?_⟩
      intro p hp
      rw [List.mem_singleton] at hp
      rw [hp]
      exact le_of_eq ht1
    · rw [ht1]
      show ¬ (1 + dt < 1 + dt)
      exact lt_irrefl _
  | succ k ih =>
    intro fuel time reference_solution ht hfuel
    obtain ⟨f, rfl⟩ : ∃ f, fuel = f + 1 := ⟨fuel - 1, by omega⟩
    have hk0 : (0 : ℚ) ≤ k := Nat.cast_nonneg k
    have hprod : 0 ≤ (k : ℚ) * dt := mul_nonneg hk0 (le_of_lt hdt)
    push_cast at ht
    have hlt1 : time < 1 := by nlinarith
    have hcond : time < LinearTransportProblem.T_end + dt := by
      show time < 1 + dt
      linarith
    rw [reference_solution_loop_step interpolate _ dt f time reference_solution hcond
      (le_of_lt hlt1)]
    obtain ⟨r, hr, hlen, hall⟩ := ih f (time + dt)
      (reference_solution ++ [(interpolate 0 fun xx =>
        LinearTransportProblem.indicator (fmod (xx 0 - time + 1) 1), time)])
      (by linarith) (by omega)
    refine ⟨(interpolate 0 fun xx =>
        LinearTransportProblem.indicator (fmod (xx 0 - time + 1) 1), time) :: r, ?_,
      by simp [hlen], ?_⟩
    · rw [hr, List.append_assoc]
      rfl
    · intro p hp
      rcases List.mem_cons.mp hp with h | h
      · rw [h]
        exact le_of_lt hlt1
      · exact hall p h

/-- The method `compute_reference_solution` for a time step `dt > 0` and enough fuel: it
returns, with snapshots for times up to 1 only, when 1 is a multiple of `dt`, and it throws
`wrong_input_given` otherwise. -/
theorem compute_reference_solution_eq {d : Nat} [NeZero d] {DF : Type}
    (interpolate : Nat → (Vec d → ℚ) → DF) (dt : ℚ) (hdt : 0 < dt) (fuel : Nat)
    (hfuel : 1 + dt < fuel * dt) :
    ((∃ k : ℕ, k * dt = 1) →
      ∃ r, compute_reference_solution interpolate none dt fuel = some (Except.ok r) ∧
        ∀ p ∈ r, p.2 ≤ 1) ∧
    ((¬ ∃ k : ℕ, k * dt = 1) →
      compute_reference_solution interpolate none dt fuel
        = some (Except.error Exc.wrong_input_given)) := by
  constructor
  · rintro ⟨k, hk⟩
    have hkf : k + 1 ≤ fuel := by
      have h2 : ((k : ℚ) + 1) * dt < fuel * dt := by nlinarith
      have h3 : (k : ℚ) + 1 < fuel := lt_of_mul_lt_mul_right h2 (le_of_lt hdt)
      have h4 : ((k + 1 : ℕ) : ℚ) < (fuel : ℚ) := by
        push_cast
        exact h3
      exact le_of_lt (Nat.cast_lt.mp h4)
    obtain ⟨r, hr, _, hall⟩ := reference_solution_loop_returns interpolate dt hdt k fuel 0 []
      (by linarith) hkf
    exact ⟨r, by simpa [compute_reference_solution] using hr, hall⟩
  · intro hno
    apply reference_solution_loop_throws interpolate dt fuel 0 [] (by linarith)
    · intro k hk
      apply hno
      exact ⟨k, by linarith⟩
    · linarith

/-- C27 fails for the time step `dt = 3 / 10`: the loop asks for the exact solution at the
times `0, 3/10, 6/10, 9/10` and then at `12/10 < 1 + 3/10`, where
`make_exact_solution__periodic_boundaries` throws `wrong_input_given`; five iterations are
enough to see it, and more fuel does not change the outcome. -/
theorem compute_reference_solution_throws :
    compute_reference_solution (fun _ (f : Vec 1 → ℚ) => f) none (3 / 10) 5
      = some (Except.error Exc.wrong_input_given) ∧
    (LinearTransportProblem.make_exact_solution__periodic_boundaries
        (fun _ (f : Vec 1 → ℚ) => f) (12 / 10)
      = Except.error Exc.wrong_input_given) ∧
    ∀ fuel, 5 ≤ fuel →
      compute_reference_solution (fun _ (f : Vec 1 → ℚ) => f) none (3 / 10) fuel
        = some (Except.error Exc.wrong_input_given) := by
  have hno : ¬ ∃ k : ℕ, (k : ℚ) * (3 / 10) = 1 := by
    rintro ⟨k, hk⟩
    have h3 : ((3 * k : ℕ) : ℚ) = ((10 : ℕ) : ℚ) := by
      push_cast
      linarith
    have h4 : 3 * k = 10 := Nat.cast_injective h3
    omega
  have key : ∀ fuel, 5 ≤ fuel →
      compute_reference_solution (fun _ (f : Vec 1 → ℚ) => f) none (3 / 10) fuel
        = some (Except.error Exc.wrong_input_given) := by
    intro fuel hfuel
    have h5 : (5 : ℚ) ≤ fuel := by exact_mod_cast hfuel
    exact (compute_reference_solution_eq (fun _ (f : Vec 1 → ℚ) => f) (3 / 10) (by norm_num)
      fuel (by linarith)).2 hno
  exact ⟨key 5 (le_refl 5),
    LinearTransportProblem.make_exact_solution_of_gt _ _ (by norm_num), key⟩

end LinearTransportTest

/-! ## ContinuousMapper -/

namespace ContinuousMapper

/-- A loop that returns has passed the step for each of its elements. -/
theorem foldlM_ok_of_mem {σ α : Type} (f : σ → α → Except Exc σ) (l : List α) :
    ∀ init r, l.foldlM f init = Except.ok r → ∀ x ∈ l, ∃ s s1, f s x = Except.ok s1 := by
  induction l with
  | nil =>
    intro _ _ _ x hx
    cases hx
  | cons a l ih =>
    intro init r h x hx
    rw [List.foldlM_cons] at h
    cases hfa : f init a with
    | error e =>
      rw [hfa] at h
      cases h
    | ok s2 =>
      rw [hfa] at h
      rcases List.mem_cons.mp hx with hxa | hxl
      · exact ⟨init, s2, hxa ▸ hfa⟩
      · exact ih s2 r h x hxl

/-- The loop of the constructor over the keys of a finite element returns only when every key
has the index 0. -/
theorem collect_keys_ok {ElementType : Type} (grid_view_ : GridViewType ElementType)
    (geometry_type : GeometryType) (coeffs : LocalFiniteElementCoefficientsInterface)
    (types r : List GeometryType)
    (h : collect_keys grid_view_ geometry_type coeffs types = Except.ok r) :
    ∀ ii, ii < coeffs.size → (coeffs.local_key ii).index = 0 := by
  intro ii hii
  obtain ⟨s, s1, hs⟩ := foldlM_ok_of_mem _ _ _ _ h ii (List.mem_range.mpr hii)
  by_contra hne
  simp only [ne_eq, hne, not_false_eq_true, if_true, bind, Except.bind, throw, throwThe,
    MonadExceptOf.throw] at hs
  cases hs

/-- The body of the loop of the constructor over the geometry types returns only when the
geometry type has a finite element all of whose keys have the index 0. -/
theorem collect_type_ok {ElementType : Type} (grid_view_ : GridViewType ElementType)
    (finite_elements_ : FiniteElements) (state state1 : Nat × List GeometryType)
    (geometry_type : GeometryType)
    (h : collect_type grid_view_ finite_elements_ state geometry_type = Except.ok state1) :
    ∃ finite_element, finite_elements_.lookup geometry_type = some finite_element ∧
      ∀ ii, ii < finite_element.coefficients.size →
        (finite_element.coefficients.local_key ii).index = 0 := by
  unfold collect_type at h
  cases hfe : List.lookup geometry_type finite_elements_ with
  | none =>
    rw [hfe] at h
    cases h
  | some finite_element =>
    rw [hfe] at h
    refine ⟨finite_element, rfl, ?_⟩
    cases hk : collect_keys grid_view_ geometry_type finite_element.coefficients state.2 with
    | error e =>
      simp only [hk, bind, Except.bind] at h
      cases h
    | ok types =>
      exact collect_keys_ok grid_view_ geometry_type finite_element.coefficients state.2 types hk

/-- What a constructor that returns has stored, and what its loop has checked. -/
theorem ctor_ok {ElementType : Type} (grd_vw : GridViewType ElementType)
    (finite_elements : FiniteElements) (self : ContinuousMapper ElementType)
    (h : ctor grd_vw finite_elements = Except.ok self) :
    self.grid_view_ = grd_vw ∧ self.finite_elements_ = finite_elements ∧
      ∀ geometry_type ∈ grd_vw.types0,
        ∃ finite_element, finite_elements.lookup geometry_type = some finite_element ∧
          ∀ ii, ii < finite_element.coefficients.size →
            (finite_element.coefficients.local_key ii).index = 0 := by
  unfold ctor at h
  split_ifs at h with h3
  · cases h
  · cases hloop : List.foldlM (collect_type grd_vw finite_elements) (0, []) grd_vw.types0 with
    | error e =>
      simp only [hloop, bind, Except.bind, pure, Except.pure] at h
      cases h
    | ok state =>
      simp only [hloop, bind, Except.bind, pure, Except.pure] at h
      split_ifs at h with hempty
      have e := Except.ok.inj h
      subst e
      refine ⟨rfl, rfl, ?_⟩
      intro geometry_type hgt
      obtain ⟨s, s1, hs⟩ := foldlM_ok_of_mem _ _ _ _ hloop geometry_type hgt
      exact collect_type_ok grd_vw finite_elements s s1 geometry_type hs

/-- The method `local_coefficients` for a geometry type with a finite element. -/
theorem local_coefficients_of_lookup {ElementType : Type} (self : ContinuousMapper ElementType)
    (geometry_type : GeometryType) (finite_element : FiniteElement)
    (h : self.finite_elements_.lookup geometry_type = some finite_element) :
    self.local_coefficients geometry_type = Except.ok finite_element.coefficients := by
  simp only [local_coefficients, h]
  rfl

/-- C24. The invariant that `global_index` and `global_indices` rely on: when the constructor
returns, then for every element whose geometry type is among `indexSet().types(0)` the methods
`local_coefficients` and `local_size` return, and for every `local_index < local_size(element)`
the key `local_key(local_index)` has `index() == 0`. -/
theorem ctor_local_key_index_zero {ElementType : Type} (grd_vw : GridViewType ElementType)
    (finite_elements : FiniteElements) (self : ContinuousMapper ElementType)
    (hctor : ctor grd_vw finite_elements = Except.ok self) (element : ElementType)
    (hgt : grd_vw.geometry_type element ∈ grd_vw.types0) :
    ∃ coeffs, self.local_coefficients (grd_vw.geometry_type element) = Except.ok coeffs ∧
      self.local_size element = Except.ok coeffs.size ∧
      ∀ local_index, local_index < coeffs.size → (coeffs.local_key local_index).index = 0 := by
  obtain ⟨hgv, hfes, hall⟩ := ctor_ok grd_vw finite_elements self hctor
  obtain ⟨finite_element, hfe, hkeys⟩ := hall _ hgt
  have hc : self.local_coefficients (grd_vw.geometry_type element)
      = Except.ok finite_element.coefficients :=
    local_coefficients_of_lookup self _ finite_element (hfes ▸ hfe)
  refine ⟨finite_element.coefficients, hc, ?_, hkeys⟩
  simp only [local_size, hgv, hc, bind, Except.bind, pure, Except.pure]

/-- C24 for the linear Lagrange space on a grid of lines: the constructor returns, the element
3 has two local indices, and both keys have the index 0. -/
theorem ctor_local_key_index_zero_witness :
    ctor line_grid_view p1_finite_elements = Except.ok p1_mapper ∧
    ∃ coeffs, p1_mapper.local_coefficients (line_grid_view.geometry_type 3) = Except.ok coeffs ∧
      p1_mapper.local_size 3 = Except.ok coeffs.size ∧ coeffs.size = 2 ∧
      (coeffs.local_key 0).index = 0 ∧ (coeffs.local_key 1).index = 0 := by
  have hctor : ctor line_grid_view p1_finite_elements = Except.ok p1_mapper := rfl
  obtain ⟨coeffs, hc, hs, hk⟩ := ctor_local_key_index_zero line_grid_view p1_finite_elements
    p1_mapper hctor 3 (by decide)
  have hc2 : coeffs = p1_coefficients := by
    have h2 : p1_mapper.local_coefficients (line_grid_view.geometry_type 3)
        = Except.ok p1_coefficients := rfl
    rw [h2] at hc
    exact (Except.ok.inj hc).symm
  have h2 : coeffs.size = 2 := by rw [hc2]; rfl
  exact ⟨hctor, coeffs, hc, hs, h2, hk 0 (by omega), hk 1 (by omega)⟩

end ContinuousMapper

namespace ContinuousMapper

/-- The value of `global_index` for an element whose geometry type has a finite element. -/
theorem global_index_of_lookup {ElementType : Type} (self : ContinuousMapper ElementType)
    (element : ElementType) (finite_element : FiniteElement)
    (h : self.finite_elements_.lookup (self.grid_view_.geometry_type element)
      = some finite_element) (local_index : Nat) :
    self.global_index element local_index =
      if local_index ≥ finite_element.coefficients.size then
        Except.error Exc.mapper_error
      else
        Except.ok (self.mapper_.subIndex element
          (finite_element.coefficients.local_key local_index).subEntity
          (finite_element.coefficients.local_key local_index).codim) := by
  simp only [global_index, local_coefficients_of_lookup self _ finite_element h, bind,
    Except.bind]
  split_ifs <;> rfl

/-- C28. For a mapper whose constructor has returned and an element whose geometry type has a
finite element: `local_size` returns the number of keys, `global_index(element, local_index)`
throws `mapper_error` if and only if `local_index >= local_size(element)`, and otherwise it
returns `subIndex(element, key.subEntity(), key.codim())` of the underlying mapper for
`key = local_key(local_index)`. -/
theorem global_index_throws_iff {ElementType : Type} (grd_vw : GridViewType ElementType)
    (finite_elements : FiniteElements) (self : ContinuousMapper ElementType)
    (hctor : ctor grd_vw finite_elements = Except.ok self) (element : ElementType)
    (finite_element : FiniteElement)
    (hfe : finite_elements.lookup (grd_vw.geometry_type element) = some finite_element)
    (local_index : Nat) :
    self.local_size element = Except.ok finite_element.coefficients.size ∧
    (self.global_index element local_index = Except.error Exc.mapper_error
      ↔ local_index ≥ finite_element.coefficients.size) ∧
    (local_index < finite_element.coefficients.size →
      self.global_index element local_index =
        Except.ok (self.mapper_.subIndex element
          (finite_element.coefficients.local_key local_index).subEntity
          (finite_element.coefficients.local_key local_index).codim)) := by
  obtain ⟨hgv, hfes, _⟩ := ctor_ok grd_vw finite_elements self hctor
  have h : self.finite_elements_.lookup (self.grid_view_.geometry_type element)
      = some finite_element := by rw [hgv, hfes]; exact hfe
  refine ⟨?_, ?_, ?_⟩
  · simp only [local_size, local_coefficients_of_lookup self _ finite_element h, bind,
      Except.bind, pure, Except.pure]
  · rw [global_index_of_lookup self element finite_element h local_index]
    split_ifs with hge
    · exact ⟨fun _ => hge, fun _ => rfl⟩
    · constructor
      · intro hc
        cases hc
      · intro hc
        exact absurd hc hge
  · intro hlt
    rw [global_index_of_lookup self element finite_element h local_index,
      if_neg (not_le.mpr hlt)]

/-- C28 for the linear Lagrange space on a grid of lines and the element 3: the local indices
0 and 1 map to the vertices 3 and 4, and the local index 2 is refused with `mapper_error`. -/
theorem global_index_throws_iff_witness :
    p1_mapper.local_size 3 = Except.ok 2 ∧
    p1_mapper.global_index 3 0 = Except.ok 3 ∧
    p1_mapper.global_index 3 1 = Except.ok 4 ∧
    p1_mapper.global_index 3 2 = Except.error Exc.mapper_error := by
  have key := fun local_index => global_index_throws_iff line_grid_view p1_finite_elements
    p1_mapper rfl 3 { size := 2, coefficients := p1_coefficients } rfl local_index
  exact ⟨(key 0).1, (key 0).2.2 (by decide), (key 1).2.2 (by decide),
    (key 2).2.1.mpr (by decide)⟩

/-- The loop `indices[ii] = f(ii)` for `ii < n` on a vector with at least `n` entries: the
length stays, the first `n` entries are the values of `f`, the others stay. -/
theorem foldl_set (f : Nat → Nat) (n : Nat) :
    ∀ indices : List Nat, n ≤ indices.length →
      ((List.range n).foldl (fun indices ii => indices.set ii (f ii)) indices).length
          = indices.length ∧
        (∀ ii, ii < n →
          ((List.range n).foldl (fun indices ii => indices.set ii (f ii)) indices)[ii]?
            = some (f ii)) ∧
        (∀ ii, n ≤ ii →
          ((List.range n).foldl (fun indices ii => indices.set ii (f ii)) indices)[ii]?
            = indices[ii]?) := by
  induction n with
  | zero =>
    intro indices _
    exact ⟨rfl, fun ii hii => absurd hii (Nat.not_lt_zero ii), fun _ _ => rfl⟩
  | succ n ih =>
    intro indices hn
    obtain ⟨hlen, hlow, hhigh⟩ := ih indices (Nat.le_of_succ_le hn)
    rw [List.range_succ, List.foldl_append]
    simp only [List.foldl_cons, List.foldl_nil]
    refine ⟨by rw [List.length_set, hlen], ?_, ?_⟩
    · intro ii hii
      by_cases h : ii = n
      · subst h
        rw [List.getElem?_set_self (by rw [hlen]; exact hn)]
      · rw [List.getElem?_set_ne (fun h1 => h h1.symm)]
        exact hlow ii (by omega)
    · intro ii hii
      rw [List.getElem?_set_ne (by omega)]
      exact hhigh ii (by omega)

/-- C29. For a mapper whose constructor has returned and an element whose geometry type has a
finite element, the batch lookup agrees with the single lookups: `global_indices` returns, the
vector has `local_size(element)` entries when it was shorter and keeps its length otherwise,
`indices[ii]` is `global_index(element, ii)` for every `ii < local_size(element)`, and the
entries at positions `>= local_size(element)` are unchanged. -/
theorem global_indices_eq_global_index {ElementType : Type} (grd_vw : GridViewType ElementType)
    (finite_elements : FiniteElements) (self : ContinuousMapper ElementType)
    (hctor : ctor grd_vw finite_elements = Except.ok self) (element : ElementType)
    (finite_element : FiniteElement)
    (hfe : finite_elements.lookup (grd_vw.geometry_type element) = some finite_element)
    (indices : List Nat) :
    ∃ out, self.global_indices element indices = Except.ok out ∧
      self.local_size element = Except.ok finite_element.coefficients.size ∧
      (indices.length < finite_element.coefficients.size →
        out.length = finite_element.coefficients.size) ∧
      (finite_element.coefficients.size ≤ indices.length → out.length = indices.length) ∧
      (∀ ii, ii < finite_element.coefficients.size →
        ∃ global, self.global_index element ii = Except.ok global ∧ out[ii]? = some global) ∧
      (∀ ii, finite_element.coefficients.size ≤ ii → out[ii]? = indices[ii]?) := by
  obtain ⟨hgv, hfes, _⟩ := ctor_ok grd_vw finite_elements self hctor
  have h : self.finite_elements_.lookup (self.grid_view_.geometry_type element)
      = some finite_element := by rw [hgv, hfes]; exact hfe
  have hpad : finite_element.coefficients.size ≤
      (if indices.length < finite_element.coefficients.size then
        indices ++ List.replicate (finite_element.coefficients.size - indices.length) 0
      else indices).length := by
    split_ifs with hl
    · rw [List.length_append, List.length_replicate]
      omega
    · exact not_lt.mp hl
  obtain ⟨hlen, hlow, hhigh⟩ := foldl_set
    (fun ii => self.mapper_.subIndex element (finite_element.coefficients.local_key ii).subEntity
      (finite_element.coefficients.local_key ii).codim)
    finite_element.coefficients.size _ hpad
  have hrun : self.global_indices element indices = Except.ok
      ((List.range finite_element.coefficients.size).foldl
        (fun indices ii => indices.set ii
          (self.mapper_.subIndex element (finite_element.coefficients.local_key ii).subEntity
            (finite_element.coefficients.local_key ii).codim))
        (if indices.length < finite_element.coefficients.size then
          indices ++ List.replicate (finite_element.coefficients.size - indices.length) 0
        else indices)) := by
    simp only [global_indices, local_coefficients_of_lookup self _ finite_element h, bind,
      Except.bind, pure, Except.pure]
  refine ⟨_, hrun, ?_, ?_, ?_, ?_, ?_⟩
  · simp only [local_size, local_coefficients_of_lookup self _ finite_element h, bind,
      Except.bind, pure, Except.pure]
  · intro hl
    rw [hlen, if_pos hl, List.length_append, List.length_replicate]
    omega
  · intro hl
    rw [hlen, if_neg (not_lt.mpr hl)]
  · intro ii hii
    refine ⟨_, ?_, hlow ii hii⟩
    rw [global_index_of_lookup self element finite_element h ii, if_neg (not_le.mpr hii)]
  · intro ii hii
    rw [hhigh ii hii]
    split_ifs with hl
    · rw [List.getElem?_eq_none (by rw [List.length_append, List.length_replicate]; omega),
        List.getElem?_eq_none (by omega)]
    · rfl

/-- C29 for the linear Lagrange space on a grid of lines and the element 3: an empty vector
becomes `[3, 4]`, and the vector `[9, 9, 9]` becomes `[3, 4, 9]`. -/
theorem global_indices_eq_global_index_witness :
    p1_mapper.global_indices 3 [] = Except.ok [3, 4] ∧
    p1_mapper.global_indices 3 [9, 9, 9] = Except.ok [3, 4, 9] ∧
    ∃ out, p1_mapper.global_indices 3 [9, 9, 9] = Except.ok out ∧ out.length = 3 ∧
      (∃ global, p1_mapper.global_index 3 1 = Except.ok global ∧ out[1]? = some global) ∧
      out[2]? = [9, 9, 9][2]? := by
  obtain ⟨out, h, _, _, hlen, hlow, hhigh⟩ := global_indices_eq_global_index line_grid_view
    p1_finite_elements p1_mapper rfl 3 { size := 2, coefficients := p1_coefficients } rfl
    [9, 9, 9]
  exact ⟨rfl, rfl, out, h, hlen (by decide), hlow 1 (by decide), hhigh 2 (by decide)⟩

end ContinuousMapper

end Dune.GDT
